import Mathlib

/-!
# xBridge2 (wixel-sdk, `apps/xBridge2/xBridge2.c`): acquisition and delivery pipeline

Shallow embedding of the parts of `xBridge2.c` that the verified properties are about.
Machine integers are natural numbers reduced modulo `2^w` where the C code can wrap;
arrays are total functions on indices, global variables are fields of explicit state
records, and hardware registers read by the code are parameters.
-/

namespace XBridge

/-! ## Delivery queue (`Dexcom_fifo`, `Pkts`, main loop) -/

/-- Source `#define DXQUEUESIZE 63 //only use 2^x-1 values here!`. -/
def DXQUEUESIZE : Nat := 63

/-- Source `Dexcom_fifo`: `uint8 read`, `uint8 write` and `buffer[DXQUEUESIZE+1]`.
The buffer is a function of the slot index; only slots `0 .. 63` are ever addressed. -/
structure Dexcom_fifo (α : Type) where
  read : Nat
  write : Nat
  buffer : Nat → α

/-- Source `main`, lines 2101-2102: `Pkts.write = 0; Pkts.read = 0;` over whatever the
buffer holds. -/
def Dexcom_fifo.init {α : Type} (buffer : Nat → α) : Dexcom_fifo α :=
  { read := 0, write := 0, buffer := buffer }

/-- Source `main`, lines 2106-2112, the branch taken when `get_packet` returned 1: the packet
was stored in `Pkts.buffer[Pkts.write]`, then
`Pkts.write = (Pkts.write + 1) & (DXQUEUESIZE);` and
`if (Pkts.read == Pkts.write) Pkts.read = (Pkts.read + 1) & (DXQUEUESIZE);`.
Both indices are `uint8`, hence the reduction modulo 256. -/
def Dexcom_fifo.insert {α : Type} (q : Dexcom_fifo α) (p : α) : Dexcom_fifo α :=
  let buffer := Function.update q.buffer q.write p
  let write := ((q.write + 1) &&& DXQUEUESIZE) % 256
  let read := if q.read = write then ((q.read + 1) &&& DXQUEUESIZE) % 256 else q.read
  { read := read, write := write, buffer := buffer }

/-- Successive captures, each followed by the insert step, with no acknowledgement between. -/
def Dexcom_fifo.insertAll {α : Type} (q : Dexcom_fifo α) (ps : List α) : Dexcom_fifo α :=
  ps.foldl Dexcom_fifo.insert q

/-- Source `main`, lines 2149-2161 with every send acknowledged:
`while (Pkts.read != Pkts.write ...) { print_packet(&Pkts.buffer[Pkts.read]); ...
Pkts.read = (Pkts.read + 1) & (DXQUEUESIZE); }`. The list of packets sent, oldest first;
`fuel` bounds the number of iterations. -/
def Dexcom_fifo.drain {α : Type} (buffer : Nat → α) (write : Nat) : Nat → Nat → List α
  | 0, _ => []
  | fuel + 1, read =>
    if read = write then []
    else buffer read :: Dexcom_fifo.drain buffer write fuel (((read + 1) &&& DXQUEUESIZE) % 256)

/-- The unacknowledged entries of the queue, oldest first: what the delivery loop sends when
it runs to `read == write`. 64 iterations always reach `read == write`. -/
def Dexcom_fifo.queued {α : Type} (q : Dexcom_fifo α) : List α :=
  Dexcom_fifo.drain q.buffer q.write (DXQUEUESIZE + 1) q.read

/-! ## RX ring buffer (radio queue functions copied into `xBridge2.c`) -/

/-- Source `#define RX_PACKET_COUNT  3`. -/
def RX_PACKET_COUNT : Nat := 3

/-- A raw frame buffer (`uint8[1 + RADIO_MAX_PACKET_SIZE + 2]`) as a function from byte offset
to byte; the byte at offset 0 is the length. -/
abbrev Frame := Nat → Nat

/-- Source globals `radioQueueRxPacket[RX_PACKET_COUNT][...]`, `radioQueueRxMainLoopIndex`
and `radioQueueRxInterruptIndex`. -/
structure RadioQueue where
  radioQueueRxPacket : Nat → Frame
  radioQueueRxMainLoopIndex : Nat
  radioQueueRxInterruptIndex : Nat

/-- Both indices are initialised to 0 in their declarations. -/
def RadioQueue.init (slots : Nat → Frame) : RadioQueue :=
  { radioQueueRxPacket := slots, radioQueueRxMainLoopIndex := 0,
    radioQueueRxInterruptIndex := 0 }

/-- Source `BIT radioQueueAllowCrcErrors = 1;`. -/
def radioQueueAllowCrcErrors : Bool := true

/-- Source `radioQueueRxCurrentPacket`: null when the two indices are equal, otherwise the
slot at the main-loop index. Nothing is written. -/
def radioQueueRxCurrentPacket (q : RadioQueue) : Option Frame :=
  if q.radioQueueRxMainLoopIndex = q.radioQueueRxInterruptIndex then none
  else some (q.radioQueueRxPacket q.radioQueueRxMainLoopIndex)

/-- Source `radioQueueRxDoneWithPacket`. -/
def radioQueueRxDoneWithPacket (q : RadioQueue) : RadioQueue :=
  if q.radioQueueRxMainLoopIndex = RX_PACKET_COUNT - 1 then
    { q with radioQueueRxMainLoopIndex := 0 }
  else
    { q with radioQueueRxMainLoopIndex := (q.radioQueueRxMainLoopIndex + 1) % 256 }

/-- Source `radioMacEventHandler`, branch `event == RADIO_MAC_EVENT_RX`, given the state the
radio leaves behind: the received frame `f` is in the slot handed to `radioMacRx`, which is
always `radioQueueRxPacket[radioQueueRxInterruptIndex]` (`takeInitiative`; the TX indices are
never changed, so `takeInitiative` always calls `radioMacRx`). `crcPassed` is
`radioCrcPassed()`. -/
def radioMacEventHandler_RX (q : RadioQueue) (f : Frame) (crcPassed : Bool) : RadioQueue :=
  let q1 : RadioQueue :=
    { q with radioQueueRxPacket :=
        Function.update q.radioQueueRxPacket q.radioQueueRxInterruptIndex f }
  if !radioQueueAllowCrcErrors && !crcPassed then q1
  else if q1.radioQueueRxPacket q1.radioQueueRxInterruptIndex 0 > 0 then
    let nextradioQueueRxInterruptIndex :=
      if q1.radioQueueRxInterruptIndex = RX_PACKET_COUNT - 1 then 0
      else (q1.radioQueueRxInterruptIndex + 1) % 256
    if nextradioQueueRxInterruptIndex ≠ q1.radioQueueRxMainLoopIndex then
      { q1 with radioQueueRxInterruptIndex := nextradioQueueRxInterruptIndex }
    else q1
  else q1

/-- The slots the main loop owns, oldest first: "from radioQueueRxMainLoopIndex to
radioQueueRxInterruptIndex-1 inclusive" (source comment on `rxPackets`). -/
def RadioQueue.owned (q : RadioQueue) : List Frame :=
  (List.range ((q.radioQueueRxInterruptIndex + 3 - q.radioQueueRxMainLoopIndex) % 3)).map
    (fun k => q.radioQueueRxPacket ((q.radioQueueRxMainLoopIndex + k) % 3))

/-- One step of an interleaving: an RX event delivering frame `f` (with the CRC flag the radio
reports), or the next step of the main loop. -/
inductive RxEvent where
  | rx (f : Frame) (crcPassed : Bool)
  | mainLoop

/-- The ring together with the main loop's position in its read sequence and the history of
the run: `held` is the frame `radioQueueRxCurrentPacket` returned and that has not been
released yet, `published` the frames whose RX event advanced the interrupt index, `consumed`
the frames the main loop has read and released. -/
structure RxRun where
  q : RadioQueue
  held : Option Frame
  published : List Frame
  consumed : List Frame

/-- Start of a run: both indices 0, nothing read or published. -/
def RxRun.init (slots : Nat → Frame) : RxRun :=
  { q := RadioQueue.init slots, held := none, published := [], consumed := [] }

/-- One step of the interleaving. The main loop (as in `WaitForPacket`) calls
`radioQueueRxCurrentPacket`; when that returned a frame its next step reads the slot and calls
`radioQueueRxDoneWithPacket`. RX events may fall between the two steps. -/
def RxRun.step (t : RxRun) : RxEvent → RxRun
  | RxEvent.rx f crcPassed =>
    let q1 := radioMacEventHandler_RX t.q f crcPassed
    { t with
      q := q1
      published :=
        if q1.radioQueueRxInterruptIndex ≠ t.q.radioQueueRxInterruptIndex
        then t.published ++ [f] else t.published }
  | RxEvent.mainLoop =>
    match t.held with
    | none => { t with held := radioQueueRxCurrentPacket t.q }
    | some _ =>
      { t with
        q := radioQueueRxDoneWithPacket t.q
        held := none
        consumed := t.consumed ++ [t.q.radioQueueRxPacket t.q.radioQueueRxMainLoopIndex] }

/-- A finite interleaving run from a state. -/
def RxRun.run (t : RxRun) (es : List RxEvent) : RxRun :=
  es.foldl RxRun.step t

/-! ## Channel scanner: the frame examination of `WaitForPacket` -/

/-- Source `#define NUM_CHANNELS (4)`. -/
def NUM_CHANNELS : Nat := 4

/-- Source `Dexcom_packet`, held as its bytes. SDCC for the 8051 packs the struct without
padding and stores multi-byte fields little-endian, so the fields sit at byte offsets
`len` 0, `dest_addr` 1, `src_addr` 5, `port` 9, `device_info` 10, `txId` 11, `raw` 12,
`filtered` 14, `battery` 16, `unknown` 17, `checksum` 18, `RSSI` 19, `LQI` 20, `ms` 21. -/
structure Dexcom_packet where
  bytes : Nat → Nat

/-- Value of `sizeof(Dexcom_packet)`: 1+4+4+1+1+1+2+2+1+1+1+1+1+4. -/
def sizeof_Dexcom_packet : Nat := 25

/-- Field `src_addr` (`uint32` at offset 5). -/
def Dexcom_packet.src_addr (p : Dexcom_packet) : Nat :=
  p.bytes 5 + 256 * p.bytes 6 + 65536 * p.bytes 7 + 16777216 * p.bytes 8

/-- Field `txId` (`uint8` at offset 11). -/
def Dexcom_packet.txId (p : Dexcom_packet) : Nat := p.bytes 11

/-- Field `raw` (`uint16` at offset 12). -/
def Dexcom_packet.raw (p : Dexcom_packet) : Nat := p.bytes 12 + 256 * p.bytes 13

/-- Field `filtered` (`uint16` at offset 14). -/
def Dexcom_packet.filtered (p : Dexcom_packet) : Nat := p.bytes 14 + 256 * p.bytes 15

/-- Field `battery` (`uint8` at offset 16). -/
def Dexcom_packet.battery (p : Dexcom_packet) : Nat := p.bytes 16

/-- Field `ms` (`uint32` at offset 21). -/
def Dexcom_packet.ms (p : Dexcom_packet) : Nat :=
  p.bytes 21 + 256 * p.bytes 22 + 65536 * p.bytes 23 + 16777216 * p.bytes 24

/-- Assignment to field `txId`. -/
def Dexcom_packet.set_txId (p : Dexcom_packet) (v : Nat) : Dexcom_packet :=
  { bytes := Function.update p.bytes 11 v }

/-- Source `min8`. -/
def min8 (a b : Nat) : Nat := if a < b then a else b

/-- C library `memcpy(dst, src, n)` on byte buffers: the first `n` bytes come from `src`. -/
def memcpy (dst src : Nat → Nat) (n : Nat) : Nat → Nat :=
  fun i => if i < n then src i else dst i

/-- Conversion of an `int` value to `int8` (two's complement wrap). -/
def toInt8 (x : Int) : Int := (x + 128) % 256 - 128

/-- The globals `WaitForPacket` reads and writes: the RX ring, `fOffset[NUM_CHANNELS]`
(`int8`), `pkt_time`, the function's static `lastpktxid`, `last_channel` and
`settings.dex_tx_id`. -/
structure ScanState where
  rx : RadioQueue
  fOffset : Nat → Int
  pkt_time : Nat
  lastpktxid : Nat
  last_channel : Nat
  dex_tx_id : Nat

/-- Source `WaitForPacket`, line 1780: `pkt->txId -= channel;` in `uint8` arithmetic. -/
def txId_sub_channel (txId channel : Nat) : Nat := (txId + 256 - channel % 256) % 256

/-- Source `WaitForPacket`, lines 1780-1782: the normalized id
`txid = (pkt->txId & 0xFC) >> 2;` computed after `pkt->txId -= channel;`. -/
def WaitForPacket_txid (txId channel : Nat) : Nat :=
  (((txId_sub_channel txId channel) &&& 0xFC) >>> 2) % 256

/-- Source `WaitForPacket`, line 1773:
`memcpy(pkt, packet, min8(len+2, sizeof(Dexcom_packet)));` with `len = packet[0]`. The
argument `len+2` is converted to `uint8` by the call. -/
def WaitForPacket_copy (pkt : Dexcom_packet) (packet : Frame) : Dexcom_packet :=
  { bytes := memcpy pkt.bytes packet (min8 ((packet 0 + 2) % 256) sizeof_Dexcom_packet) }

/-- Source `WaitForPacket`, lines 1753-1807: the body of
`if (packet = radioQueueRxCurrentPacket())` for a non-null `packet`, on a valid channel.
`crcPassed` is `radioCrcPassed()`, `now` is `getMs()`, `FREQEST` the value read from that
8-bit register, `pkt` the destination packet. Returns `nRet`, the globals and the destination
packet. -/
def WaitForPacket_examine (s : ScanState) (pkt : Dexcom_packet) (channel : Nat)
    (packet : Frame) (crcPassed : Bool) (now FREQEST : Nat) : Int × ScanState × Dexcom_packet :=
  if crcPassed then
    let s1 := { s with pkt_time := now }
    let s2 :=
      if (0xff - s1.fOffset channel) > (FREQEST : Int) then
        { s1 with fOffset :=
            Function.update s1.fOffset channel (toInt8 (s1.fOffset channel + FREQEST)) }
      else s1
    let pkt1 := WaitForPacket_copy pkt packet
    if pkt1.src_addr = s2.dex_tx_id ∨ s2.dex_tx_id = 0 then
      let pkt2 := pkt1.set_txId (txId_sub_channel pkt1.txId channel)
      let txid := WaitForPacket_txid pkt1.txId channel
      if txid ≠ s2.lastpktxid then
        (1, { s2 with lastpktxid := txid, last_channel := channel,
                      rx := radioQueueRxDoneWithPacket s2.rx }, pkt2)
      else
        (0, { s2 with last_channel := channel, rx := radioQueueRxDoneWithPacket s2.rx }, pkt2)
    else
      (0, { s2 with rx := radioQueueRxDoneWithPacket s2.rx }, pkt1)
  else
    (-2, { s with rx := radioQueueRxDoneWithPacket s.rx }, pkt)

/-! ## Frame decoder -/

/-- Source `bit_reverse_byte`. -/
def bit_reverse_byte (i : Nat) : Nat :=
  let bRet := 0
  let bRet := if i &&& 0x01 ≠ 0 then bRet ||| 0x80 else bRet
  let bRet := if i &&& 0x02 ≠ 0 then bRet ||| 0x40 else bRet
  let bRet := if i &&& 0x04 ≠ 0 then bRet ||| 0x20 else bRet
  let bRet := if i &&& 0x08 ≠ 0 then bRet ||| 0x10 else bRet
  let bRet := if i &&& 0x10 ≠ 0 then bRet ||| 0x08 else bRet
  let bRet := if i &&& 0x20 ≠ 0 then bRet ||| 0x04 else bRet
  let bRet := if i &&& 0x40 ≠ 0 then bRet ||| 0x02 else bRet
  let bRet := if i &&& 0x80 ≠ 0 then bRet ||| 0x01 else bRet
  bRet

/-- Source `bit_reverse_bytes`: every byte of the buffer is replaced by its bit reversal,
in place. -/
def bit_reverse_bytes (buf : List Nat) : List Nat := buf.map bit_reverse_byte

/-- Source `dex_num_decoder`. The two bytes of `usReversed` are reversed in place, so the
byte order of the platform does not matter. -/
def dex_num_decoder (usShortFloat : Nat) : Nat :=
  let buf := bit_reverse_bytes [usShortFloat % 256, usShortFloat / 256 % 256]
  let usReversed := buf.getD 0 0 + 256 * buf.getD 1 0
  let usExponent := ((usReversed &&& 0xE000) >>> 13) % 256
  let usMantissa := usReversed &&& 0x1FFF
  (usMantissa <<< usExponent) % 2 ^ 32

/-- Source `RawRecord`. -/
structure RawRecord where
  size : Nat
  cmd_code : Nat
  raw : Nat
  filtered : Nat
  dex_battery : Nat
  my_battery : Nat
  dex_src_id : Nat
  delay : Nat
  function : Nat

/-- Value of `sizeof(RawRecord)`: 1+1+4+4+1+1+4+4+1. -/
def sizeof_RawRecord : Nat := 21

/-- Source `#define DEXBRIDGE_PROTO_LEVEL (0x01)`. -/
def DEXBRIDGE_PROTO_LEVEL : Nat := 1

/-- Source `print_packet`: the message it prepares and hands to `send_data`.
`battery_capacity` is the global of that name, `now` is `getMs()`. -/
def print_packet (pPkt : Dexcom_packet) (battery_capacity now : Nat) : RawRecord :=
  { cmd_code := 0x00
    raw := dex_num_decoder pPkt.raw
    filtered := (dex_num_decoder pPkt.filtered * 2) % 2 ^ 32
    dex_battery := pPkt.battery
    my_battery := battery_capacity
    dex_src_id := pPkt.src_addr
    size := sizeof_RawRecord
    delay := (now + 2 ^ 32 - pPkt.ms % 2 ^ 32) % 2 ^ 32
    function := DEXBRIDGE_PROTO_LEVEL }

/-- Source `SrcNameTable`. -/
def SrcNameTable : List Char :=
  ['0', '1', '2', '3', '4', '5', '6', '7',
   '8', '9', 'A', 'B', 'C', 'D', 'E', 'F',
   'G', 'H', 'J', 'K', 'L', 'M', 'N', 'P',
   'Q', 'R', 'S', 'T', 'U', 'W', 'X', 'Y']

/-- Source `dexcom_src_to_ascii`: the six bytes of `addr`, the last being the null
character. -/
def dexcom_src_to_ascii (src : Nat) : List Char :=
  [SrcNameTable.getD ((src >>> 20) &&& 0x1F) (Char.ofNat 0),
   SrcNameTable.getD ((src >>> 15) &&& 0x1F) (Char.ofNat 0),
   SrcNameTable.getD ((src >>> 10) &&& 0x1F) (Char.ofNat 0),
   SrcNameTable.getD ((src >>> 5) &&& 0x1F) (Char.ofNat 0),
   SrcNameTable.getD ((src >>> 0) &&& 0x1F) (Char.ofNat 0),
   Char.ofNat 0]

/-! ## Sleep scheduler -/

/-- Source `#define DX_PKT_INTERVAL ((uint32)(300000))`. -/
def DX_PKT_INTERVAL : Nat := 300000

/-- Source `XDATA uint16 wake_before_packet = 20000;` (never assigned elsewhere). -/
def wake_before_packet : Nat := 20000

/-- Source `calcSleep`, the loop `while (less > diff) less -= diff;`. `none` when `fuel`
iterations do not end it. -/
def calcSleep_loop (diff : Nat) : Nat → Nat → Option Nat
  | 0, _ => none
  | fuel + 1, less =>
    if less > diff then calcSleep_loop diff fuel (less - diff) else some less

/-- Source `calcSleep`. `now` is `getMs()`; all arithmetic is `uint32`. The product
`last_channel * 500` is the exact one: `last_channel` only ever holds a channel index below
`NUM_CHANNELS` (it is assigned in `WaitForPacket` after the channel check). -/
def calcSleep (fuel pkt_time now last_channel : Nat) : Option Nat :=
  if pkt_time = 0 then some 0
  else
    let diff := (DX_PKT_INTERVAL + 2 ^ 32 - wake_before_packet - last_channel * 500) % 2 ^ 32
    let less := (now + 2 ^ 32 - pkt_time) % 2 ^ 32
    match calcSleep_loop diff fuel less with
    | none => none
    | some less1 => some ((diff + 2 ^ 32 - less1) % 2 ^ 32)

/-! ## Channel scanner: `WaitForPacket` and `get_packet` -/

/-- Subtraction of two `uint32` values. -/
def sub32 (a b : Nat) : Nat := (a % 2 ^ 32 + 2 ^ 32 - b % 2 ^ 32) % 2 ^ 32

/-- The two radio registers `swap_channel` writes. -/
structure Radio where
  CHANNR : Nat
  FSCTRL0 : Nat

/-- Source `static uint8 nChannels[NUM_CHANNELS] = { 0, 100, 199, 209 };`. -/
def nChannels (i : Nat) : Nat := [0, 100, 199, 209].getD i 0

/-- Source `static const int8 fOffsetDefaults[NUM_CHANNELS] = {0xF2,0xF9,0x0A,0x0B};`. -/
def fOffsetDefaults (i : Nat) : Int := [-14, -7, 10, 11].getD i 0

/-- Source `swap_channel`: after the radio is idle, `FSCTRL0 = newFSCTRL0; CHANNR = channel;`
and the radio is put back into receive mode. -/
def swap_channel (channel newFSCTRL0 : Nat) : Radio :=
  { CHANNR := channel, FSCTRL0 := newFSCTRL0 }

/-- What the surroundings supply to one pass of the `while` loop of `WaitForPacket`: the frames
the radio interrupt delivered since the previous pass (each with its `radioCrcPassed()`), the
`getMs()` reading of the loop condition, whether `doServices(1)` returned non-zero, the value a
TXID command processed by `doServices` stored in `settings.dex_tx_id` (if one was processed),
the `getMs()` reading of the abort test and, for a pending frame, `radioCrcPassed()`, the
`getMs()` reading stored in `pkt_time` and the `FREQEST` register. -/
structure WaitPass where
  rx : List (Frame × Bool)
  ms_cond : Nat
  services : Bool
  dex_tx_id : Option Nat
  ms_abort : Nat
  crcPassed : Bool
  ms_pkt : Nat
  FREQEST : Nat

/-- What `doServices(1)` does to the globals of `WaitForPacket`: a TXID command it processes
stores the transmitter id it carries in `settings.dex_tx_id`; nothing else is written. -/
def doServices_globals (s : ScanState) (tx_id : Option Nat) : ScanState :=
  match tx_id with
  | some v => { s with dex_tx_id := v }
  | none => s

/-- The radio interrupt handler run once for each delivered frame, in order. -/
def RadioQueue.deliver (q : RadioQueue) (fs : List (Frame × Bool)) : RadioQueue :=
  fs.foldl (fun q f => radioMacEventHandler_RX q f.1 f.2) q

/-- The result of one `WaitForPacket` call: the return value `nRet`, the globals, the
destination packet and the radio registers afterwards. `examined` records the pending frame
the call entered `if (packet = radioQueueRxCurrentPacket())` with, if it did. -/
structure WaitResult where
  nRet : Int
  s : ScanState
  pkt : Dexcom_packet
  radio : Radio
  examined : Option Frame

/-- Source `WaitForPacket`, lines 1746-1811: the `while` loop, one list element per pass.
`start` is the `getMs()` reading of line 1726. `none` when the list ends before the loop
does. -/
def WaitForPacket_loop (milliseconds start channel : Nat) (radio : Radio) :
    ScanState → Dexcom_packet → List WaitPass → Option WaitResult
  | _, _, [] => none
  | s, pkt, p :: ps =>
    let s0 : ScanState := { s with rx := RadioQueue.deliver s.rx p.rx }
    if milliseconds = 0 ∨ sub32 p.ms_cond start < milliseconds then
      let s1 : ScanState := doServices_globals s0 p.dex_tx_id
      if p.services = false ∨ sub32 p.ms_abort start > 320000 then
        some { nRet := -1, s := s1, pkt := pkt, radio := radio, examined := none }
      else
        match radioQueueRxCurrentPacket s1.rx with
        | some packet =>
          let r := WaitForPacket_examine s1 pkt channel packet p.crcPassed p.ms_pkt p.FREQEST
          some { nRet := r.1, s := r.2.1, pkt := r.2.2, radio := radio,
                 examined := some packet }
        | none => WaitForPacket_loop milliseconds start channel radio s1 pkt ps
    else
      some { nRet := 0, s := s0, pkt := pkt, radio := radio, examined := none }

/-- Source `WaitForPacket(milliseconds, pkt, channel)`: the channel check, `swap_channel`
with the channel's number and stored offset (converted to `uint8`), then the loop. -/
def WaitForPacket (milliseconds : Nat) (pkt : Dexcom_packet) (channel : Nat) (s : ScanState)
    (radio : Radio) (start : Nat) (passes : List WaitPass) : Option WaitResult :=
  if channel ≥ NUM_CHANNELS then
    some { nRet := -3, s := s, pkt := pkt, radio := radio, examined := none }
  else
    WaitForPacket_loop milliseconds start channel
      (swap_channel (nChannels channel) ((s.fOffset channel % 256).toNat)) s pkt passes

/-- Source `#define START_CHANNEL (0)`. -/
def START_CHANNEL : Nat := 0

/-- Assignment to field `ms` (`uint32` at offset 21, low byte first). -/
def Dexcom_packet.set_ms (p : Dexcom_packet) (v : Nat) : Dexcom_packet :=
  { bytes := fun i =>
      if i = 21 then v % 256 else if i = 22 then v / 256 % 256
      else if i = 23 then v / 65536 % 256 else if i = 24 then v / 16777216 % 256
      else p.bytes i }

/-- Source `get_packet`, lines 1893-1896:
`while(delay > DX_PKT_INTERVAL) delay -= DX_PKT_INTERVAL;`, the first argument bounding the
number of iterations. -/
def get_packet_reduce : Nat → Nat → Nat
  | 0, delay => delay
  | n + 1, delay =>
    if delay > DX_PKT_INTERVAL then get_packet_reduce n (delay - DX_PKT_INTERVAL) else delay

/-- Source `get_packet`, lines 1852-1899: the value of `delay` handed to `WaitForPacket` for
channel index `nChannel`. `timed_out` and `crc_error` are the function's statics, `ms_cmp` the
`getMs()` reading of line 1871 and `ms_calc` the one of line 1875 or 1882; all arithmetic is
`uint32`. The loop of lines 1893-1896 is given `delay / DX_PKT_INTERVAL` iterations, which
always end it. -/
def get_packet_delay (nChannel : Nat) (timed_out crc_error : Bool)
    (pkt_time last_channel ms_cmp ms_calc : Nat) : Nat :=
  if nChannel ≠ START_CHANNEL then 500
  else if timed_out = true ∧ nChannel = 0 then 298500 + 10
  else
    let delay0 :=
      if pkt_time = 0 then 0
      else if ms_cmp < pkt_time then
        sub32 DX_PKT_INTERVAL (sub32 (4294967295 + ms_calc) pkt_time)
      else sub32 DX_PKT_INTERVAL (sub32 ms_calc pkt_time)
    let delay1 :=
      if delay0 > 0 then
        let d := sub32 delay0 (last_channel * 500)
        if crc_error then (d + 10) % 2 ^ 32 else d
      else delay0
    get_packet_reduce (delay1 / DX_PKT_INTERVAL) delay1

/-- Everything `get_packet` reads and writes: its statics `timed_out` and `crc_error`, the
globals of `WaitForPacket`, the radio registers and the packet `pPkt` points to. -/
structure GetPacketState where
  timed_out : Bool
  crc_error : Bool
  s : ScanState
  radio : Radio
  pkt : Dexcom_packet

/-- Record of one `WaitForPacket` call made by `get_packet`: the channel index, the wait
window and the value returned. -/
structure WaitCall where
  channel : Nat
  milliseconds : Nat
  nRet : Int

/-- What the surroundings supply to one `get_packet` call: the two `getMs()` readings of the
window computation and, for each channel index, the `getMs()` reading on entry of its wait and
the passes of its wait loop. -/
structure CycleEnv where
  ms_cmp : Nat
  ms_calc : Nat
  start : Nat → Nat
  passes : Nat → List WaitPass

/-- The result of one `get_packet` call: the return value, the state afterwards and the
`WaitForPacket` calls made, in order. -/
structure GetPacketResult where
  ret : Int
  st : GetPacketState
  calls : List WaitCall

/-- Source `get_packet`, the `for` loop of lines 1849-1941 with `k` channel indices left, so
`nChannel = NUM_CHANNELS - k`, followed by the final `return 0`. `none` when a wait does not
end within the passes supplied for it. -/
def get_packet_from (env : CycleEnv) : Nat → GetPacketState → Option GetPacketResult
  | 0, st => some { ret := 0, st := st, calls := [] }
  | k + 1, st =>
    let nChannel := NUM_CHANNELS - (k + 1)
    let delay := get_packet_delay nChannel st.timed_out st.crc_error st.s.pkt_time
      st.s.last_channel env.ms_cmp env.ms_calc
    match WaitForPacket delay st.pkt nChannel st.s st.radio (env.start nChannel)
        (env.passes nChannel) with
    | none => none
    | some r =>
      let call : WaitCall := { channel := nChannel, milliseconds := delay, nRet := r.nRet }
      let st1 : GetPacketState := { st with s := r.s, radio := r.radio, pkt := r.pkt }
      if r.nRet = 1 then
        some { ret := 1,
               st := { st1 with pkt := st1.pkt.set_ms st1.s.pkt_time, timed_out := false },
               calls := [call] }
      else if r.nRet = 0 then
        (get_packet_from env k
          { st1 with
            timed_out := true,
            s := { st1.s with
                   fOffset := Function.update st1.s.fOffset nChannel
                     (fOffsetDefaults nChannel) } }).map
          (fun res => { res with calls := call :: res.calls })
      else if r.nRet = -1 then
        some { ret := 0, st := st1, calls := [call] }
      else if r.nRet = -2 then
        (get_packet_from env k { st1 with crc_error := true }).map
          (fun res => { res with calls := call :: res.calls })
      else
        (get_packet_from env k st1).map (fun res => { res with calls := call :: res.calls })

/-- Source `get_packet(pPkt)`: the scan starts at `START_CHANNEL`. -/
def get_packet (env : CycleEnv) (st : GetPacketState) : Option GetPacketResult :=
  get_packet_from env (NUM_CHANNELS - START_CHANNEL) st

/-- One call of `get_packet` from the main loop: what the surroundings supply to the call and
what the main loop did to the state since the previous call returned. -/
structure Cycle where
  env : CycleEnv
  main : GetPacketState → GetPacketState

/-- The state on entry of a cycle. `timed_out` and `crc_error` are statics of `get_packet`,
out of reach of the rest of the program, so they are as the previous call left them. -/
def Cycle.entry (c : Cycle) (st : GetPacketState) : GetPacketState :=
  { c.main st with timed_out := st.timed_out, crc_error := st.crc_error }

/-- Successive `get_packet` calls of the main loop: the state after the last one and all
`WaitForPacket` calls made, in order. -/
def get_packet_cycles : GetPacketState → List Cycle → Option (GetPacketState × List WaitCall)
  | st, [] => some (st, [])
  | st, c :: cs =>
    match get_packet c.env (c.entry st) with
    | none => none
    | some r => (get_packet_cycles r.st cs).map (fun x => (x.1, r.calls ++ x.2))

/-! ## Delivery pass of the main loop -/

/-- What the surroundings supply to one pass of the sending loop of `main` (lines 2149-2161):
`ble_connected` and the `getMs()` reading of the loop condition, and `got_ack` as it stands
after `waitDoingServicesInterruptible(2000, got_ack, 1)`. -/
structure SendPass where
  ble_connected : Bool
  ms : Nat
  got_ack : Bool

/-- Source `main`, lines 2149-2161: the sending loop, one list element per evaluation of the
loop condition; `tmp_ms` is the `getMs()` reading of line 2147. Returns the queue afterwards
and the entries handed to `print_packet`, in order. `none` when the list ends before the loop
does. -/
def delivery_loop {α : Type} (tmp_ms : Nat) :
    Dexcom_fifo α → List SendPass → Option (Dexcom_fifo α × List α)
  | _, [] => none
  | q, p :: ps =>
    if q.read ≠ q.write ∧ p.ble_connected = true ∧ sub32 p.ms tmp_ms < 120000 then
      let q1 : Dexcom_fifo α :=
        if p.got_ack then { q with read := ((q.read + 1) &&& DXQUEUESIZE) % 256 } else q
      (delivery_loop tmp_ms q1 ps).map (fun r => (r.1, q.buffer q.read :: r.2))
    else some (q, [])

/-- The value of the static `timed_out` after a sequence of `WaitForPacket` return values,
starting from `b`: a capture (1) clears it, a timeout (0) sets it, every other value leaves
it. -/
def timed_out_after (b : Bool) (rets : List Int) : Bool :=
  rets.foldl (fun b r => if r = 1 then false else if r = 0 then true else b) b

/-- What a `get_packet` scan with `k` channel indices left does, read off its result: the calls
are on consecutive channel indices from `NUM_CHANNELS - k`, with a 500 ms window off the start
channel; the statics follow the return values; and the scan ends in a capture (return 1, `ms`
set to `pkt_time`), in an abort (return 0), or after all channels without either (return 0),
every call before the last having returned neither captured nor aborted. -/
def GetPacketSpec (k : Nat) (st : GetPacketState) (res : GetPacketResult) : Prop :=
  res.calls.map WaitCall.channel = List.range' (NUM_CHANNELS - k) res.calls.length
    ∧ res.calls.length ≤ k
    ∧ (∀ c ∈ res.calls, c.channel ≠ START_CHANNEL → c.milliseconds = 500)
    ∧ res.st.timed_out = timed_out_after st.timed_out (res.calls.map WaitCall.nRet)
    ∧ res.st.crc_error = (st.crc_error || res.calls.any (fun c => decide (c.nRet = -2)))
    ∧ ((res.ret = 1 ∧ ∃ init last, res.calls = init ++ [last] ∧ last.nRet = 1
            ∧ (∀ c ∈ init, c.nRet ≠ 1 ∧ c.nRet ≠ -1)
            ∧ res.st.pkt.ms = res.st.s.pkt_time % 2 ^ 32)
        ∨ (res.ret = 0 ∧ ∃ init last, res.calls = init ++ [last] ∧ last.nRet = -1
            ∧ (∀ c ∈ init, c.nRet ≠ 1 ∧ c.nRet ≠ -1))
        ∨ (res.ret = 0 ∧ res.calls.length = k ∧ ∀ c ∈ res.calls, c.nRet ≠ 1 ∧ c.nRet ≠ -1))

/-! ## Packets sent to the app: `send_data`, `print_packet`, `sendBeacon` -/

/-- The four bytes of a `uint32` in memory, low byte first (the 8051 target is
little-endian). -/
def le32 (v : Nat) : List Nat :=
  [v % 256, v / 256 % 256, v / 65536 % 256, v / 16777216 % 256]

/-- The `uint32` read from the first four bytes of a byte sequence, low byte first. -/
def of_le32 (bs : List Nat) : Nat :=
  bs.getD 0 0 + 256 * bs.getD 1 0 + 65536 * bs.getD 2 0 + 16777216 * bs.getD 3 0

/-- The bytes of a `RawRecord` in memory, in declaration order and without padding (the
compiler aligns to bytes): `size`, `cmd_code`, `raw`, `filtered`, `dex_battery`, `my_battery`,
`dex_src_id`, `delay`, `function`. -/
def RawRecord.memory (m : RawRecord) : List Nat :=
  [m.size % 256, m.cmd_code % 256] ++ le32 m.raw ++ le32 m.filtered
    ++ [m.dex_battery % 256, m.my_battery % 256] ++ le32 m.dex_src_id ++ le32 m.delay
    ++ [m.function % 256]

/-- Source `send_data(msg, len)`: the bytes handed to `uart1TxSendByte`, `msg[0]` to
`msg[len-1]` in order. -/
def send_data (msg : List Nat) (len : Nat) : List Nat :=
  (List.range len).map (fun i => msg.getD i 0)

/-- Source `print_packet`, last line `send_data((uint8 XDATA *)msg, msg.size);`: the bytes a
Data packet puts on the wire, the memory of the prepared message up to its `size`. -/
def print_packet_sent (pPkt : Dexcom_packet) (battery_capacity now : Nat) : List Nat :=
  send_data (print_packet pPkt battery_capacity now).memory
    (print_packet pPkt battery_capacity now).size

/-- Source `sendBeacon`: `cmd_response[7]` is filled with its own size, the code 0xF1, the
four bytes of `settings.dex_tx_id` and `DEXBRIDGE_PROTO_LEVEL`, and all of it is sent. The
result is the bytes put on the wire. -/
def sendBeacon (dex_tx_id : Nat) : List Nat :=
  send_data ([7, 0xF1] ++ le32 dex_tx_id ++ [DEXBRIDGE_PROTO_LEVEL]) 7

/-! ## Command processing: `doCommand` -/

/-- Source `xBridge_settings`. -/
structure xBridge_settings where
  dex_tx_id : Nat
  battery_maximum : Nat
  battery_minimum : Nat
  flags : Nat
  uart_baudrate : Nat

/-- Source `#define SLEEP_BLE (0x0002)`. -/
def SLEEP_BLE : Nat := 0x0002

/-- Source `#define XBRIDGE_HW (0x0008)`. -/
def XBRIDGE_HW : Nat := 0x0008

/-- Source `#define DO_LEDS (0x0010)`. -/
def DO_LEDS : Nat := 0x0010

/-- Source `#define SEND_DEBUG (0x0020)`. -/
def SEND_DEBUG : Nat := 0x0020

/-- Source `getFlag(ptr)`: `settings.flags & ptr ? 1 : 0`. -/
def getFlag (st : xBridge_settings) (ptr : Nat) : Bool := st.flags &&& ptr ≠ 0

/-- Source `setFlag(ptr, val)`: `settings.flags |= ptr` or `settings.flags &= ~ptr` on the
16-bit flags word, for an 8-bit mask. -/
def setFlag (st : xBridge_settings) (ptr : Nat) (val : Bool) : xBridge_settings :=
  if val then { st with flags := st.flags ||| ptr }
  else { st with flags := st.flags &&& (0xFFFF ^^^ ptr) }

/-- The globals `doCommand` reads and writes: the two command buffers, `got_ack`, `settings`
and their copy in flash, `sent_beacon`, and the mirrors `send_debug`, `sleep_ble`, `do_leds`
of three flags. -/
structure CommandState where
  uart_buff : Nat → Nat
  usb_buff : Nat → Nat
  got_ack : Bool
  settings : xBridge_settings
  flash : xBridge_settings
  sent_beacon : Bool
  send_debug : Bool
  sleep_ble : Bool
  do_leds : Bool

/-- Source `saveSettingsToFlash`: the settings are copied to flash; they are not changed. -/
def saveSettingsToFlash (c : CommandState) : CommandState := { c with flash := c.settings }

/-- Source `#define BATTERY_MAXIMUM (1814)`. -/
def BATTERY_MAXIMUM : Nat := 1814

/-- Source `#define BATTERY_MINIMUM (1416)`. -/
def BATTERY_MINIMUM : Nat := 1416

/-- Source `#define BATTERY_MAXIMUM_CLASSIC (2034)`. -/
def BATTERY_MAXIMUM_CLASSIC : Nat := 2034

/-- Source `#define BATTERY_MINIMUM_CLASSIC (1587)`. -/
def BATTERY_MINIMUM_CLASSIC : Nat := 1587

/-- Source `doCommand`, the first two statements of the branches for the single-letter
commands `d`, `b` and `l`: `setFlag(mask, !getFlag(mask)); saveSettingsToFlash();`. -/
def doCommand_toggle (c : CommandState) (mask : Nat) : CommandState :=
  saveSettingsToFlash
    { c with settings := setFlag c.settings mask (!getFlag c.settings mask) }

/-- Source `doCommand`. The return value 0 cancels a wait in progress, 1 lets it go on. Output
on the debug port is left out. -/
def doCommand (c : CommandState) : Int × CommandState :=
  if c.uart_buff 1 = 0x01 ∧ c.uart_buff 0 = 0x06 then
    let c1 : CommandState :=
      { c with settings :=
          { c.settings with dex_tx_id := of_le32 [c.uart_buff 2, c.uart_buff 3, c.uart_buff 4,
              c.uart_buff 5] } }
    (0, { saveSettingsToFlash c1 with sent_beacon := false })
  else if c.uart_buff 0 = 0x02 ∧ c.uart_buff 1 = 0xF0 ∧ c.got_ack = false then
    (0, { c with got_ack := true })
  else
    let c2 : CommandState :=
      if c.usb_buff 0 = 0x44 ∨ c.usb_buff 0 = 0x64 then
        let t := doCommand_toggle c SEND_DEBUG
        { t with send_debug := getFlag t.settings SEND_DEBUG }
      else c
    let c3 : CommandState :=
      if c2.usb_buff 0 = 0x42 ∨ c2.usb_buff 0 = 0x62 then
        let t := doCommand_toggle c2 SLEEP_BLE
        { t with sleep_ble := getFlag t.settings SLEEP_BLE }
      else c2
    let c4 : CommandState :=
      if c3.usb_buff 0 = 0x4C ∨ c3.usb_buff 0 = 0x6C then
        let t := doCommand_toggle c3 DO_LEDS
        { t with do_leds := getFlag t.settings DO_LEDS }
      else c3
    let c5 : CommandState :=
      if c4.usb_buff 0 = 0x50 ∨ c4.usb_buff 0 = 0x70 then
        saveSettingsToFlash
          { c4 with settings :=
              if getFlag c4.settings XBRIDGE_HW then
                { c4.settings with battery_maximum := BATTERY_MAXIMUM,
                                   battery_minimum := BATTERY_MINIMUM }
              else
                { c4.settings with battery_maximum := BATTERY_MAXIMUM_CLASSIC,
                                   battery_minimum := BATTERY_MINIMUM_CLASSIC } }
      else c4
    (1, c5)

/-! ## Steps of the delivery queue in the main loop -/

/-- Source `main`, line 2159 inside the sending loop, whose condition requires
`Pkts.read != Pkts.write`: on an acknowledgement
`Pkts.read = (Pkts.read + 1) & (DXQUEUESIZE);`. -/
def Dexcom_fifo.ack {α : Type} (q : Dexcom_fifo α) : Dexcom_fifo α :=
  if q.read ≠ q.write then { q with read := ((q.read + 1) &&& DXQUEUESIZE) % 256 } else q

/-- The two steps by which the main loop changes the indices of `Pkts`: the insert step after
a capture, and the acknowledge step of the sending loop. -/
inductive QueueStep (α : Type) where
  | insert (p : α)
  | ack

/-- One step of the main loop on the queue. -/
def Dexcom_fifo.step {α : Type} (q : Dexcom_fifo α) : QueueStep α → Dexcom_fifo α
  | QueueStep.insert p => q.insert p
  | QueueStep.ack => q.ack

/-- A sequence of steps of the main loop on the queue. -/
def Dexcom_fifo.run {α : Type} (q : Dexcom_fifo α) (steps : List (QueueStep α)) :
    Dexcom_fifo α :=
  steps.foldl Dexcom_fifo.step q

/-! ## The clock part of the channel-0 window -/

/-- Source `get_packet`, lines 1866-1883: the value assigned to `delay` from the clock, before
the channel correction of lines 1886-1891. `ms_cmp` is the `getMs()` reading of the
comparison, `ms_calc` the one of the assignment. -/
def get_packet_interval (pkt_time ms_cmp ms_calc : Nat) : Nat :=
  if pkt_time = 0 then 0
  else if ms_cmp < pkt_time then
    sub32 DX_PKT_INTERVAL (sub32 (4294967295 + ms_calc) pkt_time)
  else sub32 DX_PKT_INTERVAL (sub32 ms_calc pkt_time)

/-- The decoder as the specification words it, with the order of the two bytes reversed:
exponent the top 3 bits, mantissa the low 13 bits of the byte-swapped field. -/
def spec_byteSwapDecode (x : Nat) : Nat :=
  let r := (x % 256) * 256 + x / 256 % 256
  (r % 8192) <<< (r / 8192)

/-- Reversal of the bit order of one byte, stated arithmetically: bit `i` of the result is
bit `7 - i` of the argument. -/
def spec_bitrev8 (b : Nat) : Nat :=
  (List.range 8).foldl (fun acc i => acc + (b / 2 ^ i % 2) * 2 ^ (7 - i)) 0

/-- A sample frame: length byte 18, source address bytes `21 43 65 00` (address 0x654321),
sequence id byte 0x2D, every other byte 0. -/
def sampleFrame : Frame := fun i =>
  if i = 0 then 18 else if i = 5 then 0x21 else if i = 6 then 0x43 else if i = 7 then 0x65
  else if i = 11 then 0x2D else 0

/-- A short frame: length byte 3, the other bytes of the slot as in the sample frame (source
address bytes `21 43 65 00` at offsets 5..8, sequence id byte 0x2D at offset 11). -/
def shortFrame : Frame := fun i => if i = 0 then 3 else sampleFrame i

/-- A short frame in an otherwise zeroed slot: length byte 3, every other byte 0. -/
def blankShortFrame : Frame := fun i => if i = 0 then 3 else 0

/-- A sample scanner state: empty RX ring, offsets 0, no capture yet, last-seen id at its
initial value 64, filter id 0x654321. -/
def sampleScanState : ScanState :=
  { rx := RadioQueue.init (fun _ _ => 0), fOffset := fun _ => 0, pkt_time := 0,
    lastpktxid := 64, last_channel := 0, dex_tx_id := 0x654321 }

/-- A pass at clock reading `ms` in which `doServices` asks for the wait to be cancelled. -/
def abortPass (ms : Nat) : WaitPass :=
  { rx := [], ms_cond := ms, services := false, dex_tx_id := none, ms_abort := ms,
    crcPassed := false, ms_pkt := 0, FREQEST := 0 }

/-- A pass at clock reading `ms` in which nothing arrives and no service cancels. -/
def idlePass (ms : Nat) : WaitPass :=
  { rx := [], ms_cond := ms, services := true, dex_tx_id := none, ms_abort := ms,
    crcPassed := false, ms_pkt := 0, FREQEST := 0 }

/-- A pass at clock reading `ms` before which the radio delivered the frame `f`, whose CRC
check gives `crc`; the `FREQEST` register reads 0. -/
def framePass (f : Frame) (crc : Bool) (ms : Nat) : WaitPass :=
  { rx := [(f, crc)], ms_cond := ms, services := true, dex_tx_id := none, ms_abort := ms,
    crcPassed := crc, ms_pkt := ms, FREQEST := 0 }

/-- A sample state on entry of `get_packet`: both statics clear, empty RX ring, offsets at
their defaults, last capture at 1000 on channel 0 with normalized id 5, filter id 0x654321,
and a zeroed destination packet. -/
def sampleState : GetPacketState :=
  { timed_out := false, crc_error := false,
    s := { rx := RadioQueue.init (fun _ _ => 0), fOffset := fOffsetDefaults, pkt_time := 1000,
           lastpktxid := 5, last_channel := 0, dex_tx_id := 0x654321 },
    radio := { CHANNR := 0, FSCTRL0 := 0 },
    pkt := { bytes := fun _ => 0 } }

/-- A sample cycle entered at clock 61000: the wait on channel 0 (window 240000) finds its
window used up at 301000; on channel 1 the sample frame arrives at 301100 with a good CRC;
the waits on channels 2 and 3 would be cancelled. -/
def sampleCycleEnv : CycleEnv :=
  { ms_cmp := 61000, ms_calc := 61000,
    start := fun c => if c = 0 then 61000 else 301000,
    passes := fun c =>
      if c = 0 then [idlePass 301000, abortPass 301000]
      else if c = 1 then [framePass sampleFrame true 301100, abortPass 301100]
      else [abortPass 301100] }

/-- A sample cycle entered at clock 61000 in which the wait on channel 0 goes on undisturbed
until 301000 and a service cancels whatever wait is in progress at 301100. -/
def abortedCycleEnv : CycleEnv :=
  { ms_cmp := 61000, ms_calc := 61000,
    start := fun c => if c = 0 then 61000 else 301000,
    passes := fun c =>
      if c = 0 then [idlePass 301000, abortPass 301100] else [abortPass 301100] }

/-- A sample cycle entered at clock 61000 in which the sample frame arrives on channel 0 at
62000 with a bad CRC and a service cancels the wait on channel 1 at 62100. -/
def crcCycleEnv : CycleEnv :=
  { ms_cmp := 61000, ms_calc := 61000,
    start := fun c => if c = 0 then 61000 else 62000,
    passes := fun c =>
      if c = 0 then [framePass sampleFrame false 62000] else [abortPass 62100] }

/-- A sample cycle entered at clock 61000 in which a service cancels the wait on channel 0 at
61100. -/
def quietCycleEnv : CycleEnv :=
  { ms_cmp := 61000, ms_calc := 61000, start := fun _ => 61000,
    passes := fun _ => [abortPass 61100] }

/-- What the passes of a wait that examine no frame leave of the globals: `pkt_time`,
`last_channel`, the offsets, the last-seen id and the main-loop index are as before, a frame
that was pending is still the next one read, and the RX ring differs from the one before only
by what the radio interrupt delivered. -/
def ScanState.waitedFrom (s s1 : ScanState) : Prop :=
  s1.pkt_time = s.pkt_time ∧ s1.last_channel = s.last_channel ∧ s1.fOffset = s.fOffset
    ∧ s1.lastpktxid = s.lastpktxid
    ∧ s1.rx.radioQueueRxMainLoopIndex = s.rx.radioQueueRxMainLoopIndex
    ∧ (∀ g, radioQueueRxCurrentPacket s.rx = some g → radioQueueRxCurrentPacket s1.rx = some g)
    ∧ ∃ fs, s1.rx = RadioQueue.deliver s.rx fs

/-- The globals of the sample state with the last-seen id set to 11, the normalized id of
the sample frame. -/
def duplicateScanState : ScanState := { sampleState.s with lastpktxid := 11 }

/-- The globals of the sample state with the filter id set to 7, which is not the address of
the sample frame. -/
def foreignScanState : ScanState := { sampleState.s with dex_tx_id := 7 }

/-- A sample wait: 500 ms on channel 1 from clock 4900, during which the sample frame arrives
at 5000 with a good CRC. -/
def sampleWait (s : ScanState) : Option WaitResult :=
  WaitForPacket 500 sampleState.pkt 1 s sampleState.radio 4900
    [framePass sampleFrame true 5000]

/-- The result of the sample wait. -/
def sampleWaitResult (s : ScanState) : WaitResult :=
  (sampleWait s).getD
    { nRet := 0, s := s, pkt := sampleState.pkt, radio := sampleState.radio, examined := none }

/-- The sample cycle `abortedCycleEnv`, entered with the state as the previous call left
it. -/
def abortedCycle : Cycle := { env := abortedCycleEnv, main := id }

/-- The state and the calls after the given cycles from the sample state. -/
def sampleRunOf (cycles : List Cycle) : GetPacketState × List WaitCall :=
  (get_packet_cycles sampleState cycles).getD (sampleState, [])

/-- The result of the cycle `c` entered after the given cycles from the sample state. -/
def sampleNextOf (cycles : List Cycle) (c : Cycle) : GetPacketResult :=
  (get_packet c.env (c.entry (sampleRunOf cycles).1)).getD
    { ret := 0, st := sampleState, calls := [] }

/-- The sample cycle `crcCycleEnv`, entered with the state as the previous call left it. -/
def crcCycle : Cycle := { env := crcCycleEnv, main := id }

/-- The sample cycle `quietCycleEnv`, entered with the state as the previous call left it. -/
def quietCycle : Cycle := { env := quietCycleEnv, main := id }

/-- A sample delivery queue holding the single entry 7. -/
def sampleQueue : Dexcom_fifo Nat := (Dexcom_fifo.init (fun _ => 0)).insert 7

/-- Sample passes of the sending loop: connected at 0 and at 2000, not connected at 4000, and
never an acknowledgement. -/
def samplePasses : List SendPass :=
  [{ ble_connected := true, ms := 0, got_ack := false },
   { ble_connected := true, ms := 2000, got_ack := false },
   { ble_connected := false, ms := 4000, got_ack := false }]

/-- A sample delivery queue holding the entries 7, 8 and 9, oldest first. -/
def sampleQueue3 : Dexcom_fifo Nat :=
  (((Dexcom_fifo.init (fun _ => 0)).insert 7).insert 8).insert 9

/-- Sample passes of the sending loop: connected at 0, 2000 and 4000 with an acknowledgement
after the first and the third send, not connected at 6000. -/
def ackedPasses : List SendPass :=
  [{ ble_connected := true, ms := 0, got_ack := true },
   { ble_connected := true, ms := 2000, got_ack := false },
   { ble_connected := true, ms := 4000, got_ack := true },
   { ble_connected := false, ms := 6000, got_ack := false }]

/-- The result of the sample delivery pass. -/
def sampleDelivery : Dexcom_fifo Nat × List Nat :=
  (delivery_loop 0 sampleQueue3 ackedPasses).getD (sampleQueue3, [])

/-- A sample state of the command processor: the UART buffer holds the frame
`06 01 21 43 65 00`, the USB buffer is empty, no acknowledgement is recorded, and the settings
are transmitter id 7, battery limits 1814 and 1416, flags 0x0031 and baud rate 9600. -/
def sampleCommandState : CommandState :=
  { uart_buff := fun i => [0x06, 0x01, 0x21, 0x43, 0x65, 0x00].getD i 0,
    usb_buff := fun _ => 0, got_ack := false,
    settings := { dex_tx_id := 7, battery_maximum := 1814, battery_minimum := 1416,
                  flags := 0x0031, uart_baudrate := 9600 },
    flash := { dex_tx_id := 7, battery_maximum := 1814, battery_minimum := 1416,
               flags := 0x0031, uart_baudrate := 9600 },
    sent_beacon := true, send_debug := true, sleep_ble := false, do_leds := true }

/-- Invariant of a run: both indices address a slot, the published frames are the consumed
ones followed by the frames still in the slots the main loop owns, and a frame the main loop
holds is the one in the slot at its index, which it owns. -/
def RxRun.Inv (t : RxRun) : Prop :=
  t.q.radioQueueRxMainLoopIndex < 3 ∧ t.q.radioQueueRxInterruptIndex < 3
    ∧ t.published = t.consumed ++ t.q.owned
    ∧ ∀ f, t.held = some f →
        t.q.radioQueueRxMainLoopIndex ≠ t.q.radioQueueRxInterruptIndex
          ∧ f = t.q.radioQueueRxPacket t.q.radioQueueRxMainLoopIndex

/-! ## Theorems -/

/-- The mask `& DXQUEUESIZE` followed by the `uint8` store is reduction modulo 64. -/
theorem and_DXQUEUESIZE (x : Nat) : (x &&& DXQUEUESIZE) % 256 = x % 64 := by
  have h : x &&& DXQUEUESIZE = x % 64 := Nat.and_pow_two_sub_one_eq_mod x 6
  rw [h]
  have : x % 64 < 64 := Nat.mod_lt _ (by decide)
  omega

/-- The drain loop started `n` slots behind `write` sends exactly those `n` slots. -/
theorem drain_eq_map {α : Type} (buffer : Nat → α) (w : Nat) (hw : w < 64) :
    ∀ (n fuel r : Nat), r < 64 → (w + 64 - r) % 64 = n → n ≤ fuel →
      Dexcom_fifo.drain buffer w fuel r
        = (List.range n).map (fun k => buffer ((r + k) % 64)) := by
  intro n
  induction n with
  | zero =>
    intro fuel r hr hn _
    have hrw : r = w := by omega
    cases fuel with
    | zero => simp [Dexcom_fifo.drain]
    | succ f => simp [Dexcom_fifo.drain, hrw]
  | succ n ih =>
    intro fuel r hr hn hf
    have hrw : r ≠ w := by
      intro h
      subst h
      omega
    cases fuel with
    | zero => omega
    | succ f =>
      have hr1 : (r + 1) % 64 < 64 := Nat.mod_lt _ (by decide)
      have hn1 : (w + 64 - (r + 1) % 64) % 64 = n := by omega
      rw [Dexcom_fifo.drain, if_neg hrw, and_DXQUEUESIZE, ih f ((r + 1) % 64) hr1 hn1 (by omega)]
      rw [List.range_succ_eq_map, List.map_cons, List.map_map]
      have h0 : (r + 0) % 64 = r := by omega
      rw [h0]
      congr 1
      apply List.map_congr_left
      intro k _
      simp only [Function.comp]
      congr 1
      omega

/-- The queued entries read off the indices: the `(write - read) mod 64` slots from `read`. -/
theorem queued_eq_map {α : Type} (q : Dexcom_fifo α) (hr : q.read < 64) (hw : q.write < 64) :
    q.queued = (List.range ((q.write + 64 - q.read) % 64)).map
      (fun k => q.buffer ((q.read + k) % 64)) := by
  have hn : (q.write + 64 - q.read) % 64 ≤ DXQUEUESIZE + 1 := by
    have : (q.write + 64 - q.read) % 64 < 64 := Nat.mod_lt _ (by decide)
    simp only [DXQUEUESIZE]
    omega
  exact drain_eq_map q.buffer q.write hw _ _ q.read hr rfl hn

/-- The insert step keeps both indices below 64. -/
theorem insert_bounds {α : Type} (q : Dexcom_fifo α) (p : α) (hr : q.read < 64) :
    (q.insert p).read < 64 ∧ (q.insert p).write < 64 := by
  have h1 : (q.write + 1) % 64 < 64 := Nat.mod_lt _ (by decide)
  have h2 : (q.read + 1) % 64 < 64 := Nat.mod_lt _ (by decide)
  simp only [Dexcom_fifo.insert, and_DXQUEUESIZE]
  refine ⟨?_, h1⟩
  split <;> assumption

/-- The queue never holds more than 63 entries. -/
theorem queued_length_le {α : Type} (q : Dexcom_fifo α) (hr : q.read < 64) (hw : q.write < 64) :
    q.queued.length ≤ 63 := by
  rw [queued_eq_map q hr hw]
  have : (q.write + 64 - q.read) % 64 < 64 := Nat.mod_lt _ (by decide)
  simp only [List.length_map, List.length_range]
  omega

/-- One insert appends the packet and, when 63 entries were queued, drops the oldest. -/
theorem queued_insert {α : Type} (q : Dexcom_fifo α) (p : α) (hr : q.read < 64)
    (hw : q.write < 64) :
    (q.insert p).queued = (q.queued ++ [p]).drop (q.queued.length + 1 - 63) := by
  obtain ⟨hr1, hw1⟩ := insert_bounds q p hr
  rw [queued_eq_map (q.insert p) hr1 hw1, queued_eq_map q hr hw]
  simp only [List.length_map, List.length_range]
  simp only [Dexcom_fifo.insert, and_DXQUEUESIZE]
  by_cases hfull : q.read = (q.write + 1) % 64
  · -- the ring is full: the oldest entry is dropped
    rw [if_pos hfull]
    have hn : (q.write + 64 - q.read) % 64 = 63 := by omega
    have hn1 : ((q.write + 1) % 64 + 64 - (q.read + 1) % 64) % 64 = 63 := by omega
    rw [hn, hn1]
    have hd : 63 + 1 - 63 = 1 := rfl
    rw [hd]
    have hR : (List.range 63).map (fun k => q.buffer ((q.read + k) % 64))
        = q.buffer ((q.read + 0) % 64)
          :: (List.range 62).map (fun k => q.buffer ((q.read + (k + 1)) % 64)) := by
      rw [List.range_succ_eq_map 62, List.map_cons, List.map_map]
      rfl
    have hL : (List.range 63).map
          (fun k => Function.update q.buffer q.write p (((q.read + 1) % 64 + k) % 64))
        = (List.range 62).map (fun k => q.buffer ((q.read + (k + 1)) % 64)) ++ [p] := by
      rw [List.range_succ, List.map_append, List.map_singleton]
      congr 1
      · apply List.map_congr_left
        intro k hk
        have hk : k < 62 := List.mem_range.mp hk
        have hne : ((q.read + 1) % 64 + k) % 64 ≠ q.write := by omega
        rw [Function.update_noteq hne]
        congr 1
        omega
      · have he : ((q.read + 1) % 64 + 62) % 64 = q.write := by omega
        rw [he, Function.update_same]
    rw [hL, hR, List.cons_append, List.drop_one, List.tail_cons]
  · -- there is room: the packet is appended
    rw [if_neg hfull]
    have hn : (q.write + 64 - q.read) % 64 < 63 := by omega
    have hn1 : ((q.write + 1) % 64 + 64 - q.read) % 64 = (q.write + 64 - q.read) % 64 + 1 := by
      omega
    have hd : (q.write + 64 - q.read) % 64 + 1 - 63 = 0 := by omega
    rw [hn1, hd, List.drop_zero, List.range_succ, List.map_append, List.map_singleton]
    congr 1
    · apply List.map_congr_left
      intro k hk
      have hk : k < (q.write + 64 - q.read) % 64 := List.mem_range.mp hk
      have hne : (q.read + k) % 64 ≠ q.write := by omega
      rw [Function.update_noteq hne]
    · have he : (q.read + (q.write + 64 - q.read) % 64) % 64 = q.write := by omega
      rw [he, Function.update_same]

/-- Any run of inserts leaves the last 63 of the entries queued before plus those inserted. -/
theorem queued_insertAll {α : Type} (ps : List α) :
    ∀ q : Dexcom_fifo α, q.read < 64 → q.write < 64 →
      (q.insertAll ps).queued
        = (q.queued ++ ps).drop ((q.queued ++ ps).length - 63) := by
  induction ps with
  | nil =>
    intro q hr hw
    have := queued_length_le q hr hw
    have hz : (q.queued ++ []).length - 63 = 0 := by
      simp only [List.append_nil]
      omega
    rw [hz]
    simp [Dexcom_fifo.insertAll]
  | cons p ps ih =>
    intro q hr hw
    obtain ⟨hr1, hw1⟩ := insert_bounds q p hr
    have hlen := queued_length_le q hr hw
    have hstep : (q.insertAll (p :: ps)) = (q.insert p).insertAll ps := rfl
    rw [hstep, ih (q.insert p) hr1 hw1, queued_insert q p hr hw]
    have hsplit : q.queued ++ p :: ps = (q.queued ++ [p]) ++ ps := by simp
    rw [hsplit]
    have hl : (q.queued ++ [p]).length = q.queued.length + 1 := by simp
    rw [← hl]
    have hl64 : (q.queued ++ [p]).length ≤ 64 := by omega
    generalize q.queued ++ [p] = l at hl64 ⊢
    have hdl : l.length - 63 ≤ l.length := Nat.sub_le _ _
    have happ : l.drop (l.length - 63) ++ ps = (l ++ ps).drop (l.length - 63) :=
      (List.drop_append_of_le_length hdl).symm
    rw [happ, List.drop_drop]
    have hlen2 : ((l ++ ps).drop (l.length - 63)).length = l.length + ps.length - (l.length - 63) := by
      rw [List.length_drop, List.length_append]
    have hidx : ((l ++ ps).drop (l.length - 63)).length - 63 + (l.length - 63)
        = (l ++ ps).length - 63 := by
      rw [hlen2, List.length_append]
      omega
    have hidx2 : l.length - 63 + (((l ++ ps).drop (l.length - 63)).length - 63)
        = (l ++ ps).length - 63 := by
      rw [hlen2, List.length_append]
      omega
    first
      | rw [hidx]
      | rw [hidx2]

/-! ### C1: delivery queue bound -/

/-- C1, as stated, fails: after 65 inserts (packets numbered 1 to 65) into the queue reset to
`read = write = 0`, the queue holds the 63 packets 3 to 65, not the 64 packets 2 to 65. -/
theorem C1_counterexample :
    ((Dexcom_fifo.init (fun _ => 0)).insertAll (List.range' 1 65)).queued = List.range' 3 63
      ∧ ((Dexcom_fifo.init (fun _ => 0)).insertAll (List.range' 1 65)).queued
          ≠ List.range' 2 64 := by
  set_option maxRecDepth 100000 in decide

/-- C1, amended: starting from the queue reset to `read = write = 0` (whatever the buffer
holds), inserting `n ≥ 63` packets with no acknowledgement in between leaves exactly the 63
most recently inserted packets queued, in insertion order. -/
theorem C1_queue_keeps_last_63 {α : Type} (buffer : Nat → α) (ps : List α)
    (hn : 63 ≤ ps.length) :
    ((Dexcom_fifo.init buffer).insertAll ps).queued = ps.drop (ps.length - 63)
      ∧ ((Dexcom_fifo.init buffer).insertAll ps).queued.length = 63 := by
  have hr : (Dexcom_fifo.init buffer).read < 64 := by simp [Dexcom_fifo.init]
  have hw : (Dexcom_fifo.init buffer).write < 64 := by simp [Dexcom_fifo.init]
  have h := queued_insertAll ps (Dexcom_fifo.init buffer) hr hw
  have h0 : (Dexcom_fifo.init buffer).queued = [] := by
    simp [Dexcom_fifo.queued, Dexcom_fifo.init, Dexcom_fifo.drain]
  rw [h0, List.nil_append] at h
  refine ⟨h, ?_⟩
  rw [h, List.length_drop]
  omega

/-- C1, amended, at 65 inserts: the queue holds the 3rd to the 65th packet. -/
theorem C1_queue_keeps_last_63_witness :
    63 ≤ (List.range' 1 65).length
      ∧ ((Dexcom_fifo.init (fun _ => 0)).insertAll (List.range' 1 65)).queued
          = (List.range' 1 65).drop ((List.range' 1 65).length - 63)
      ∧ ((Dexcom_fifo.init (fun _ => 0)).insertAll (List.range' 1 65)).queued.length = 63 :=
  ⟨by decide, C1_queue_keeps_last_63 (fun _ => 0) (List.range' 1 65) (by decide)⟩

/-! ### RX ring buffer -/

/-- The owned slots for each of the nine index pairs. -/
theorem owned_cases (slots : Nat → Frame) (m i : Nat) (hm : m < 3) (hi : i < 3) :
    (RadioQueue.owned ⟨slots, m, i⟩)
      = if i = m then []
        else if i = (m + 1) % 3 then [slots m]
        else [slots m, slots ((m + 1) % 3)] := by
  interval_cases m <;> interval_cases i <;>
    simp [RadioQueue.owned, List.range_succ]

/-- The RX event handler on explicit components: the frame lands in the interrupt slot and the
interrupt index advances when the frame has data and the next slot is not the main loop's. -/
theorem radioMacEventHandler_RX_eq (slots : Nat → Frame) (m i : Nat) (f : Frame) (crc : Bool)
    (hi : i < 3) :
    radioMacEventHandler_RX ⟨slots, m, i⟩ f crc
      = ⟨Function.update slots i f, m,
          if 0 < f 0 ∧ (i + 1) % 3 ≠ m then (i + 1) % 3 else i⟩ := by
  interval_cases i <;>
    by_cases hf : 0 < f 0 <;>
    simp [radioMacEventHandler_RX, radioQueueAllowCrcErrors, RX_PACKET_COUNT, hf] <;>
    (try (split <;> simp_all))

/-- Every step of an interleaving preserves the invariant. -/
theorem RxRun.step_inv (t : RxRun) (e : RxEvent) (h : t.Inv) : (t.step e).Inv := by
  obtain ⟨⟨slots, m, i⟩, held, pub, con⟩ := t
  obtain ⟨hm, hi, hpub, hheld⟩ := h
  simp only at hm hi hpub hheld
  rw [owned_cases slots m i hm hi] at hpub
  cases e with
  | rx f crc =>
    simp only [RxRun.step, RxRun.Inv, radioMacEventHandler_RX_eq slots m i f crc hi]
    by_cases hadv : 0 < f 0 ∧ (i + 1) % 3 ≠ m
    · rw [if_pos hadv]
      have hne : (i + 1) % 3 ≠ i := by omega
      rw [if_pos hne]
      have hi1 : (i + 1) % 3 < 3 := Nat.mod_lt _ (by decide)
      rw [owned_cases _ m _ hm hi1]
      refine ⟨hm, hi1, ?_, ?_⟩
      · interval_cases m <;> interval_cases i <;> simp_all
      · intro g hg
        obtain ⟨h1, h2⟩ := hheld g hg
        refine ⟨fun h => hadv.2 h.symm, ?_⟩
        have hmi : m ≠ i := h1
        rw [Function.update_noteq hmi]
        exact h2
    · rw [if_neg hadv]
      simp only [ne_eq, not_true_eq_false, if_false]
      rw [owned_cases _ m i hm hi]
      refine ⟨hm, hi, ?_, ?_⟩
      · interval_cases m <;> interval_cases i <;> simp_all
      · intro g hg
        obtain ⟨h1, h2⟩ := hheld g hg
        refine ⟨h1, ?_⟩
        rw [Function.update_noteq h1]
        exact h2
  | mainLoop =>
    cases held with
    | none =>
      simp only [RxRun.step, RxRun.Inv]
      rw [owned_cases slots m i hm hi]
      refine ⟨hm, hi, hpub, ?_⟩
      intro g hg
      simp only [radioQueueRxCurrentPacket] at hg
      by_cases hmi : m = i
      · simp [hmi] at hg
      · simp [hmi] at hg
        exact ⟨hmi, hg.symm⟩
    | some g =>
      obtain ⟨h1, _⟩ := hheld g rfl
      simp only [RxRun.step, RxRun.Inv, radioQueueRxDoneWithPacket, RX_PACKET_COUNT]
      interval_cases m <;> interval_cases i <;>
        simp_all [RadioQueue.owned, List.range_succ]

/-- The invariant holds at the start of a run. -/
theorem RxRun.init_inv (slots : Nat → Frame) : (RxRun.init slots).Inv := by
  simp [RxRun.Inv, RxRun.init, RadioQueue.init, RadioQueue.owned]

/-- The invariant holds after every finite interleaving. -/
theorem RxRun.run_inv (es : List RxEvent) : ∀ t : RxRun, t.Inv → (t.run es).Inv := by
  induction es with
  | nil => intro t h; exact h
  | cons e es ih => intro t h; exact ih (t.step e) (RxRun.step_inv t e h)

/-- The first owned slot is what `radioQueueRxCurrentPacket` returns. -/
theorem owned_head (q : RadioQueue) (hm : q.radioQueueRxMainLoopIndex < 3)
    (hi : q.radioQueueRxInterruptIndex < 3) :
    q.owned.head? = radioQueueRxCurrentPacket q := by
  obtain ⟨slots, m, i⟩ := q
  simp only at hm hi
  rw [owned_cases slots m i hm hi]
  simp only [radioQueueRxCurrentPacket]
  interval_cases m <;> interval_cases i <;> simp

/-- C2: for every finite interleaving of RX events and main-loop steps from both indices 0,
the frames whose RX event advanced the producer index are exactly the frames the main loop
has read and released, in the same order, followed by the frames still sitting unmodified in
the slots the main loop owns (so none was overwritten and none is read twice); a frame the
main loop is holding is the oldest of those. -/
theorem C2_rx_ring_order (slots : Nat → Frame) (es : List RxEvent) :
    ((RxRun.init slots).run es).published
        = ((RxRun.init slots).run es).consumed ++ ((RxRun.init slots).run es).q.owned
      ∧ ((RxRun.init slots).run es).consumed
          = ((RxRun.init slots).run es).published.take
              ((RxRun.init slots).run es).consumed.length
      ∧ (((RxRun.init slots).run es).held = none
          ∨ ((RxRun.init slots).run es).held
              = ((RxRun.init slots).run es).q.owned.head?) := by
  obtain ⟨hm, hi, hpub, hheld⟩ := RxRun.run_inv es _ (RxRun.init_inv slots)
  refine ⟨hpub, ?_, ?_⟩
  · rw [hpub, List.take_left]
  · cases hh : ((RxRun.init slots).run es).held with
    | none => exact Or.inl rfl
    | some g =>
      right
      obtain ⟨h1, h2⟩ := hheld g hh
      rw [owned_head _ hm hi, radioQueueRxCurrentPacket, if_neg h1, h2]

/-- C3: on an RX event carrying a frame with non-zero length byte, when the slot after the
producer index is the consumer's, both indices and every slot the main loop owns are
unchanged; otherwise the producer index advances by one modulo 3 and the consumer index is
unchanged. -/
theorem C3_rx_event (q : RadioQueue) (f : Frame) (crcPassed : Bool)
    (hm : q.radioQueueRxMainLoopIndex < 3) (hi : q.radioQueueRxInterruptIndex < 3)
    (hlen : 0 < f 0) :
    (radioMacEventHandler_RX q f crcPassed).radioQueueRxMainLoopIndex
        = q.radioQueueRxMainLoopIndex
      ∧ (radioMacEventHandler_RX q f crcPassed).radioQueueRxInterruptIndex
          = (if (q.radioQueueRxInterruptIndex + 1) % 3 = q.radioQueueRxMainLoopIndex
             then q.radioQueueRxInterruptIndex
             else (q.radioQueueRxInterruptIndex + 1) % 3)
      ∧ ∀ k, k < (q.radioQueueRxInterruptIndex + 3 - q.radioQueueRxMainLoopIndex) % 3 →
          (radioMacEventHandler_RX q f crcPassed).radioQueueRxPacket
              ((q.radioQueueRxMainLoopIndex + k) % 3)
            = q.radioQueueRxPacket ((q.radioQueueRxMainLoopIndex + k) % 3) := by
  obtain ⟨slots, m, i⟩ := q
  simp only at hm hi
  rw [radioMacEventHandler_RX_eq slots m i f crcPassed hi]
  refine ⟨rfl, ?_, ?_⟩
  · show (if 0 < f 0 ∧ (i + 1) % 3 ≠ m then (i + 1) % 3 else i)
        = if (i + 1) % 3 = m then i else (i + 1) % 3
    by_cases h : (i + 1) % 3 = m
    · simp [h]
    · simp [h, hlen]
  · intro k hk
    have hk3 : k < (i + 3 - m) % 3 := hk
    have hne : (m + k) % 3 ≠ i := by omega
    show Function.update slots i f ((m + k) % 3) = slots ((m + k) % 3)
    rw [Function.update_noteq hne]

/-- C3 at a full ring (consumer 0, producer 2, so slots 0 and 1 are owned): the frame is
dropped. -/
theorem C3_rx_event_witness :
    (0 : Nat) < 3 ∧ (2 : Nat) < 3 ∧ 0 < (fun _ => 1 : Frame) 0
      ∧ (radioMacEventHandler_RX ⟨fun _ _ => 0, 0, 2⟩ (fun _ => 1) true).radioQueueRxMainLoopIndex
          = 0
      ∧ (radioMacEventHandler_RX ⟨fun _ _ => 0, 0, 2⟩ (fun _ => 1)
            true).radioQueueRxInterruptIndex
          = (if (2 + 1) % 3 = 0 then 2 else (2 + 1) % 3)
      ∧ ∀ k, k < (2 + 3 - 0) % 3 →
          (radioMacEventHandler_RX ⟨fun _ _ => 0, 0, 2⟩ (fun _ => 1) true).radioQueueRxPacket
              ((0 + k) % 3)
            = (fun _ _ => 0 : Nat → Frame) ((0 + k) % 3) :=
  ⟨by decide, by decide, by decide,
    C3_rx_event ⟨fun _ _ => 0, 0, 2⟩ (fun _ => 1) true (by decide) (by decide) (by decide)⟩

/-- C4: `radioQueueRxCurrentPacket` returns none exactly when the consumer index equals the
producer index and otherwise the slot at the consumer index; after any interleaving from both
indices 0 that is the oldest published frame not yet released (none when there is no such
frame); the main-loop step that calls it leaves the ring, both indices included, as it was. -/
theorem C4_current_packet (slots : Nat → Frame) (es : List RxEvent) (q : RadioQueue) :
    (radioQueueRxCurrentPacket q = none
        ↔ q.radioQueueRxMainLoopIndex = q.radioQueueRxInterruptIndex)
      ∧ radioQueueRxCurrentPacket q
          = (if q.radioQueueRxMainLoopIndex = q.radioQueueRxInterruptIndex then none
             else some (q.radioQueueRxPacket q.radioQueueRxMainLoopIndex))
      ∧ radioQueueRxCurrentPacket ((RxRun.init slots).run es).q
          = (((RxRun.init slots).run es).published.drop
              ((RxRun.init slots).run es).consumed.length).head?
      ∧ (RxRun.step ⟨q, none, [], []⟩ RxEvent.mainLoop).q = q := by
  refine ⟨?_, rfl, ?_, rfl⟩
  · simp only [radioQueueRxCurrentPacket]
    split <;> simp_all
  · obtain ⟨hm, hi, hpub, _⟩ := RxRun.run_inv es _ (RxRun.init_inv slots)
    rw [hpub, List.drop_left, owned_head _ hm hi]

/-! ### Channel scanner -/

/-- For a frame whose length byte is between 10 and 253 the copy into the destination packet
covers the source address and the sequence id. -/
theorem memcpy_covers (dst : Nat → Nat) (packet : Frame) (h10 : 10 ≤ packet 0)
    (h253 : packet 0 ≤ 253) (i : Nat) (hi : i < 12) :
    memcpy dst packet (min8 ((packet 0 + 2) % 256) sizeof_Dexcom_packet) i = packet i := by
  have hn : 12 ≤ min8 ((packet 0 + 2) % 256) sizeof_Dexcom_packet := by
    simp only [min8, sizeof_Dexcom_packet]
    split <;> omega
  simp only [memcpy]
  rw [if_pos (by omega)]

/-- C5, as stated, fails on frames too short to carry the fields, in both directions. The
short frame (length byte 3) has a good CRC, its slot holds the filter id 0x654321 at the
source-address offsets and an id that normalizes to 11, not the last-seen 64, yet with a zeroed
destination packet the code returns 0: only 5 bytes are copied and the comparison reads the
destination's zeros. And the blank short frame, whose slot holds the address 0, is captured
when the destination packet still holds the sample frame. -/
theorem C5_counterexample :
    (WaitForPacket_examine sampleScanState ⟨fun _ => 0⟩ 1 shortFrame true 5000 3).1 = 0
      ∧ Dexcom_packet.src_addr ⟨shortFrame⟩ = sampleScanState.dex_tx_id
      ∧ WaitForPacket_txid (Dexcom_packet.txId ⟨shortFrame⟩) 1 ≠ sampleScanState.lastpktxid
      ∧ (WaitForPacket_examine sampleScanState ⟨sampleFrame⟩ 1 blankShortFrame true 5000 3).1
        = 1
      ∧ Dexcom_packet.src_addr ⟨blankShortFrame⟩ ≠ sampleScanState.dex_tx_id
      ∧ sampleScanState.dex_tx_id ≠ 0 := by
  decide

/-- The examination of a pending frame in terms of the destination packet after the copy of
line 1773: captured exactly when the CRC passed, the packet's source address passes the filter
and its normalized id is not the last-seen one; on captured that id and the channel are
recorded. -/
theorem WaitForPacket_examine_captured (s : ScanState) (pkt : Dexcom_packet) (channel : Nat)
    (packet : Frame) (crcPassed : Bool) (now FREQEST : Nat) :
    ((WaitForPacket_examine s pkt channel packet crcPassed now FREQEST).1 = 1
        ↔ (crcPassed = true
            ∧ ((WaitForPacket_copy pkt packet).src_addr = s.dex_tx_id ∨ s.dex_tx_id = 0)
            ∧ WaitForPacket_txid (WaitForPacket_copy pkt packet).txId channel ≠ s.lastpktxid))
      ∧ ((WaitForPacket_examine s pkt channel packet crcPassed now FREQEST).1 = 1 →
          (WaitForPacket_examine s pkt channel packet crcPassed now FREQEST).2.1.lastpktxid
              = WaitForPacket_txid (WaitForPacket_copy pkt packet).txId channel
            ∧ (WaitForPacket_examine s pkt channel packet crcPassed now FREQEST).2.1.last_channel
              = channel) := by
  constructor
  · cases crcPassed with
    | false => simp [WaitForPacket_examine]
    | true =>
      simp only [WaitForPacket_examine, if_true]
      by_cases hF : (0xff - s.fOffset channel) > (FREQEST : Int) <;>
        by_cases hflt : (WaitForPacket_copy pkt packet).src_addr = s.dex_tx_id
            ∨ s.dex_tx_id = 0 <;>
        by_cases hid : WaitForPacket_txid (WaitForPacket_copy pkt packet).txId channel
            = s.lastpktxid <;>
        simp [hF, hflt, hid]
  · cases crcPassed with
    | false => simp [WaitForPacket_examine]
    | true =>
      simp only [WaitForPacket_examine, if_true]
      by_cases hF : (0xff - s.fOffset channel) > (FREQEST : Int) <;>
        by_cases hflt : (WaitForPacket_copy pkt packet).src_addr = s.dex_tx_id
            ∨ s.dex_tx_id = 0 <;>
        by_cases hid : WaitForPacket_txid (WaitForPacket_copy pkt packet).txId channel
            = s.lastpktxid <;>
        simp [hF, hflt, hid]

/-- For a frame with length byte 10..253 the copy of line 1773 carries the frame's own source
address and sequence id into the destination packet. -/
theorem WaitForPacket_copy_own (pkt : Dexcom_packet) (packet : Frame) (h10 : 10 ≤ packet 0)
    (h253 : packet 0 ≤ 253) :
    (WaitForPacket_copy pkt packet).src_addr = Dexcom_packet.src_addr ⟨packet⟩
      ∧ (WaitForPacket_copy pkt packet).txId = Dexcom_packet.txId ⟨packet⟩ := by
  simp only [WaitForPacket_copy, Dexcom_packet.src_addr, Dexcom_packet.txId]
  rw [memcpy_covers _ _ h10 h253 5 (by decide), memcpy_covers _ _ h10 h253 6 (by decide),
    memcpy_covers _ _ h10 h253 7 (by decide), memcpy_covers _ _ h10 h253 8 (by decide),
    memcpy_covers _ _ h10 h253 11 (by decide)]
  exact ⟨rfl, rfl⟩

/-- C5, amended: when `WaitForPacket` (channel in 0..3) examines a pending frame whose length
byte is 10..253, so that the copy of line 1773 carries its source address and sequence id, it
returns captured (1) if and only if the frame's CRC passed, the frame's source address equals
the configured filter id or the filter id is 0, and the frame's normalized sequence id differs
from the last-seen id; on captured the last-seen id becomes the normalized id and
`last_channel` becomes the channel. -/
theorem C5_WaitForPacket_captured (s : ScanState) (pkt : Dexcom_packet) (channel : Nat)
    (packet : Frame) (crcPassed : Bool) (now FREQEST : Nat)
    (_hch : channel < NUM_CHANNELS) (h10 : 10 ≤ packet 0) (h253 : packet 0 ≤ 253) :
    ((WaitForPacket_examine s pkt channel packet crcPassed now FREQEST).1 = 1
        ↔ (crcPassed = true
            ∧ (Dexcom_packet.src_addr ⟨packet⟩ = s.dex_tx_id ∨ s.dex_tx_id = 0)
            ∧ WaitForPacket_txid (Dexcom_packet.txId ⟨packet⟩) channel ≠ s.lastpktxid))
      ∧ ((WaitForPacket_examine s pkt channel packet crcPassed now FREQEST).1 = 1 →
          (WaitForPacket_examine s pkt channel packet crcPassed now FREQEST).2.1.lastpktxid
              = WaitForPacket_txid (Dexcom_packet.txId ⟨packet⟩) channel
            ∧ (WaitForPacket_examine s pkt channel packet crcPassed now FREQEST).2.1.last_channel
              = channel) := by
  obtain ⟨hiff, heff⟩ := WaitForPacket_examine_captured s pkt channel packet crcPassed now
    FREQEST
  obtain ⟨e1, e2⟩ := WaitForPacket_copy_own pkt packet h10 h253
  rw [e1, e2] at hiff
  rw [e2] at heff
  exact ⟨hiff, heff⟩

/-- C5, amended, on the sample frame (length byte 18, address 0x654321, raw id 0x2D) examined
on channel 1 with the filter set to its address and no id seen yet: captured, and the
last-seen id becomes 11. -/
theorem C5_WaitForPacket_captured_witness :
    1 < NUM_CHANNELS ∧ 10 ≤ sampleFrame 0 ∧ sampleFrame 0 ≤ 253
      ∧ (WaitForPacket_examine sampleScanState ⟨fun _ => 0⟩ 1 sampleFrame true 5000 3).1 = 1
      ∧ (WaitForPacket_examine sampleScanState ⟨fun _ => 0⟩ 1 sampleFrame true 5000
            3).2.1.lastpktxid = 11
      ∧ (((WaitForPacket_examine sampleScanState ⟨fun _ => 0⟩ 1 sampleFrame true 5000 3).1 = 1
          ↔ (true = true
              ∧ (Dexcom_packet.src_addr ⟨sampleFrame⟩ = sampleScanState.dex_tx_id ∨ sampleScanState.dex_tx_id = 0)
              ∧ WaitForPacket_txid (Dexcom_packet.txId ⟨sampleFrame⟩) 1 ≠ sampleScanState.lastpktxid))
        ∧ ((WaitForPacket_examine sampleScanState ⟨fun _ => 0⟩ 1 sampleFrame true 5000 3).1 = 1 →
            (WaitForPacket_examine sampleScanState ⟨fun _ => 0⟩ 1 sampleFrame true 5000 3).2.1.lastpktxid
                = WaitForPacket_txid (Dexcom_packet.txId ⟨sampleFrame⟩) 1
              ∧ (WaitForPacket_examine sampleScanState ⟨fun _ => 0⟩ 1 sampleFrame true 5000 3).2.1.last_channel
                = 1)) :=
  ⟨by decide, by decide, by decide, by decide, by decide,
    C5_WaitForPacket_captured sampleScanState ⟨fun _ => 0⟩ 1 sampleFrame true 5000 3
      (by decide) (by decide) (by decide)⟩

/-- Masking the two low bits before the shift does not change an 8-bit value's shift. -/
theorem and_FC_shift (r : Nat) (hr : r < 256) : ((r &&& 0xFC) >>> 2) % 256 = r >>> 2 := by
  revert r
  set_option maxRecDepth 100000 in decide

/-- C6: for every 8-bit raw sequence id `r` and channels `c1`, `c2` in 0..3, a frame with raw
id `(r + c1) mod 256` on channel `c1` and one with raw id `(r + c2) mod 256` on channel `c2`
get the same normalized id from `WaitForPacket`, namely `((raw - channel) mod 256) >> 2`,
which is `r >> 2`. -/
theorem C6_txid_same_on_all_channels (r c1 c2 : Nat) (hr : r < 256)
    (h1 : c1 < NUM_CHANNELS) (h2 : c2 < NUM_CHANNELS) :
    WaitForPacket_txid ((r + c1) % 256) c1 = WaitForPacket_txid ((r + c2) % 256) c2
      ∧ WaitForPacket_txid ((r + c1) % 256) c1
          = (((r + c1) % 256 + 256 - c1) % 256) >>> 2
      ∧ WaitForPacket_txid ((r + c1) % 256) c1 = r >>> 2 := by
  have key : ∀ c, c < NUM_CHANNELS → WaitForPacket_txid ((r + c) % 256) c = r >>> 2 := by
    intro c hc
    simp only [NUM_CHANNELS] at hc
    have hsub : txId_sub_channel ((r + c) % 256) c = r := by
      simp only [txId_sub_channel]
      omega
    simp only [WaitForPacket_txid, hsub]
    exact and_FC_shift r hr
  refine ⟨by rw [key c1 h1, key c2 h2], ?_, key c1 h1⟩
  rw [key c1 h1]
  simp only [NUM_CHANNELS] at h1
  have : ((r + c1) % 256 + 256 - c1) % 256 = r := by omega
  rw [this]

/-- C6 at raw id 0xFE seen on channels 3 and 0 (the raw id wraps around on channel 3). -/
theorem C6_txid_same_on_all_channels_witness :
    254 < 256 ∧ 3 < NUM_CHANNELS ∧ 0 < NUM_CHANNELS
      ∧ WaitForPacket_txid ((254 + 3) % 256) 3 = WaitForPacket_txid ((254 + 0) % 256) 0
      ∧ WaitForPacket_txid ((254 + 3) % 256) 3
          = (((254 + 3) % 256 + 256 - 3) % 256) >>> 2
      ∧ WaitForPacket_txid ((254 + 3) % 256) 3 = 254 >>> 2 :=
  ⟨by decide, by decide, by decide,
    C6_txid_same_on_all_channels 254 3 0 (by decide) (by decide) (by decide)⟩

/-! ### Frame decoder -/

/-- The if-chain of `bit_reverse_byte` reverses the bit order of every byte, and the result
is a byte. -/
theorem bit_reverse_byte_eq_spec (b : Nat) (hb : b < 256) :
    bit_reverse_byte b = spec_bitrev8 b ∧ spec_bitrev8 b < 256 := by
  revert b
  set_option maxRecDepth 100000 in decide

/-- Top three bits of a 16-bit value, as the decoder extracts them. -/
theorem exponent_bits (r : Nat) (hr : r < 65536) : (r &&& 0xE000) >>> 13 = r / 8192 := by
  have h : r / 8192 = r >>> 13 := (Nat.shiftRight_eq_div_pow r 13).symm
  rw [h]
  apply Nat.eq_of_testBit_eq
  intro j
  simp only [Nat.testBit_shiftRight, Nat.testBit_and]
  by_cases hj : j < 3
  · have hc : Nat.testBit 0xE000 (13 + j) = true := by
      interval_cases j <;> decide
    rw [hc, Bool.and_true]
  · have hlt : r < 2 ^ (13 + j) :=
      lt_of_lt_of_le hr (by
        have : (65536 : Nat) = 2 ^ 16 := by norm_num
        rw [this]
        exact Nat.pow_le_pow_right (by decide) (by omega))
    rw [Nat.testBit_lt_two_pow hlt, Bool.false_and]

/-- Low thirteen bits, as the decoder extracts them. -/
theorem mantissa_bits (r : Nat) : r &&& 0x1FFF = r % 8192 :=
  Nat.and_pow_two_sub_one_eq_mod r 13

/-- The decoder in arithmetic form: with `r` the field after bit-reversing each of its two
bytes in place, the result is `(r mod 2^13) * 2^(r div 2^13)`. -/
theorem dex_num_decoder_eq (x : Nat) (hx : x < 65536) :
    dex_num_decoder x
      = ((spec_bitrev8 (x % 256) + 256 * spec_bitrev8 (x / 256)) % 8192)
          <<< ((spec_bitrev8 (x % 256) + 256 * spec_bitrev8 (x / 256)) / 8192) := by
  have hlo : x % 256 < 256 := Nat.mod_lt _ (by decide)
  have hhi : x / 256 < 256 := by omega
  have hhi' : x / 256 % 256 = x / 256 := Nat.mod_eq_of_lt hhi
  obtain ⟨e1, b1⟩ := bit_reverse_byte_eq_spec (x % 256) hlo
  obtain ⟨e2, b2⟩ := bit_reverse_byte_eq_spec (x / 256) hhi
  simp only [dex_num_decoder, bit_reverse_bytes, List.map_cons, List.map_nil, hhi', e1, e2]
  have hg0 : [spec_bitrev8 (x % 256), spec_bitrev8 (x / 256)].getD 0 0
      = spec_bitrev8 (x % 256) := rfl
  have hg1 : [spec_bitrev8 (x % 256), spec_bitrev8 (x / 256)].getD 1 0
      = spec_bitrev8 (x / 256) := rfl
  rw [hg0, hg1]
  generalize hr : spec_bitrev8 (x % 256) + 256 * spec_bitrev8 (x / 256) = r
  have hr16 : r < 65536 := by omega
  rw [exponent_bits r hr16, mantissa_bits r]
  have he : r / 8192 < 8 := by omega
  have he' : r / 8192 % 256 = r / 8192 := by omega
  rw [he']
  have hm : r % 8192 < 8192 := Nat.mod_lt _ (by decide)
  apply Nat.mod_eq_of_lt
  rw [Nat.shiftLeft_eq]
  have hp : 2 ^ (r / 8192) ≤ 2 ^ 7 := Nat.pow_le_pow_right (by decide) (by omega)
  calc r % 8192 * 2 ^ (r / 8192) ≤ 8191 * 2 ^ 7 :=
        Nat.mul_le_mul (by omega) hp
    _ < 2 ^ 32 := by norm_num

/-- An exponent and mantissa packed as `(e << 13) | m` are recovered by division. -/
theorem pack_exponent_mantissa (e m : Nat) (hm : m < 8192) :
    ((e <<< 13) ||| m) / 8192 = e ∧ ((e <<< 13) ||| m) % 8192 = m := by
  have h1 : e <<< 13 = 2 ^ 13 * e := by rw [Nat.shiftLeft_eq, Nat.mul_comm]
  have h2 : 2 ^ 13 * e ||| m = 2 ^ 13 * e + m :=
    (Nat.mul_add_lt_is_or (show m < 2 ^ 13 from hm) e).symm
  rw [h1, h2]
  constructor <;> omega

/-- C7: for every exponent `e` in 0..7 and mantissa `m` in 0..8191, `dex_num_decoder` applied
to the 16-bit field whose value after reversing the bit order inside each of its two bytes is
`(e << 13) | m` returns `m << e`, and `print_packet` reports `2 * (m << e)` as the filtered
value of a packet carrying that field. -/
theorem C7_decode_exponent_mantissa (e m x : Nat) (he : e < 8) (hm : m < 8192)
    (hx : x < 65536)
    (hrev : spec_bitrev8 (x % 256) + 256 * spec_bitrev8 (x / 256) = (e <<< 13) ||| m) :
    dex_num_decoder x = m <<< e
      ∧ ∀ (pPkt : Dexcom_packet) (battery_capacity now : Nat), pPkt.filtered = x →
          (print_packet pPkt battery_capacity now).filtered = 2 * (m <<< e) := by
  obtain ⟨hE, hM⟩ := pack_exponent_mantissa e m hm
  have hdec : dex_num_decoder x = m <<< e := by
    rw [dex_num_decoder_eq x hx, hrev, hE, hM]
  refine ⟨hdec, ?_⟩
  intro pPkt bc now hf
  simp only [print_packet, hf, hdec]
  have hp : 2 ^ e ≤ 2 ^ 7 := Nat.pow_le_pow_right (by decide) (by omega)
  have hb : m <<< e ≤ 8191 * 2 ^ 7 := by
    rw [Nat.shiftLeft_eq]
    exact Nat.mul_le_mul (by omega) hp
  have hlt : m <<< e * 2 < 2 ^ 32 := by
    have : (8191 * 2 ^ 7 : Nat) * 2 < 2 ^ 32 := by norm_num
    omega
  rw [Nat.mod_eq_of_lt hlt]
  omega

/-- C7 at exponent 2, mantissa 5, field 0x02A0: the decoded value is 20, the filtered value
reported is 40. -/
theorem C7_decode_exponent_mantissa_witness :
    2 < 8 ∧ 5 < 8192 ∧ 0x02A0 < 65536
      ∧ spec_bitrev8 (0x02A0 % 256) + 256 * spec_bitrev8 (0x02A0 / 256) = (2 <<< 13) ||| 5
      ∧ (5 : Nat) <<< 2 = 20
      ∧ dex_num_decoder 0x02A0 = 5 <<< 2
      ∧ ∀ (pPkt : Dexcom_packet) (battery_capacity now : Nat), pPkt.filtered = 0x02A0 →
          (print_packet pPkt battery_capacity now).filtered = 2 * (5 <<< 2) :=
  ⟨by decide, by decide, by decide, by decide, by decide,
    C7_decode_exponent_mantissa 2 5 0x02A0 (by decide) (by decide) (by decide) (by decide)⟩

/-- C8, as stated, fails: for the field 0x02A0 the code returns 20, while reversing the order
of the two bytes gives 0xA002, whose top 3 bits are 5 and low 13 bits are 2, that is 64. -/
theorem C8_counterexample :
    dex_num_decoder 0x02A0 = 20 ∧ spec_byteSwapDecode 0x02A0 = 64
      ∧ dex_num_decoder 0x02A0 ≠ spec_byteSwapDecode 0x02A0 := by
  decide

/-- C8, amended: for every 16-bit field `x`, `dex_num_decoder x` equals
`mantissa << exponent`, where `r` is `x` with the bit order reversed inside each of its two
bytes (the bytes keep their places), `exponent` is the top 3 bits of `r` and `mantissa` the
low 13 bits of `r`. -/
theorem C8_decode_bit_reversed (x : Nat) (hx : x < 65536) :
    dex_num_decoder x
      = ((spec_bitrev8 (x % 256) + 256 * spec_bitrev8 (x / 256)) % 8192)
          <<< ((spec_bitrev8 (x % 256) + 256 * spec_bitrev8 (x / 256)) / 8192) :=
  dex_num_decoder_eq x hx

/-- C8, amended, at the field 0x02A0: `r` is 0x4005. -/
theorem C8_decode_bit_reversed_witness :
    0x02A0 < 65536
      ∧ spec_bitrev8 (0x02A0 % 256) + 256 * spec_bitrev8 (0x02A0 / 256) = 0x4005
      ∧ dex_num_decoder 0x02A0
          = ((spec_bitrev8 (0x02A0 % 256) + 256 * spec_bitrev8 (0x02A0 / 256)) % 8192)
              <<< ((spec_bitrev8 (0x02A0 % 256) + 256 * spec_bitrev8 (0x02A0 / 256)) / 8192) :=
  ⟨by decide, by decide, C8_decode_bit_reversed 0x02A0 (by decide)⟩

/-- A 5-bit group of an address depends only on the low 25 bits when the shift is at most
20. -/
theorem group_mod (src k : Nat) (hk : k ≤ 20) :
    (src >>> k) &&& 0x1F = ((src % 2 ^ 25) >>> k) &&& 0x1F := by
  have h31 : ∀ y : Nat, y &&& 0x1F = y % 2 ^ 5 := fun y => Nat.and_pow_two_sub_one_eq_mod y 5
  rw [h31, h31, Nat.shiftRight_eq_div_pow, Nat.shiftRight_eq_div_pow]
  have hsplit : (2 : Nat) ^ 25 = 2 ^ k * 2 ^ (25 - k) := by
    rw [← Nat.pow_add]
    congr 1
    omega
  have hd : src % 2 ^ 25 / 2 ^ k = src / 2 ^ k % 2 ^ (25 - k) := by
    rw [hsplit, Nat.mod_mul_right_div_self]
  rw [hd]
  have h5 : (2 : Nat) ^ (25 - k) = 2 ^ 5 * 2 ^ (20 - k) := by
    rw [← Nat.pow_add]
    congr 1
    omega
  rw [h5, Nat.mod_mul_right_mod]

/-- A table lookup at a 5-bit index is inside the table. -/
theorem SrcNameTable_lookup (y : Nat) :
    some (SrcNameTable.getD (y &&& 0x1F) (Char.ofNat 0)) = SrcNameTable[y &&& 0x1F]? := by
  have h31 : y &&& 0x1F = y % 2 ^ 5 := Nat.and_pow_two_sub_one_eq_mod y 5
  have hlt : y &&& 0x1F < SrcNameTable.length := by
    rw [h31]
    exact Nat.mod_lt _ (by decide)
  rw [List.getD_eq_getElem?_getD, List.getElem?_eq_getElem hlt]
  rfl

/-- C9: for every address `src`, `dexcom_src_to_ascii src` is five characters followed by a
terminating zero, the `i`-th character being `SrcNameTable[(src >> (20 - 5*i)) & 0x1F]`,
most-significant 5-bit group first; bits 25 and above of `src` do not affect the result. -/
theorem C9_src_to_ascii (src src2 : Nat) :
    (dexcom_src_to_ascii src).length = 6
      ∧ (dexcom_src_to_ascii src)[0]? = SrcNameTable[(src >>> 20) &&& 0x1F]?
      ∧ (dexcom_src_to_ascii src)[1]? = SrcNameTable[(src >>> 15) &&& 0x1F]?
      ∧ (dexcom_src_to_ascii src)[2]? = SrcNameTable[(src >>> 10) &&& 0x1F]?
      ∧ (dexcom_src_to_ascii src)[3]? = SrcNameTable[(src >>> 5) &&& 0x1F]?
      ∧ (dexcom_src_to_ascii src)[4]? = SrcNameTable[(src >>> 0) &&& 0x1F]?
      ∧ (dexcom_src_to_ascii src)[5]? = some (Char.ofNat 0)
      ∧ dexcom_src_to_ascii (src % 2 ^ 25 + 2 ^ 25 * src2) = dexcom_src_to_ascii src := by
  refine ⟨rfl, ?_, ?_, ?_, ?_, ?_, rfl, ?_⟩
  · exact SrcNameTable_lookup (src >>> 20)
  · exact SrcNameTable_lookup (src >>> 15)
  · exact SrcNameTable_lookup (src >>> 10)
  · exact SrcNameTable_lookup (src >>> 5)
  · exact SrcNameTable_lookup (src >>> 0)
  · have hm : (src % 2 ^ 25 + 2 ^ 25 * src2) % 2 ^ 25 = src % 2 ^ 25 := by
      rw [Nat.add_mul_mod_self_left, Nat.mod_mod]
    simp only [dexcom_src_to_ascii]
    rw [group_mod (src % 2 ^ 25 + 2 ^ 25 * src2) 20 (by decide),
      group_mod (src % 2 ^ 25 + 2 ^ 25 * src2) 15 (by decide),
      group_mod (src % 2 ^ 25 + 2 ^ 25 * src2) 10 (by decide),
      group_mod (src % 2 ^ 25 + 2 ^ 25 * src2) 5 (by decide),
      group_mod (src % 2 ^ 25 + 2 ^ 25 * src2) 0 (by decide), hm,
      ← group_mod src 20 (by decide), ← group_mod src 15 (by decide),
      ← group_mod src 10 (by decide), ← group_mod src 5 (by decide),
      ← group_mod src 0 (by decide)]

/-! ### Sleep scheduler -/

/-- The fold loop of `calcSleep` ends within `less / diff + 1` iterations and leaves `less`
itself when it is 0 and otherwise the representative of `less` modulo `diff` in `1 .. diff`. -/
theorem calcSleep_loop_eq (diff : Nat) (hd : 0 < diff) :
    ∀ fuel less : Nat, less / diff < fuel →
      calcSleep_loop diff fuel less
        = some (if less = 0 then 0 else (less - 1) % diff + 1) := by
  intro fuel
  induction fuel with
  | zero => intro less h; exact absurd h (Nat.not_lt_zero _)
  | succ f ih =>
    intro less h
    by_cases hgt : less > diff
    · have hq : (less - diff) / diff < f := by
        have h1 : (less - diff + diff) / diff = (less - diff) / diff + 1 :=
          Nat.add_div_right (less - diff) hd
        have h2 : less - diff + diff = less := Nat.sub_add_cancel (Nat.le_of_lt hgt)
        rw [h2] at h1
        omega
      rw [calcSleep_loop, if_pos hgt, ih (less - diff) hq]
      have hne : less - diff ≠ 0 := by omega
      have hne2 : less ≠ 0 := by omega
      rw [if_neg hne, if_neg hne2]
      have hs : less - 1 = (less - diff - 1) + diff := by omega
      rw [hs, Nat.add_mod_right]
    · rw [calcSleep_loop, if_neg hgt]
      by_cases h0 : less = 0
      · rw [if_pos h0, h0]
      · rw [if_neg h0]
        have hlt : less - 1 < diff := by omega
        rw [Nat.mod_eq_of_lt hlt]
        congr 1
        omega

/-- C10, as stated, fails twice: with `last_channel = 0`, last capture time 0 and clock
700000 the code returns 0 (no capture yet), not 140000; and with last capture time 1 and
clock 280001, an elapsed time of exactly one target, it returns 0 where
`target - (elapsed mod target)` is 280000. -/
theorem C10_counterexample :
    calcSleep 15423 0 700000 0 = some 0
      ∧ 280000 - (700000 - 0) % 280000 = 140000
      ∧ calcSleep 15423 1 280001 0 = some 0
      ∧ 280000 - (280001 - 1) % 280000 = 280000 := by
  decide

/-- After a capture, for a fixed target `diff`, the loop of `calcSleep` ends and the result is
`diff` minus the folded elapsed time. -/
theorem calcSleep_fold (fuel diff less : Nat) (hd : 0 < diff) (hd32 : diff < 2 ^ 32)
    (hq : less / diff < fuel) :
    (match calcSleep_loop diff fuel less with
      | none => none
      | some less1 => some ((diff + 2 ^ 32 - less1) % 2 ^ 32))
      = some (diff - (if less = 0 then 0 else (less - 1) % diff + 1)) := by
  rw [calcSleep_loop_eq diff hd fuel less hq]
  have hle : (if less = 0 then 0 else (less - 1) % diff + 1) ≤ diff := by
    split
    · exact Nat.zero_le _
    · have := Nat.mod_lt (less - 1) hd
      omega
  generalize (if less = 0 then 0 else (less - 1) % diff + 1) = e at hle
  show some ((diff + 2 ^ 32 - e) % 2 ^ 32) = some (diff - e)
  congr 1
  have h1 : diff + 2 ^ 32 - e = (diff - e) + 2 ^ 32 := by omega
  rw [h1, Nat.add_mod_right]
  exact Nat.mod_eq_of_lt (by omega)

/-- C10, amended: `calcSleep` returns 0 when no capture has occurred (`pkt_time = 0`).
Otherwise, for every last-capture time, clock value and `last_channel` in 0..3, with
`target = 300000 - 20000 - 500 * last_channel` and `elapsed = now - pkt_time` (32-bit), the
fold loop ends and `calcSleep` returns `target - e`, where `e` is `elapsed` reduced by
repeatedly subtracting `target` while it exceeds `target` (`e = 0` when `elapsed = 0`,
otherwise `((elapsed - 1) mod target) + 1`); this is `target - (elapsed mod target)` unless
`elapsed` is a positive multiple of `target`, where the result is 0. -/
theorem C10_calcSleep_fold (fuel pkt_time now last_channel : Nat)
    (hlc : last_channel < NUM_CHANNELS) (hfuel : 15423 ≤ fuel) :
    calcSleep fuel pkt_time now last_channel
        = (if pkt_time = 0 then some 0
           else some ((300000 - 20000 - 500 * last_channel)
                  - (if (now + 2 ^ 32 - pkt_time) % 2 ^ 32 = 0 then 0
                     else ((now + 2 ^ 32 - pkt_time) % 2 ^ 32 - 1)
                            % (300000 - 20000 - 500 * last_channel) + 1)))
      ∧ (pkt_time = 0
          ∨ ((now + 2 ^ 32 - pkt_time) % 2 ^ 32 ≠ 0
              ∧ (now + 2 ^ 32 - pkt_time) % 2 ^ 32 % (300000 - 20000 - 500 * last_channel) = 0
              ∧ calcSleep fuel pkt_time now last_channel = some 0)
          ∨ calcSleep fuel pkt_time now last_channel
              = some ((300000 - 20000 - 500 * last_channel)
                  - (now + 2 ^ 32 - pkt_time) % 2 ^ 32
                      % (300000 - 20000 - 500 * last_channel))) := by
  have hT : (DX_PKT_INTERVAL + 2 ^ 32 - wake_before_packet - last_channel * 500) % 2 ^ 32
      = 300000 - 20000 - 500 * last_channel := by
    simp only [DX_PKT_INTERVAL, wake_before_packet, NUM_CHANNELS] at hlc ⊢
    omega
  have hTlo : 278500 ≤ 300000 - 20000 - 500 * last_channel := by
    simp only [NUM_CHANNELS] at hlc
    omega
  have hThi : 300000 - 20000 - 500 * last_channel ≤ 280000 := by omega
  have hcs : calcSleep fuel pkt_time now last_channel
      = (if pkt_time = 0 then some 0
         else
          match calcSleep_loop (300000 - 20000 - 500 * last_channel) fuel
              ((now + 2 ^ 32 - pkt_time) % 2 ^ 32) with
          | none => none
          | some less1 =>
            some ((300000 - 20000 - 500 * last_channel + 2 ^ 32 - less1) % 2 ^ 32)) := by
    simp only [calcSleep, hT]
  rw [hcs]
  have hE : (now + 2 ^ 32 - pkt_time) % 2 ^ 32 < 2 ^ 32 := Nat.mod_lt _ (by decide)
  generalize (now + 2 ^ 32 - pkt_time) % 2 ^ 32 = E at hE
  generalize 300000 - 20000 - 500 * last_channel = T at hTlo hThi
  have hq : E / T < fuel := by
    have h1 : E / T ≤ E / 278500 := Nat.div_le_div_left hTlo (by decide)
    have h2 : E / 278500 < 15423 := by omega
    omega
  have hfold := calcSleep_fold fuel T E (by omega) (by omega) hq
  by_cases hp : pkt_time = 0
  · simp [hp]
  · rw [if_neg hp, if_neg hp, hfold]
    refine ⟨rfl, Or.inr ?_⟩
    have hTpos : 0 < T := by omega
    by_cases hE0 : E = 0
    · right
      rw [if_pos hE0, hE0]
      simp
    · rw [if_neg hE0]
      by_cases hmod : E % T = 0
      · left
        refine ⟨hE0, hmod, ?_⟩
        congr 1
        have hdvd : (E - 1) % T + 1 = T := by
          obtain ⟨k, hk⟩ := Nat.dvd_of_mod_eq_zero hmod
          have hkpos : 0 < k := by
            rcases Nat.eq_zero_or_pos k with h0 | h0
            · rw [h0, Nat.mul_zero] at hk
              exact absurd hk hE0
            · exact h0
          obtain ⟨j, rfl⟩ : ∃ j, k = j + 1 := ⟨k - 1, by omega⟩
          have hE1 : E - 1 = (T - 1) + T * j := by
            rw [hk, Nat.mul_succ]
            omega
          rw [hE1, Nat.add_mul_mod_self_left, Nat.mod_eq_of_lt (by omega)]
          omega
        omega
      · right
        congr 2
        have hdm := Nat.div_add_mod E T
        have hlt := Nat.mod_lt E hTpos
        have hE1 : E - 1 = (E % T - 1) + T * (E / T) := by omega
        rw [hE1, Nat.add_mul_mod_self_left, Nat.mod_eq_of_lt (by omega)]
        omega

/-- C10, amended, with `last_channel = 0` (target 280000), last capture at 1 and clock 700001
(elapsed 700000): the result is 140000. -/
theorem C10_calcSleep_fold_witness :
    0 < NUM_CHANNELS ∧ 15423 ≤ 15423
      ∧ calcSleep 15423 1 700001 0 = some 140000
      ∧ calcSleep 15423 1 700001 0
          = (if 1 = 0 then some 0
             else some ((300000 - 20000 - 500 * 0)
                    - (if (700001 + 2 ^ 32 - 1) % 2 ^ 32 = 0 then 0
                       else ((700001 + 2 ^ 32 - 1) % 2 ^ 32 - 1)
                              % (300000 - 20000 - 500 * 0) + 1)))
      ∧ (1 = 0
          ∨ ((700001 + 2 ^ 32 - 1) % 2 ^ 32 ≠ 0
              ∧ (700001 + 2 ^ 32 - 1) % 2 ^ 32 % (300000 - 20000 - 500 * 0) = 0
              ∧ calcSleep 15423 1 700001 0 = some 0)
          ∨ calcSleep 15423 1 700001 0
              = some ((300000 - 20000 - 500 * 0)
                  - (700001 + 2 ^ 32 - 1) % 2 ^ 32 % (300000 - 20000 - 500 * 0))) :=
  ⟨by decide, by decide, by decide, C10_calcSleep_fold 15423 1 700001 0 (by decide) (by decide)⟩

/-! ### Channel-0 wait window of `get_packet` -/

/-- Subtraction of `uint32` values without borrow is the ordinary difference. -/
theorem sub32_of_le (a b : Nat) (hb : b ≤ a) (ha : a < 2 ^ 32) : sub32 a b = a - b := by
  have h32 : (2 : Nat) ^ 32 = 4294967296 := by norm_num
  unfold sub32
  rw [h32] at *
  omega

/-- A `uint32` difference is a `uint32` value. -/
theorem sub32_lt (a b : Nat) : sub32 a b < 2 ^ 32 := by
  unfold sub32
  exact Nat.mod_lt _ (by norm_num)

/-- The loop `while(delay > DX_PKT_INTERVAL) delay -= DX_PKT_INTERVAL;` in closed form, for
every iteration bound of at least `delay / DX_PKT_INTERVAL`. -/
theorem get_packet_reduce_eq (n : Nat) :
    ∀ d : Nat, d / DX_PKT_INTERVAL ≤ n →
      get_packet_reduce n d = if d = 0 then 0 else (d - 1) % DX_PKT_INTERVAL + 1 := by
  induction n with
  | zero =>
    intro d h
    simp only [get_packet_reduce, DX_PKT_INTERVAL] at *
    split_ifs <;> omega
  | succ n ih =>
    intro d h
    simp only [get_packet_reduce]
    by_cases hd : d > DX_PKT_INTERVAL
    · rw [if_pos hd, ih (d - DX_PKT_INTERVAL) (by simp only [DX_PKT_INTERVAL] at *; omega)]
      simp only [DX_PKT_INTERVAL] at *
      split_ifs <;> omega
    · rw [if_neg hd]
      simp only [DX_PKT_INTERVAL] at *
      split_ifs <;> omega

/-- The iteration bound `delay / DX_PKT_INTERVAL` is never what ends the loop: the value left
no longer exceeds `DX_PKT_INTERVAL`. -/
theorem get_packet_reduce_exit (d : Nat) :
    ¬ (get_packet_reduce (d / DX_PKT_INTERVAL) d > DX_PKT_INTERVAL) := by
  rw [get_packet_reduce_eq _ d (Nat.le_refl _)]
  simp only [DX_PKT_INTERVAL]
  split_ifs <;> omega

/-- With both flags clear, a capture on record and a clock that has not wrapped, the window
for channel 0 in terms of the elapsed time. -/
theorem get_packet_delay_eq (pkt_time last_channel ms_cmp ms_calc : Nat) (crc_error : Bool)
    (hp : pkt_time ≠ 0) (hcmp : pkt_time ≤ ms_cmp) (hcalc : pkt_time ≤ ms_calc)
    (h32 : ms_calc < 2 ^ 32) :
    get_packet_delay START_CHANNEL false crc_error pkt_time last_channel ms_cmp ms_calc
      = if ms_calc - pkt_time = DX_PKT_INTERVAL then 0
        else
          (if (if crc_error then
                (sub32 (sub32 DX_PKT_INTERVAL (ms_calc - pkt_time)) (last_channel * 500) + 10)
                  % 2 ^ 32
               else sub32 (sub32 DX_PKT_INTERVAL (ms_calc - pkt_time)) (last_channel * 500)) = 0
           then 0
           else ((if crc_error then
                (sub32 (sub32 DX_PKT_INTERVAL (ms_calc - pkt_time)) (last_channel * 500) + 10)
                  % 2 ^ 32
               else sub32 (sub32 DX_PKT_INTERVAL (ms_calc - pkt_time)) (last_channel * 500)) - 1)
              % DX_PKT_INTERVAL + 1) := by
  have hE : sub32 ms_calc pkt_time = ms_calc - pkt_time := sub32_of_le _ _ hcalc h32
  have h0 : sub32 DX_PKT_INTERVAL (ms_calc - pkt_time) > 0
      ↔ ms_calc - pkt_time ≠ DX_PKT_INTERVAL := by
    have h32 : (2 : Nat) ^ 32 = 4294967296 := by norm_num
    simp only [sub32, DX_PKT_INTERVAL]
    rw [h32] at *
    omega
  simp only [get_packet_delay, START_CHANNEL, ne_eq, not_true_eq_false, if_false,
    Bool.false_eq_true, false_and, hp, Nat.not_lt.mpr hcmp, hE]
  by_cases hEq : ms_calc - pkt_time = DX_PKT_INTERVAL
  · have hz : sub32 DX_PKT_INTERVAL (ms_calc - pkt_time) = 0 := by
      have := h0.not.mpr (not_not.mpr hEq)
      omega
    rw [if_pos hEq, hz]
    simp [get_packet_reduce]
  · rw [if_neg hEq, if_pos (h0.mpr hEq)]
    rw [get_packet_reduce_eq _ _ (Nat.le_refl _)]

/-- In the ordinary range (elapsed time below 300000, the channel correction not larger than
what is left of the interval) the channel-0 window is `300000 - 500 * last_channel - elapsed`,
plus 10 when `crc_error` is set. -/
theorem get_packet_delay_ordinary (pkt_time last_channel ms_cmp ms_calc : Nat)
    (crc_error : Bool) (hp : pkt_time ≠ 0) (hcmp : pkt_time ≤ ms_cmp)
    (hcalc : pkt_time ≤ ms_calc) (h32 : ms_calc < 2 ^ 32)
    (hlt : ms_calc - pkt_time < DX_PKT_INTERVAL)
    (hsum : ms_calc - pkt_time + 500 * last_channel ≤ DX_PKT_INTERVAL)
    (hpad : crc_error = true → 10 ≤ ms_calc - pkt_time + 500 * last_channel) :
    get_packet_delay START_CHANNEL false crc_error pkt_time last_channel ms_cmp ms_calc
      = DX_PKT_INTERVAL - 500 * last_channel - (ms_calc - pkt_time)
          + (if crc_error then 10 else 0) := by
  have hp32 : (2 : Nat) ^ 32 = 4294967296 := by norm_num
  have hgen := get_packet_delay_eq pkt_time last_channel ms_cmp ms_calc crc_error hp hcmp
    hcalc h32
  have hne : ms_calc - pkt_time ≠ DX_PKT_INTERVAL := by omega
  rw [hgen, if_neg hne]
  have h1 : sub32 DX_PKT_INTERVAL (ms_calc - pkt_time)
      = DX_PKT_INTERVAL - (ms_calc - pkt_time) :=
    sub32_of_le _ _ (by omega) (by simp only [DX_PKT_INTERVAL]; norm_num)
  have h2 : sub32 (DX_PKT_INTERVAL - (ms_calc - pkt_time)) (last_channel * 500)
      = DX_PKT_INTERVAL - (ms_calc - pkt_time) - last_channel * 500 :=
    sub32_of_le _ _ (by omega)
      (lt_of_le_of_lt (Nat.sub_le _ _) (by simp only [DX_PKT_INTERVAL]; norm_num))
  rw [h1, h2]
  cases crc_error with
  | false =>
    simp only [Bool.false_eq_true, if_false, DX_PKT_INTERVAL] at *
    split_ifs <;> omega
  | true =>
    have h10 := hpad rfl
    simp only [if_true, DX_PKT_INTERVAL] at *
    rw [hp32] at *
    split_ifs <;> omega

/-- C11, as stated, fails: with last capture time 1, clock 1 (elapsed time 0),
`last_channel = 0` and both flags clear, `get_packet` hands the window 300000 to
`WaitForPacket` for channel 0, whereas the folded elapsed time is 0 and `target - e` is
280000. -/
theorem C11_counterexample :
    get_packet_delay START_CHANNEL false false 1 0 1 1 = 300000
      ∧ calcSleep_loop (DX_PKT_INTERVAL - wake_before_packet - 500 * 0) 1 (1 - 1) = some 0
      ∧ DX_PKT_INTERVAL - wake_before_packet - 500 * 0 - 0 = 280000 := by
  decide

/-- C11, amended: for every state with a previous capture (`pkt_time ≠ 0`, clock readings not
below `pkt_time`), both flags clear, `last_channel` in 0..3 and
`elapsed + 500 * last_channel < 300000`, where `elapsed = now - pkt_time`, the window
`get_packet` hands to `WaitForPacket` for channel 0 is `300000 - 500 * last_channel - elapsed`,
a positive number: the 20000 ms lead time is not subtracted and the elapsed time is not
folded. -/
theorem C11_get_packet_window (pkt_time last_channel ms_cmp ms_calc : Nat)
    (hp : pkt_time ≠ 0) (hcmp : pkt_time ≤ ms_cmp) (hcalc : pkt_time ≤ ms_calc)
    (h32 : ms_calc < 2 ^ 32) (_hlc : last_channel < NUM_CHANNELS)
    (hsum : ms_calc - pkt_time + 500 * last_channel < DX_PKT_INTERVAL) :
    get_packet_delay START_CHANNEL false false pkt_time last_channel ms_cmp ms_calc
        = DX_PKT_INTERVAL - 500 * last_channel - (ms_calc - pkt_time)
      ∧ 0 < get_packet_delay START_CHANNEL false false pkt_time last_channel ms_cmp ms_calc := by
  have heq := get_packet_delay_ordinary pkt_time last_channel ms_cmp ms_calc false hp hcmp
    hcalc h32 (by omega) (by omega) (by simp)
  simp only [Bool.false_eq_true, if_false, Nat.add_zero] at heq
  refine ⟨heq, ?_⟩
  rw [heq]
  omega

/-- C11, amended, with last capture at 1000, clock 61000 (elapsed 60000) and
`last_channel = 1`: the window is 300000 - 500 - 60000 = 239500. -/
theorem C11_get_packet_window_witness :
    1000 ≠ 0 ∧ 1000 ≤ 61000 ∧ 61000 < 2 ^ 32 ∧ 1 < NUM_CHANNELS
      ∧ 61000 - 1000 + 500 * 1 < DX_PKT_INTERVAL
      ∧ get_packet_delay START_CHANNEL false false 1000 1 61000 61000 = 239500
      ∧ (get_packet_delay START_CHANNEL false false 1000 1 61000 61000
            = DX_PKT_INTERVAL - 500 * 1 - (61000 - 1000)
          ∧ 0 < get_packet_delay START_CHANNEL false false 1000 1 61000 61000) :=
  ⟨by decide, by decide, by norm_num, by decide, by decide, by decide,
    C11_get_packet_window 1000 1 61000 61000 (by decide) (by decide) (by decide) (by norm_num)
      (by decide) (by decide)⟩

/-! ### C12: `calcSleep` against the channel-0 window -/

/-- C12, as stated, fails: with last capture at 1000, clock 61000 and `last_channel = 0`,
`calcSleep` returns 220000 while the channel-0 window of `get_packet` is 240000. -/
theorem C12_counterexample :
    calcSleep 1 1000 61000 0 = some 220000
      ∧ get_packet_delay START_CHANNEL false false 1000 0 61000 61000 = 240000 := by
  decide

/-- C12, amended: for every clock value, last capture time `pkt_time ≠ 0` not after the clock
and `last_channel` in 0..3, with both flags clear and an elapsed time of at most the target
`300000 - 20000 - 500 * last_channel`, `calcSleep` returns the target minus the elapsed time,
and the channel-0 window `get_packet` computes from the same values is that duration plus
the lead time `wake_before_packet` = 20000. -/
theorem C12_calcSleep_vs_window (fuel pkt_time now last_channel : Nat) (hf : 0 < fuel)
    (hp : pkt_time ≠ 0) (hnow : pkt_time ≤ now) (h32 : now < 2 ^ 32)
    (hlc : last_channel < NUM_CHANNELS)
    (hE : now - pkt_time + 500 * last_channel + wake_before_packet ≤ DX_PKT_INTERVAL) :
    calcSleep fuel pkt_time now last_channel
        = some (DX_PKT_INTERVAL - wake_before_packet - 500 * last_channel - (now - pkt_time))
      ∧ get_packet_delay START_CHANNEL false false pkt_time last_channel now now
        = (DX_PKT_INTERVAL - wake_before_packet - 500 * last_channel - (now - pkt_time))
            + wake_before_packet := by
  have hp32 : (2 : Nat) ^ 32 = 4294967296 := by norm_num
  constructor
  · obtain ⟨n, rfl⟩ : ∃ n, fuel = n + 1 := ⟨fuel - 1, by omega⟩
    simp only [DX_PKT_INTERVAL, wake_before_packet, NUM_CHANNELS] at *
    have hdiff : (300000 + 2 ^ 32 - 20000 - last_channel * 500) % 2 ^ 32
        = 280000 - last_channel * 500 := by
      rw [hp32] at *
      omega
    have hless : (now + 2 ^ 32 - pkt_time) % 2 ^ 32 = now - pkt_time := by
      rw [hp32] at *
      omega
    simp only [calcSleep, if_neg hp, DX_PKT_INTERVAL, wake_before_packet, hdiff, hless,
      calcSleep_loop]
    rw [if_neg (by omega)]
    simp only [Option.some.injEq]
    rw [hp32] at *
    omega
  · rw [get_packet_delay_ordinary pkt_time last_channel now now false hp hnow hnow h32
      (by simp only [DX_PKT_INTERVAL, wake_before_packet] at *; omega)
      (by simp only [DX_PKT_INTERVAL, wake_before_packet] at *; omega) (by simp)]
    simp only [DX_PKT_INTERVAL, wake_before_packet, NUM_CHANNELS] at *
    simp only [Bool.false_eq_true, if_false]
    omega

/-- C12, amended, with last capture at 1000, clock 61000 and `last_channel = 0`: `calcSleep`
returns 220000 and the channel-0 window is 240000. -/
theorem C12_calcSleep_vs_window_witness :
    0 < 1 ∧ 1000 ≠ 0 ∧ 1000 ≤ 61000 ∧ 0 < NUM_CHANNELS
      ∧ 61000 - 1000 + 500 * 0 + wake_before_packet ≤ DX_PKT_INTERVAL
      ∧ calcSleep 1 1000 61000 0
          = some (DX_PKT_INTERVAL - wake_before_packet - 500 * 0 - (61000 - 1000))
      ∧ get_packet_delay START_CHANNEL false false 1000 0 61000 61000
          = (DX_PKT_INTERVAL - wake_before_packet - 500 * 0 - (61000 - 1000))
              + wake_before_packet :=
  ⟨by decide, by decide, by decide, by decide, by decide,
    C12_calcSleep_vs_window 1 1000 61000 0 (by decide) (by decide) (by decide) (by norm_num)
      (by decide) (by decide)⟩

/-! ### The channel scan of `get_packet` -/

/-- Reading back the field `ms` after it was assigned gives the assigned `uint32` value. -/
theorem ms_set_ms (p : Dexcom_packet) (v : Nat) : (p.set_ms v).ms = v % 2 ^ 32 := by
  have hp32 : (2 : Nat) ^ 32 = 4294967296 := by norm_num
  simp only [Dexcom_packet.ms, Dexcom_packet.set_ms]
  rw [hp32]
  norm_num
  omega

/-- A scan that makes a call returning neither captured nor aborted and then continues with
the next channel index satisfies the description if the rest of the scan does. -/
theorem GetPacketSpec.cons (k : Nat) (hk : k + 1 ≤ NUM_CHANNELS) (call : WaitCall)
    (st st1 : GetPacketState) (res1 : GetPacketResult)
    (hch : call.channel = NUM_CHANNELS - (k + 1))
    (hms : call.channel ≠ START_CHANNEL → call.milliseconds = 500)
    (h1 : call.nRet ≠ 1) (hm1 : call.nRet ≠ -1)
    (hto : st1.timed_out = if call.nRet = 0 then true else st.timed_out)
    (hcrc : st1.crc_error = (st.crc_error || decide (call.nRet = -2)))
    (h : GetPacketSpec k st1 res1) :
    GetPacketSpec (k + 1) st { res1 with calls := call :: res1.calls } := by
  have hstep : NUM_CHANNELS - (k + 1) + 1 = NUM_CHANNELS - k := by
    unfold NUM_CHANNELS at hk ⊢
    omega
  obtain ⟨hchan, hlen, hwin, htimed, hcrcf, hend⟩ := h
  refine ⟨?_, ?_, ?_, ?_, ?_, ?_⟩
  · simp only [List.map_cons, List.length_cons, List.range'_succ, hch, hchan]
    rw [hstep]
  · simp only [List.length_cons]
    omega
  · intro c hc
    rcases List.mem_cons.mp hc with rfl | hc
    · exact hms
    · exact hwin c hc
  · simp only [List.map_cons, timed_out_after, List.foldl_cons, if_neg h1]
    rw [htimed, hto]
    rfl
  · simp only [List.any_cons]
    rw [hcrcf, hcrc, Bool.or_assoc]
  · rcases hend with ⟨hr, init, last, hcalls, hlast, hinit, hmsf⟩ |
        ⟨hr, init, last, hcalls, hlast, hinit⟩ | ⟨hr, hlen, hall⟩
    · left
      refine ⟨hr, call :: init, last, by simp [hcalls], hlast, ?_, hmsf⟩
      intro c hc
      rcases List.mem_cons.mp hc with rfl | hc
      · exact ⟨h1, hm1⟩
      · exact hinit c hc
    · right; left
      refine ⟨hr, call :: init, last, by simp [hcalls], hlast, ?_⟩
      intro c hc
      rcases List.mem_cons.mp hc with rfl | hc
      · exact ⟨h1, hm1⟩
      · exact hinit c hc
    · right; right
      refine ⟨hr, by simp [hlen], ?_⟩
      intro c hc
      rcases List.mem_cons.mp hc with rfl | hc
      · exact ⟨h1, hm1⟩
      · exact hall c hc

/-- Off the start channel the window is 500 ms. -/
theorem get_packet_delay_off_start (nChannel : Nat) (timed_out crc_error : Bool)
    (pkt_time last_channel ms_cmp ms_calc : Nat) (h : nChannel ≠ START_CHANNEL) :
    get_packet_delay nChannel timed_out crc_error pkt_time last_channel ms_cmp ms_calc
      = 500 := by
  simp only [get_packet_delay, if_pos h]

/-- Every scan that returns satisfies the description. -/
theorem get_packet_from_spec (env : CycleEnv) :
    ∀ (k : Nat) (st : GetPacketState) (res : GetPacketResult), k ≤ NUM_CHANNELS →
      get_packet_from env k st = some res → GetPacketSpec k st res := by
  intro k
  induction k with
  | zero =>
    intro st res _ h
    simp only [get_packet_from, Option.some.injEq] at h
    subst h
    exact ⟨by simp, by simp, by simp, by simp [timed_out_after], by simp,
      Or.inr (Or.inr ⟨rfl, rfl, by simp⟩)⟩
  | succ k ih =>
    intro st res hk h
    simp only [get_packet_from] at h
    split at h
    · exact absurd h (by simp)
    · rename_i r hW
      split_ifs at h with h1 h0 hm1 hm2
      · simp only [Option.some.injEq] at h
        subst h
        refine ⟨by simp [List.range'], by simp, ?_, by simp [timed_out_after, h1],
          by simp [h1], ?_⟩
        · intro c hc hne
          simp only [List.mem_singleton] at hc
          subst hc
          exact get_packet_delay_off_start _ _ _ _ _ _ _ hne
        · left
          exact ⟨rfl, [], _, rfl, h1, by simp, ms_set_ms _ _⟩
      · obtain ⟨res1, hres1, rfl⟩ := Option.map_eq_some'.mp h
        exact GetPacketSpec.cons k hk _ st _ res1 rfl
          (fun hne => get_packet_delay_off_start _ _ _ _ _ _ _ hne) h1 (by simp [h0])
          (by simp [h0]) (by simp [h0]) (ih _ res1 (by omega) hres1)
      · simp only [Option.some.injEq] at h
        subst h
        refine ⟨by simp [List.range'], by simp, ?_, by simp [timed_out_after, h1, h0],
          by simp [hm1], ?_⟩
        · intro c hc hne
          simp only [List.mem_singleton] at hc
          subst hc
          exact get_packet_delay_off_start _ _ _ _ _ _ _ hne
        · right; left
          exact ⟨rfl, [], _, rfl, hm1, by simp⟩
      · obtain ⟨res1, hres1, rfl⟩ := Option.map_eq_some'.mp h
        exact GetPacketSpec.cons k hk _ st _ res1 rfl
          (fun hne => get_packet_delay_off_start _ _ _ _ _ _ _ hne) h1 hm1
          (by simp [h0]) (by simp [hm2]) (ih _ res1 (by omega) hres1)
      · obtain ⟨res1, hres1, rfl⟩ := Option.map_eq_some'.mp h
        exact GetPacketSpec.cons k hk _ st _ res1 rfl
          (fun hne => get_packet_delay_off_start _ _ _ _ _ _ _ hne) h1 hm1
          (by simp [h0]) (by simp [hm2]) (ih _ res1 (by omega) hres1)

/-- The wait loop returns once a pass has `doServices` cancel the wait or reads the clock
more than 320 s after the start of the wait. -/
theorem WaitForPacket_loop_isSome (milliseconds start channel : Nat) (radio : Radio) :
    ∀ (passes : List WaitPass) (s : ScanState) (pkt : Dexcom_packet),
      (∃ p ∈ passes, p.services = false ∨ sub32 p.ms_abort start > 320000) →
      (WaitForPacket_loop milliseconds start channel radio s pkt passes).isSome = true := by
  intro passes
  induction passes with
  | nil =>
    intro s pkt h
    obtain ⟨p, hp, _⟩ := h
    exact absurd hp (List.not_mem_nil p)
  | cons p ps ih =>
    intro s pkt h
    simp only [WaitForPacket_loop]
    split_ifs with hcond habort
    · rfl
    · split
      · rfl
      · apply ih
        obtain ⟨p1, hp1, hends⟩ := h
        rcases List.mem_cons.mp hp1 with rfl | hmem
        · exact absurd hends habort
        · exact ⟨p1, hmem, hends⟩
    · rfl

/-- `WaitForPacket` returns under the same condition. -/
theorem WaitForPacket_isSome (milliseconds : Nat) (pkt : Dexcom_packet) (channel : Nat)
    (s : ScanState) (radio : Radio) (start : Nat) (passes : List WaitPass)
    (h : ∃ p ∈ passes, p.services = false ∨ sub32 p.ms_abort start > 320000) :
    (WaitForPacket milliseconds pkt channel s radio start passes).isSome = true := by
  unfold WaitForPacket
  split_ifs
  · rfl
  · exact WaitForPacket_loop_isSome _ _ _ _ _ _ _ h

/-- The scan returns when each of its waits does. -/
theorem get_packet_from_isSome (env : CycleEnv)
    (h : ∀ c, c < NUM_CHANNELS →
      ∃ p ∈ env.passes c, p.services = false ∨ sub32 p.ms_abort (env.start c) > 320000) :
    ∀ (k : Nat) (st : GetPacketState), k ≤ NUM_CHANNELS →
      (get_packet_from env k st).isSome = true := by
  intro k
  induction k with
  | zero =>
    intro st _
    rfl
  | succ k ih =>
    intro st hk
    have hlt : NUM_CHANNELS - (k + 1) < NUM_CHANNELS := by
      unfold NUM_CHANNELS at hk ⊢
      omega
    simp only [get_packet_from]
    have hW := WaitForPacket_isSome
      (get_packet_delay (NUM_CHANNELS - (k + 1)) st.timed_out st.crc_error st.s.pkt_time
        st.s.last_channel env.ms_cmp env.ms_calc) st.pkt (NUM_CHANNELS - (k + 1)) st.s st.radio
      (env.start (NUM_CHANNELS - (k + 1))) (env.passes (NUM_CHANNELS - (k + 1)))
      (h _ hlt)
    obtain ⟨r, hr⟩ := Option.isSome_iff_exists.mp hW
    rw [hr]
    simp only
    split_ifs
    · rfl
    · rw [Option.isSome_map']
      exact ih _ (by omega)
    · rfl
    · rw [Option.isSome_map']
      exact ih _ (by omega)
    · rw [Option.isSome_map']
      exact ih _ (by omega)

/-- C14: `get_packet` calls `WaitForPacket` on channel indices 0, 1, 2, 3 in increasing
order, with a 500 ms window on every index but 0. It returns 1 exactly when a call returned
captured; that call is the last one made, and the packet's `ms` field then holds `pkt_time`
(a `uint32`). Otherwise it returns 0: either the last call made was aborted, or all four
channels were tried; no call before the last returned captured or aborted. The function
returns whenever each wait sees a cancelling service or a clock reading more than 320 s after
its start. -/
theorem C14_get_packet_scan (env : CycleEnv) (st : GetPacketState) :
    ((∀ c, c < NUM_CHANNELS →
          ∃ p ∈ env.passes c, p.services = false ∨ sub32 p.ms_abort (env.start c) > 320000) →
        (get_packet env st).isSome = true)
      ∧ ∀ res, get_packet env st = some res →
          res.calls.map WaitCall.channel = List.range res.calls.length
            ∧ res.calls.length ≤ NUM_CHANNELS
            ∧ (∀ c ∈ res.calls, c.channel ≠ 0 → c.milliseconds = 500)
            ∧ (res.ret = 1 ↔ ∃ c ∈ res.calls, c.nRet = 1)
            ∧ ((res.ret = 1 ∧ ∃ init last, res.calls = init ++ [last] ∧ last.nRet = 1
                    ∧ (∀ c ∈ init, c.nRet ≠ 1 ∧ c.nRet ≠ -1)
                    ∧ res.st.pkt.ms = res.st.s.pkt_time % 2 ^ 32)
                ∨ (res.ret = 0 ∧ ∃ init last, res.calls = init ++ [last] ∧ last.nRet = -1
                    ∧ (∀ c ∈ init, c.nRet ≠ 1 ∧ c.nRet ≠ -1))
                ∨ (res.ret = 0 ∧ res.calls.length = NUM_CHANNELS
                    ∧ ∀ c ∈ res.calls, c.nRet ≠ 1 ∧ c.nRet ≠ -1)) := by
  refine ⟨fun h => get_packet_from_isSome env h _ st (by decide), ?_⟩
  intro res hres
  obtain ⟨hchan, hlen, hwin, _, _, hend⟩ :=
    get_packet_from_spec env (NUM_CHANNELS - START_CHANNEL) st res (by decide) hres
  refine ⟨?_, hlen, hwin, ?_, hend⟩
  · rw [hchan, List.range_eq_range']
    rfl
  · rcases hend with ⟨hr, init, last, hcalls, hlast, _, _⟩ |
        ⟨hr, init, last, hcalls, hlast, hinit⟩ | ⟨hr, _, hall⟩
    · exact ⟨fun _ => ⟨last, by simp [hcalls], hlast⟩, fun _ => hr⟩
    · constructor
      · intro h1
        rw [hr] at h1
        exact absurd h1 (by decide)
      · rintro ⟨c, hc, hc1⟩
        rw [hcalls] at hc
        rcases List.mem_append.mp hc with hc | hc
        · exact absurd hc1 (hinit c hc).1
        · simp only [List.mem_singleton] at hc
          subst hc
          rw [hlast] at hc1
          exact absurd hc1 (by decide)
    · constructor
      · intro h1
        rw [hr] at h1
        exact absurd h1 (by decide)
      · rintro ⟨c, hc, hc1⟩
        exact absurd hc1 (hall c hc).1

/-- C14 on the sample cycle: the wait on channel 0 (window 240000) times out, the wait on
channel 1 (window 500) captures the sample frame at 301100; `get_packet` returns 1 after these
two calls with `ms` = 301100. -/
theorem C14_get_packet_scan_witness :
    (∀ c, c < NUM_CHANNELS →
        ∃ p ∈ sampleCycleEnv.passes c,
          p.services = false ∨ sub32 p.ms_abort (sampleCycleEnv.start c) > 320000)
      ∧ (get_packet sampleCycleEnv sampleState).map
          (fun r => (r.ret, r.calls.map (fun c => (c.channel, c.milliseconds, c.nRet)),
            r.st.pkt.ms))
          = some (1, [(0, 240000, 0), (1, 500, 1)], 301100)
      ∧ (((∀ c, c < NUM_CHANNELS →
            ∃ p ∈ sampleCycleEnv.passes c, p.services = false ∨ sub32 p.ms_abort (sampleCycleEnv.start c) > 320000) →
          (get_packet sampleCycleEnv sampleState).isSome = true)
        ∧ ∀ res, get_packet sampleCycleEnv sampleState = some res →
            res.calls.map WaitCall.channel = List.range res.calls.length
              ∧ res.calls.length ≤ NUM_CHANNELS
              ∧ (∀ c ∈ res.calls, c.channel ≠ 0 → c.milliseconds = 500)
              ∧ (res.ret = 1 ↔ ∃ c ∈ res.calls, c.nRet = 1)
              ∧ ((res.ret = 1 ∧ ∃ init last, res.calls = init ++ [last] ∧ last.nRet = 1
                      ∧ (∀ c ∈ init, c.nRet ≠ 1 ∧ c.nRet ≠ -1)
                      ∧ res.st.pkt.ms = res.st.s.pkt_time % 2 ^ 32)
                  ∨ (res.ret = 0 ∧ ∃ init last, res.calls = init ++ [last] ∧ last.nRet = -1
                      ∧ (∀ c ∈ init, c.nRet ≠ 1 ∧ c.nRet ≠ -1))
                  ∨ (res.ret = 0 ∧ res.calls.length = NUM_CHANNELS
                      ∧ ∀ c ∈ res.calls, c.nRet ≠ 1 ∧ c.nRet ≠ -1))) :=
  ⟨by decide, by decide, C14_get_packet_scan sampleCycleEnv sampleState⟩

/-! ### The statics `timed_out` and `crc_error` across cycles -/

/-- The flag after two sequences of return values in a row. -/
theorem timed_out_after_append (b : Bool) (l1 l2 : List Int) :
    timed_out_after b (l1 ++ l2) = timed_out_after (timed_out_after b l1) l2 := by
  simp only [timed_out_after, List.foldl_append]

/-- The flag is set after a sequence of calls exactly when some call timed out with no capture
after it, or the flag was set before and no call captured. -/
theorem timed_out_after_iff :
    ∀ (calls : List WaitCall) (b : Bool),
      timed_out_after b (calls.map WaitCall.nRet) = true ↔
        ((∃ l1 t l2, calls = l1 ++ t :: l2 ∧ t.nRet = 0 ∧ ∀ d ∈ l2, d.nRet ≠ 1)
          ∨ (b = true ∧ ∀ d ∈ calls, d.nRet ≠ 1)) := by
  intro calls
  induction calls with
  | nil =>
    intro b
    simp [timed_out_after]
  | cons c cs ih =>
    intro b
    have hstep : timed_out_after b ((c :: cs).map WaitCall.nRet)
        = timed_out_after (if c.nRet = 1 then false else if c.nRet = 0 then true else b)
            (cs.map WaitCall.nRet) := by
      simp only [List.map_cons, timed_out_after, List.foldl_cons]
    rw [hstep, ih]
    constructor
    · rintro (⟨l1, t, l2, hcs, ht, hl2⟩ | ⟨hb, hall⟩)
      · exact Or.inl ⟨c :: l1, t, l2, by simp [hcs], ht, hl2⟩
      · by_cases h1 : c.nRet = 1
        · simp [h1] at hb
        · by_cases h0 : c.nRet = 0
          · exact Or.inl ⟨[], c, cs, rfl, h0, hall⟩
          · simp only [h1, h0, if_false] at hb
            refine Or.inr ⟨hb, ?_⟩
            intro d hd
            rcases List.mem_cons.mp hd with rfl | hd
            · exact h1
            · exact hall d hd
    · rintro (⟨l1, t, l2, hcs, ht, hl2⟩ | ⟨hb, hall⟩)
      · cases l1 with
        | nil =>
          simp only [List.nil_append, List.cons.injEq] at hcs
          obtain ⟨rfl, rfl⟩ := hcs
          refine Or.inr ⟨by simp [ht], hl2⟩
        | cons a l1 =>
          simp only [List.cons_append, List.cons.injEq] at hcs
          exact Or.inl ⟨l1, t, l2, hcs.2, ht, hl2⟩
      · have h1 : c.nRet ≠ 1 := hall c (List.mem_cons_self _ _)
        refine Or.inr ⟨?_, fun d hd => hall d (List.mem_cons_of_mem _ hd)⟩
        simp only [if_neg h1, hb]
        split_ifs <;> rfl

/-- Across successive `get_packet` calls the two statics follow the return values of the
`WaitForPacket` calls made: nothing else writes them. -/
theorem get_packet_cycles_flags :
    ∀ (cycles : List Cycle) (st stN : GetPacketState) (calls : List WaitCall),
      get_packet_cycles st cycles = some (stN, calls) →
        stN.timed_out = timed_out_after st.timed_out (calls.map WaitCall.nRet)
          ∧ stN.crc_error = (st.crc_error || calls.any (fun c => decide (c.nRet = -2))) := by
  intro cycles
  induction cycles with
  | nil =>
    intro st stN calls h
    simp only [get_packet_cycles, Option.some.injEq, Prod.mk.injEq] at h
    obtain ⟨rfl, rfl⟩ := h
    simp [timed_out_after]
  | cons c cs ih =>
    intro st stN calls h
    simp only [get_packet_cycles] at h
    split at h
    · exact absurd h (by simp)
    · rename_i r hr
      obtain ⟨x, hx, hxe⟩ := Option.map_eq_some'.mp h
      simp only [Prod.mk.injEq] at hxe
      obtain ⟨rfl, rfl⟩ := hxe
      obtain ⟨_, _, _, hto, hcrc, _⟩ :=
        get_packet_from_spec c.env (NUM_CHANNELS - START_CHANNEL) (c.entry st) r (by decide) hr
      obtain ⟨h1, h2⟩ := ih r.st x.1 x.2 (by rw [hx])
      constructor
      · rw [h1, hto, List.map_append, timed_out_after_append]
        rfl
      · rw [h2, hcrc, List.any_append, Bool.or_assoc]
        rfl

/-- The first `WaitForPacket` call of a scan with `k + 1` channel indices left is on index
`NUM_CHANNELS - (k + 1)` with the window computed from the state on entry. -/
theorem get_packet_from_first_call (env : CycleEnv) (k : Nat) (st : GetPacketState)
    (res : GetPacketResult) (h : get_packet_from env (k + 1) st = some res) :
    ∃ first rest, res.calls = first :: rest ∧ first.channel = NUM_CHANNELS - (k + 1)
      ∧ first.milliseconds
          = get_packet_delay (NUM_CHANNELS - (k + 1)) st.timed_out st.crc_error st.s.pkt_time
              st.s.last_channel env.ms_cmp env.ms_calc := by
  simp only [get_packet_from] at h
  split at h
  · exact absurd h (by simp)
  · split_ifs at h
    · simp only [Option.some.injEq] at h
      subst h
      exact ⟨_, _, rfl, rfl, rfl⟩
    · obtain ⟨res1, _, rfl⟩ := Option.map_eq_some'.mp h
      exact ⟨_, _, rfl, rfl, rfl⟩
    · simp only [Option.some.injEq] at h
      subst h
      exact ⟨_, _, rfl, rfl, rfl⟩
    · obtain ⟨res1, _, rfl⟩ := Option.map_eq_some'.mp h
      exact ⟨_, _, rfl, rfl, rfl⟩
    · obtain ⟨res1, _, rfl⟩ := Option.map_eq_some'.mp h
      exact ⟨_, _, rfl, rfl, rfl⟩

/-- The first `WaitForPacket` call of a `get_packet` call is on channel index 0 with the
window computed from the state on entry. -/
theorem get_packet_first_call (env : CycleEnv) (st : GetPacketState) (res : GetPacketResult)
    (h : get_packet env st = some res) :
    ∃ first rest, res.calls = first :: rest ∧ first.channel = 0
      ∧ first.milliseconds
          = get_packet_delay START_CHANNEL st.timed_out st.crc_error st.s.pkt_time
              st.s.last_channel env.ms_cmp env.ms_calc :=
  get_packet_from_first_call env 3 st res h

/-! ### C13: when the 298510 ms wait is used -/

/-- C13, as stated, fails: from the sample state, a cycle in which the wait on channel 0 times
out and the wait on channel 1 is aborted (so the cycle did not end with a timeout on all four
channels) is followed by a cycle whose wait on channel 0 has the window 298510. -/
theorem C13_counterexample :
    (get_packet abortedCycleEnv sampleState).map
        (fun r => (r.ret, r.calls.map (fun c => (c.channel, c.milliseconds, c.nRet))))
        = some (0, [(0, 240000, 0), (1, 500, -1)])
      ∧ ((get_packet abortedCycleEnv sampleState).bind
            (fun r => get_packet abortedCycleEnv r.st)).map
          (fun r => r.calls.map (fun c => (c.channel, c.milliseconds, c.nRet)))
        = some [(0, 298510, -1)] := by
  decide

/-- C13, amended: after any number of `get_packet` calls from a state with `timed_out` clear,
the next call waits 298510 ms on channel 0 when some earlier `WaitForPacket` call timed out
and no call after it captured (one timeout is enough, and aborted or bad-CRC calls in between
do not matter); in every other case it uses the predicted window, which is the indefinite
wait 0 when `pkt_time` is 0. -/
theorem C13_timed_out_window (st0 : GetPacketState) (cycles : List Cycle) (c : Cycle)
    (stN : GetPacketState) (calls : List WaitCall) (res : GetPacketResult)
    (h0 : st0.timed_out = false) (hrun : get_packet_cycles st0 cycles = some (stN, calls))
    (hres : get_packet c.env (c.entry stN) = some res) :
      ∃ first rest, res.calls = first :: rest ∧ first.channel = 0
        ∧ ((∃ l1 t l2, calls = l1 ++ t :: l2 ∧ t.nRet = 0 ∧ ∀ d ∈ l2, d.nRet ≠ 1) →
            first.milliseconds = 298510)
        ∧ (¬ (∃ l1 t l2, calls = l1 ++ t :: l2 ∧ t.nRet = 0 ∧ ∀ d ∈ l2, d.nRet ≠ 1) →
            first.milliseconds
                = get_packet_delay START_CHANNEL false stN.crc_error (c.entry stN).s.pkt_time
                    (c.entry stN).s.last_channel c.env.ms_cmp c.env.ms_calc
              ∧ ((c.entry stN).s.pkt_time = 0 → first.milliseconds = 0)) := by
  obtain ⟨first, rest, hcalls, hch, hms⟩ := get_packet_first_call c.env (c.entry stN) res hres
  have hflag := (get_packet_cycles_flags cycles st0 stN calls hrun).1
  rw [h0] at hflag
  have hiff := timed_out_after_iff calls false
  have he1 : (c.entry stN).timed_out = stN.timed_out := rfl
  have he2 : (c.entry stN).crc_error = stN.crc_error := rfl
  rw [he1, he2] at hms
  refine ⟨first, rest, hcalls, hch, ?_, ?_⟩
  · intro hex
    have ht : stN.timed_out = true := by
      rw [hflag]
      exact hiff.mpr (Or.inl hex)
    rw [hms, ht]
    simp [get_packet_delay, START_CHANNEL]
  · intro hnex
    have ht : stN.timed_out = false := by
      rw [hflag]
      cases hb : timed_out_after false (calls.map WaitCall.nRet) with
      | false => rfl
      | true =>
        rcases hiff.mp hb with hex | ⟨hf, _⟩
        · exact absurd hex hnex
        · exact absurd hf (by simp)
    rw [ht] at hms
    refine ⟨hms, ?_⟩
    intro hp0
    rw [hms, hp0]
    simp [get_packet_delay, START_CHANNEL, get_packet_reduce]

/-- C13, amended, after the sample cycle with a timeout on channel 0 and an abort on channel
1: the next cycle waits 298510 ms on channel 0. -/
theorem C13_timed_out_window_witness :
    sampleState.timed_out = false
      ∧ get_packet_cycles sampleState [abortedCycle]
        = some ((sampleRunOf [abortedCycle]).1, (sampleRunOf [abortedCycle]).2)
      ∧ get_packet abortedCycle.env (abortedCycle.entry (sampleRunOf [abortedCycle]).1)
        = some (sampleNextOf [abortedCycle] abortedCycle)
      ∧ (sampleRunOf [abortedCycle]).2.map (fun c => (c.channel, c.milliseconds, c.nRet))
        = [(0, 240000, 0), (1, 500, -1)]
      ∧ (sampleNextOf [abortedCycle] abortedCycle).calls.map
          (fun c => (c.channel, c.milliseconds, c.nRet)) = [(0, 298510, -1)]
      ∧ (∃ first rest, (sampleNextOf [abortedCycle] abortedCycle).calls = first :: rest ∧ first.channel = 0
          ∧ ((∃ l1 t l2, (sampleRunOf [abortedCycle]).2 = l1 ++ t :: l2 ∧ t.nRet = 0 ∧ ∀ d ∈ l2, d.nRet ≠ 1) →
              first.milliseconds = 298510)
          ∧ (¬ (∃ l1 t l2, (sampleRunOf [abortedCycle]).2 = l1 ++ t :: l2 ∧ t.nRet = 0 ∧ ∀ d ∈ l2, d.nRet ≠ 1) →
              first.milliseconds
                  = get_packet_delay START_CHANNEL false (sampleRunOf [abortedCycle]).1.crc_error (abortedCycle.entry (sampleRunOf [abortedCycle]).1).s.pkt_time
                      (abortedCycle.entry (sampleRunOf [abortedCycle]).1).s.last_channel abortedCycle.env.ms_cmp abortedCycle.env.ms_calc
                ∧ ((abortedCycle.entry (sampleRunOf [abortedCycle]).1).s.pkt_time = 0 → first.milliseconds = 0))) :=
  ⟨rfl, rfl, rfl, by decide, by decide,
    C13_timed_out_window sampleState [abortedCycle] abortedCycle (sampleRunOf [abortedCycle]).1
      (sampleRunOf [abortedCycle]).2 (sampleNextOf [abortedCycle] abortedCycle) rfl rfl rfl⟩

/-! ### What one `WaitForPacket` call changes -/

/-- The interrupt handler never writes the main-loop index. -/
theorem radioMacEventHandler_RX_main (q : RadioQueue) (f : Frame) (crc : Bool) :
    (radioMacEventHandler_RX q f crc).radioQueueRxMainLoopIndex
      = q.radioQueueRxMainLoopIndex := by
  simp only [radioMacEventHandler_RX]
  split_ifs <;> rfl

/-- A frame that is pending stays the frame the main loop reads next when the interrupt
handler runs. -/
theorem radioMacEventHandler_RX_current (q : RadioQueue) (f : Frame) (crc : Bool) (g : Frame)
    (h : radioQueueRxCurrentPacket q = some g) :
    radioQueueRxCurrentPacket (radioMacEventHandler_RX q f crc) = some g := by
  simp only [radioQueueRxCurrentPacket] at h
  split_ifs at h with hne
  simp only [Option.some.injEq] at h
  have hne2 : q.radioQueueRxMainLoopIndex ≠ q.radioQueueRxInterruptIndex := hne
  simp only [radioMacEventHandler_RX, radioQueueRxCurrentPacket]
  split_ifs <;>
    simp_all [Function.update_noteq hne2]

/-- Deliveries by the radio interrupt leave the main-loop index alone. -/
theorem deliver_main (fs : List (Frame × Bool)) :
    ∀ q : RadioQueue,
      (RadioQueue.deliver q fs).radioQueueRxMainLoopIndex = q.radioQueueRxMainLoopIndex := by
  induction fs with
  | nil => intro q; rfl
  | cons f fs ih =>
    intro q
    simp only [RadioQueue.deliver, List.foldl_cons] at ih ⊢
    rw [ih, radioMacEventHandler_RX_main]

/-- Deliveries by the radio interrupt leave a pending frame the next one read. -/
theorem deliver_current (fs : List (Frame × Bool)) :
    ∀ (q : RadioQueue) (g : Frame), radioQueueRxCurrentPacket q = some g →
      radioQueueRxCurrentPacket (RadioQueue.deliver q fs) = some g := by
  induction fs with
  | nil => intro q g h; exact h
  | cons f fs ih =>
    intro q g h
    simp only [RadioQueue.deliver, List.foldl_cons] at ih ⊢
    exact ih _ g (radioMacEventHandler_RX_current q f.1 f.2 g h)

/-- Deliveries followed by `doServices` leave the globals as `waitedFrom` says. -/
theorem waitedFrom_pass (s : ScanState) (p : WaitPass) :
    s.waitedFrom (doServices_globals { s with rx := RadioQueue.deliver s.rx p.rx } p.dex_tx_id)
      ∧ s.waitedFrom { s with rx := RadioQueue.deliver s.rx p.rx } := by
  have hbase : s.waitedFrom { s with rx := RadioQueue.deliver s.rx p.rx } :=
    ⟨rfl, rfl, rfl, rfl, deliver_main _ _, fun g hg => deliver_current _ _ g hg, p.rx, rfl⟩
  refine ⟨?_, hbase⟩
  cases hd : p.dex_tx_id with
  | none => exact hbase
  | some v => exact hbase

/-- The relation `waitedFrom` composes. -/
theorem waitedFrom_trans (s s1 s2 : ScanState) (h1 : s.waitedFrom s1) (h2 : s1.waitedFrom s2) :
    s.waitedFrom s2 := by
  obtain ⟨a1, a2, a3, a4, a5, a6, fs1, a7⟩ := h1
  obtain ⟨b1, b2, b3, b4, b5, b6, fs2, b7⟩ := h2
  refine ⟨b1.trans a1, b2.trans a2, b3.trans a3, b4.trans a4, b5.trans a5,
    fun g hg => b6 g (a6 g hg), fs1 ++ fs2, ?_⟩
  rw [b7, a7]
  simp only [RadioQueue.deliver, List.foldl_append]

/-- The two ways the wait loop returns: without having examined a frame (timeout or abort,
globals as `waitedFrom` says, destination packet untouched), or with the result of the
examination of the frame pending in some pass. -/
theorem WaitForPacket_loop_cases (milliseconds start channel : Nat) (radio : Radio) :
    ∀ (passes : List WaitPass) (s : ScanState) (pkt : Dexcom_packet) (r : WaitResult),
      WaitForPacket_loop milliseconds start channel radio s pkt passes = some r →
        r.radio = radio
          ∧ ((r.examined = none ∧ (r.nRet = 0 ∨ r.nRet = -1) ∧ r.pkt = pkt
                ∧ s.waitedFrom r.s)
              ∨ ∃ p ∈ passes, ∃ s1 packet, s.waitedFrom s1
                  ∧ radioQueueRxCurrentPacket s1.rx = some packet
                  ∧ r.examined = some packet
                  ∧ r.nRet = (WaitForPacket_examine s1 pkt channel packet p.crcPassed p.ms_pkt
                      p.FREQEST).1
                  ∧ r.s = (WaitForPacket_examine s1 pkt channel packet p.crcPassed p.ms_pkt
                      p.FREQEST).2.1
                  ∧ r.pkt = (WaitForPacket_examine s1 pkt channel packet p.crcPassed p.ms_pkt
                      p.FREQEST).2.2) := by
  intro passes
  induction passes with
  | nil =>
    intro s pkt r h
    simp [WaitForPacket_loop] at h
  | cons p ps ih =>
    intro s pkt r h
    obtain ⟨hw1, hw0⟩ := waitedFrom_pass s p
    simp only [WaitForPacket_loop] at h
    split_ifs at h with hcond habort
    · simp only [Option.some.injEq] at h
      subst h
      exact ⟨rfl, Or.inl ⟨rfl, Or.inr rfl, rfl, hw1⟩⟩
    · split at h
      · rename_i packet hpk
        simp only [Option.some.injEq] at h
        subst h
        exact ⟨rfl, Or.inr ⟨p, List.mem_cons_self _ _, _, packet, hw1, hpk, rfl, rfl, rfl,
          rfl⟩⟩
      · obtain ⟨hr, hcase⟩ := ih _ pkt r h
        refine ⟨hr, ?_⟩
        rcases hcase with ⟨he, hn, hp, hwf⟩ | ⟨p1, hp1, s1, packet, hwf, hrest⟩
        · exact Or.inl ⟨he, hn, hp, waitedFrom_trans _ _ _ hw1 hwf⟩
        · exact Or.inr ⟨p1, List.mem_cons_of_mem _ hp1, s1, packet,
            waitedFrom_trans _ _ _ hw1 hwf, hrest⟩
    · simp only [Option.some.injEq] at h
      subst h
      exact ⟨rfl, Or.inl ⟨rfl, Or.inl rfl, rfl, hw0⟩⟩

/-- What the examination of a pending frame does to the globals, by CRC result and filter
result. -/
theorem WaitForPacket_examine_effects (s : ScanState) (pkt : Dexcom_packet) (channel : Nat)
    (packet : Frame) (crcPassed : Bool) (now FREQEST : Nat) :
    (WaitForPacket_examine s pkt channel packet crcPassed now FREQEST).2.1.rx
        = radioQueueRxDoneWithPacket s.rx
      ∧ (WaitForPacket_examine s pkt channel packet crcPassed now FREQEST).2.1.dex_tx_id
        = s.dex_tx_id
      ∧ (crcPassed = false →
          (WaitForPacket_examine s pkt channel packet crcPassed now FREQEST).1 = -2
            ∧ (WaitForPacket_examine s pkt channel packet crcPassed now FREQEST).2.1.pkt_time
              = s.pkt_time
            ∧ (WaitForPacket_examine s pkt channel packet crcPassed now
                FREQEST).2.1.last_channel = s.last_channel)
      ∧ (crcPassed = true →
          (WaitForPacket_examine s pkt channel packet crcPassed now FREQEST).1 ≠ -2
            ∧ (WaitForPacket_examine s pkt channel packet crcPassed now FREQEST).2.1.pkt_time
              = now
            ∧ (((WaitForPacket_copy pkt packet).src_addr = s.dex_tx_id ∨ s.dex_tx_id = 0) →
                (WaitForPacket_examine s pkt channel packet crcPassed now
                  FREQEST).2.1.last_channel = channel)
            ∧ (¬ ((WaitForPacket_copy pkt packet).src_addr = s.dex_tx_id ∨ s.dex_tx_id = 0) →
                (WaitForPacket_examine s pkt channel packet crcPassed now FREQEST).1 = 0
                  ∧ (WaitForPacket_examine s pkt channel packet crcPassed now
                      FREQEST).2.1.last_channel = s.last_channel)) := by
  cases crcPassed with
  | false => simp [WaitForPacket_examine]
  | true =>
    simp only [WaitForPacket_examine, if_true]
    by_cases hF : (0xff - s.fOffset channel) > (FREQEST : Int) <;>
      by_cases hflt : (WaitForPacket_copy pkt packet).src_addr = s.dex_tx_id
          ∨ s.dex_tx_id = 0 <;>
      by_cases hid : WaitForPacket_txid (WaitForPacket_copy pkt packet).txId channel
          = s.lastpktxid <;>
      simp [hF, hflt, hid]

/-- The examination of a pending frame returns captured, timeout or bad-CRC. -/
theorem WaitForPacket_examine_ret (s : ScanState) (pkt : Dexcom_packet) (channel : Nat)
    (packet : Frame) (crcPassed : Bool) (now FREQEST : Nat) :
    (WaitForPacket_examine s pkt channel packet crcPassed now FREQEST).1 = 1
      ∨ (WaitForPacket_examine s pkt channel packet crcPassed now FREQEST).1 = 0
      ∨ (WaitForPacket_examine s pkt channel packet crcPassed now FREQEST).1 = -2 := by
  cases crcPassed with
  | false => simp [WaitForPacket_examine]
  | true =>
    simp only [WaitForPacket_examine, if_true]
    by_cases hflt : (WaitForPacket_copy pkt packet).src_addr = s.dex_tx_id
        ∨ s.dex_tx_id = 0 <;>
      by_cases hid : WaitForPacket_txid (WaitForPacket_copy pkt packet).txId channel
          = s.lastpktxid <;>
      by_cases hF : (0xff - s.fOffset channel) > (FREQEST : Int) <;>
      simp [hF, hflt, hid]

/-! ### C15: when `pkt_time` and `last_channel` change -/

/-- C15, the code at the failing inputs. From globals with last capture at 1000 on channel 0,
the sample wait on channel 1 sees the sample frame at 5000 with a good CRC. When its
normalized id 11 is the last-seen id (a duplicate), the call returns 0, not captured, yet
`pkt_time` is 5000 and `last_channel` is 1 afterwards. When the filter id is another
transmitter's, the call returns 0 and `pkt_time` is 5000 afterwards. -/
theorem C15_changes_without_capture :
    (duplicateScanState.pkt_time, duplicateScanState.last_channel) = (1000, 0)
      ∧ (sampleWait duplicateScanState).map (fun r => (r.nRet, r.s.pkt_time, r.s.last_channel))
        = some (0, 5000, 1)
      ∧ (foreignScanState.pkt_time, foreignScanState.last_channel) = (1000, 0)
      ∧ (sampleWait foreignScanState).map (fun r => (r.nRet, r.s.pkt_time, r.s.last_channel))
        = some (0, 5000, 0) := by
  decide

/-- Where one `WaitForPacket` call writes `pkt_time` and `last_channel`: not at all when it
returns aborted, bad-CRC or invalid-channel or times out without having examined a frame;
otherwise `pkt_time` is a clock reading of the call, and `last_channel` is the channel if the
examined frame passed the identity filter and keeps its value if it did not. -/
theorem WaitForPacket_pkt_time_last_channel (milliseconds : Nat) (pkt : Dexcom_packet) (channel : Nat)
    (s : ScanState) (radio : Radio) (start : Nat) (passes : List WaitPass) (r : WaitResult)
    (h : WaitForPacket milliseconds pkt channel s radio start passes = some r) :
    ((r.nRet = -1 ∨ r.nRet = -2 ∨ r.nRet = -3 ∨ (r.nRet = 0 ∧ r.examined = none)) →
        r.s.pkt_time = s.pkt_time ∧ r.s.last_channel = s.last_channel)
      ∧ (r.nRet = 1 → r.s.last_channel = channel ∧ ∃ p ∈ passes, r.s.pkt_time = p.ms_pkt)
      ∧ (∀ f, r.nRet = 0 → r.examined = some f →
          (∃ p ∈ passes, r.s.pkt_time = p.ms_pkt)
            ∧ (((WaitForPacket_copy pkt f).src_addr = r.s.dex_tx_id ∨ r.s.dex_tx_id = 0) →
                r.s.last_channel = channel)
            ∧ (¬ ((WaitForPacket_copy pkt f).src_addr = r.s.dex_tx_id ∨ r.s.dex_tx_id = 0) →
                r.s.last_channel = s.last_channel)) := by
  unfold WaitForPacket at h
  split_ifs at h with hch
  · simp only [Option.some.injEq] at h
    subst h
    simp
  · obtain ⟨_, hcase⟩ := WaitForPacket_loop_cases _ _ _ _ _ _ _ _ h
    rcases hcase with ⟨hex, hn, _, hwf⟩ | ⟨p, hp, s1, packet, hwf, _, hex, hn, hs, _⟩
    · obtain ⟨w1, w2, _⟩ := hwf
      refine ⟨fun _ => ⟨w1, w2⟩, ?_, ?_⟩
      · intro h1
        rcases hn with hn | hn <;> rw [hn] at h1 <;> exact absurd h1 (by decide)
      · intro f _ hf
        rw [hex] at hf
        exact absurd hf (by simp)
    · obtain ⟨w1, w2, _⟩ := hwf
      obtain ⟨_, hid, hbad, hgood⟩ :=
        WaitForPacket_examine_effects s1 pkt channel packet p.crcPassed p.ms_pkt p.FREQEST
      rw [← hn, ← hs] at hbad hgood
      rw [← hs] at hid
      cases hcrc : p.crcPassed with
      | false =>
        obtain ⟨b1, b2, b3⟩ := hbad hcrc
        refine ⟨fun _ => ⟨b2.trans w1, b3.trans w2⟩, ?_, ?_⟩
        · intro h1
          rw [b1] at h1
          exact absurd h1 (by decide)
        · intro f h0
          rw [b1] at h0
          exact absurd h0 (by decide)
      | true =>
        obtain ⟨g1, g2, g3, g4⟩ := hgood hcrc
        rw [← hid] at g3 g4
        refine ⟨?_, ?_, ?_⟩
        · have hret := WaitForPacket_examine_ret s1 pkt channel packet p.crcPassed p.ms_pkt
            p.FREQEST
          rw [← hn] at hret
          rintro (hm | hm | hm | ⟨_, hm⟩)
          · rw [hm] at hret
            exact absurd hret (by decide)
          · exact absurd hm g1
          · rw [hm] at hret
            exact absurd hret (by decide)
          · rw [hex] at hm
            exact absurd hm (by simp)
        · intro h1
          by_cases hflt : (WaitForPacket_copy pkt packet).src_addr = r.s.dex_tx_id
              ∨ r.s.dex_tx_id = 0
          · exact ⟨g3 hflt, p, hp, g2⟩
          · rw [(g4 hflt).1] at h1
            exact absurd h1 (by decide)
        · intro f _ hf
          rw [hex] at hf
          simp only [Option.some.injEq] at hf
          subst hf
          exact ⟨⟨p, hp, g2⟩, g3, fun hflt => (g4 hflt).2.trans w2⟩

/-! ### C16: the frequency offset update -/

/-- C16, the code at the failing input: on channel 3 with its initial offset 11, a CRC-valid
frame and `FREQEST` reading 120, the guard `(0xff - fOffset[channel]) > FREQEST` holds
(244 > 120), the sum 131 is stored into the `int8` offset and the offset becomes -125, although
11 + 120 lies outside [-128, 127]. -/
theorem C16_fOffset_wraps :
    sampleState.s.fOffset 3 = 11
      ∧ ¬ ((11 : Int) + 120 ≤ 127)
      ∧ (WaitForPacket_examine sampleState.s sampleState.pkt 3 sampleFrame true 5000
          120).2.1.fOffset 3 = -125 := by
  decide

/-! ### C17: the RX consumer index -/

/-- Releasing a slot moves a main-loop index below 3 one slot on, modulo 3. -/
theorem radioQueueRxDoneWithPacket_main (q : RadioQueue)
    (h : q.radioQueueRxMainLoopIndex < RX_PACKET_COUNT) :
    (radioQueueRxDoneWithPacket q).radioQueueRxMainLoopIndex
      = (q.radioQueueRxMainLoopIndex + 1) % RX_PACKET_COUNT := by
  simp only [radioQueueRxDoneWithPacket, RX_PACKET_COUNT] at *
  split_ifs with h2
  · simp [h2]
  · simp only []
    omega

/-- C17: a `WaitForPacket` call that examines a pending frame, which it does whenever it
returns captured or bad-CRC and when it reports a duplicate or filtered frame as timeout,
advances the RX main-loop index by exactly one slot modulo 3. A call that examines no frame,
which is the case whenever it returns aborted or invalid-channel and for a timeout in which no
frame was seen, leaves the index unchanged and does nothing to the ring but let the radio
interrupt deliver into it, so a frame pending then is still the next frame read. -/
theorem C17_consumer_index (milliseconds : Nat) (pkt : Dexcom_packet) (channel : Nat)
    (s : ScanState) (radio : Radio) (start : Nat) (passes : List WaitPass) (r : WaitResult)
    (hm : s.rx.radioQueueRxMainLoopIndex < RX_PACKET_COUNT)
    (h : WaitForPacket milliseconds pkt channel s radio start passes = some r) :
    ((r.nRet = 1 ∨ r.nRet = -2) → r.examined ≠ none)
      ∧ ((r.nRet = -1 ∨ r.nRet = -3) → r.examined = none)
      ∧ (r.examined ≠ none →
          r.s.rx.radioQueueRxMainLoopIndex
            = (s.rx.radioQueueRxMainLoopIndex + 1) % RX_PACKET_COUNT)
      ∧ (r.examined = none →
          r.s.rx.radioQueueRxMainLoopIndex = s.rx.radioQueueRxMainLoopIndex
            ∧ (∃ fs, r.s.rx = RadioQueue.deliver s.rx fs)
            ∧ ∀ f, radioQueueRxCurrentPacket s.rx = some f →
                radioQueueRxCurrentPacket r.s.rx = some f) := by
  unfold WaitForPacket at h
  split_ifs at h with hch
  · simp only [Option.some.injEq] at h
    subst h
    exact ⟨by simp, by simp, by simp, fun _ => ⟨rfl, ⟨[], rfl⟩, fun f hf => hf⟩⟩
  · obtain ⟨_, hcase⟩ := WaitForPacket_loop_cases _ _ _ _ _ _ _ _ h
    rcases hcase with ⟨hex, hn, _, hwf⟩ | ⟨p, hp, s1, packet, hwf, _, hex, hn, hs, _⟩
    · obtain ⟨_, _, _, _, w5, w6, w7⟩ := hwf
      refine ⟨?_, fun _ => hex, fun hne => absurd hex hne, fun _ => ⟨w5, w7, w6⟩⟩
      rintro (h1 | h1) <;> rcases hn with hn | hn <;> rw [hn] at h1 <;>
        exact absurd h1 (by decide)
    · obtain ⟨_, _, _, _, w5, _, _⟩ := hwf
      have hret := WaitForPacket_examine_ret s1 pkt channel packet p.crcPassed p.ms_pkt
        p.FREQEST
      rw [← hn] at hret
      have hrx := (WaitForPacket_examine_effects s1 pkt channel packet p.crcPassed p.ms_pkt
        p.FREQEST).1
      rw [← hs] at hrx
      refine ⟨fun _ => by simp [hex], ?_, ?_, ?_⟩
      · rintro (h1 | h1) <;> rw [h1] at hret <;> exact absurd hret (by decide)
      · intro _
        rw [hrx, radioQueueRxDoneWithPacket_main _ (by rw [w5]; exact hm), w5]
      · intro hnone
        rw [hex] at hnone
        exact absurd hnone (by simp)

/-- C17 on the sample wait with a duplicate frame: the frame is examined and reported as
timeout, and the main-loop index moves from 0 to 1. -/
theorem C17_consumer_index_witness :
    duplicateScanState.rx.radioQueueRxMainLoopIndex < RX_PACKET_COUNT
      ∧ WaitForPacket 500 sampleState.pkt 1 duplicateScanState sampleState.radio 4900
          [framePass sampleFrame true 5000] = some (sampleWaitResult duplicateScanState)
      ∧ ((sampleWaitResult duplicateScanState).nRet,
          (sampleWaitResult duplicateScanState).examined.isSome,
          duplicateScanState.rx.radioQueueRxMainLoopIndex,
          (sampleWaitResult duplicateScanState).s.rx.radioQueueRxMainLoopIndex)
        = (0, true, 0, 1)
      ∧ ((((sampleWaitResult duplicateScanState).nRet = 1 ∨ (sampleWaitResult duplicateScanState).nRet = -2) → (sampleWaitResult duplicateScanState).examined ≠ none)
        ∧ (((sampleWaitResult duplicateScanState).nRet = -1 ∨ (sampleWaitResult duplicateScanState).nRet = -3) → (sampleWaitResult duplicateScanState).examined = none)
        ∧ ((sampleWaitResult duplicateScanState).examined ≠ none →
            (sampleWaitResult duplicateScanState).s.rx.radioQueueRxMainLoopIndex
              = (duplicateScanState.rx.radioQueueRxMainLoopIndex + 1) % RX_PACKET_COUNT)
        ∧ ((sampleWaitResult duplicateScanState).examined = none →
            (sampleWaitResult duplicateScanState).s.rx.radioQueueRxMainLoopIndex = duplicateScanState.rx.radioQueueRxMainLoopIndex
              ∧ (∃ fs, (sampleWaitResult duplicateScanState).s.rx = RadioQueue.deliver duplicateScanState.rx fs)
              ∧ ∀ f, radioQueueRxCurrentPacket duplicateScanState.rx = some f →
                  radioQueueRxCurrentPacket (sampleWaitResult duplicateScanState).s.rx = some f)) :=
  ⟨by decide, rfl, by decide,
    C17_consumer_index 500 sampleState.pkt 1 duplicateScanState sampleState.radio 4900
      [framePass sampleFrame true 5000] (sampleWaitResult duplicateScanState) (by decide) rfl⟩

/-! ### C19: invalid channel index -/

/-- C19: for every channel index of 4 or more `WaitForPacket` returns -3 and leaves the radio
registers (the radio is not tuned), the frequency offsets, `pkt_time`, `last_channel`, the
last-seen id, the destination packet and the RX ring with both its indices as they were; no
frame is examined. -/
theorem C19_invalid_channel (milliseconds : Nat) (pkt : Dexcom_packet) (channel : Nat)
    (s : ScanState) (radio : Radio) (start : Nat) (passes : List WaitPass)
    (h : NUM_CHANNELS ≤ channel) :
    WaitForPacket milliseconds pkt channel s radio start passes
      = some { nRet := -3, s := s, pkt := pkt, radio := radio, examined := none } := by
  unfold WaitForPacket
  rw [if_pos h]

/-- C19 on channel index 4 with the sample state, whatever passes the wait is offered. -/
theorem C19_invalid_channel_witness :
    NUM_CHANNELS ≤ 4
      ∧ WaitForPacket 500 sampleState.pkt 4 sampleState.s sampleState.radio 4900
          [framePass sampleFrame true 5000]
        = some { nRet := -3, s := sampleState.s, pkt := sampleState.pkt,
                 radio := sampleState.radio, examined := none } :=
  ⟨by decide,
    C19_invalid_channel 500 sampleState.pkt 4 sampleState.s sampleState.radio 4900
      [framePass sampleFrame true 5000] (by decide)⟩

/-! ### C18: the CRC-error flag -/

/-- C18, as stated, fails: from the sample state (last capture at 1000 on channel 0, both
flags clear), a cycle with a bad-CRC outcome on channel 0 is followed by a cycle without any
bad-CRC outcome, whose channel-0 window carries the pad (240010), and the cycle after that one
gets the pad as well (240010, where the window without pad is 240000). -/
theorem C18_counterexample :
    (get_packet_cycles sampleState [crcCycle, quietCycle]).map
        (fun x => x.2.map (fun c => (c.channel, c.milliseconds, c.nRet)))
        = some [(0, 240000, -2), (1, 500, -1), (0, 240010, -1)]
      ∧ ((get_packet_cycles sampleState [crcCycle, quietCycle]).bind
            (fun x => get_packet quietCycle.env (quietCycle.entry x.1))).map
          (fun r => r.calls.map (fun c => (c.channel, c.milliseconds, c.nRet)))
        = some [(0, 240010, -1)]
      ∧ get_packet_delay START_CHANNEL false false 1000 0 61000 61000 = 240000 := by
  decide

/-- C18, amended: the CRC-error flag is never cleared. After any number of `get_packet` calls
from a state with `crc_error` clear, the flag is set exactly when a bad-CRC outcome occurred
in any earlier cycle, not only in the immediately preceding one, and the next call computes
its channel-0 window with that flag. Where that window is the predicted one in its ordinary
range (`timed_out` clear, `pkt_time ≠ 0`, clock readings not below `pkt_time`, and
`10 ≤ elapsed + 500 * last_channel < 300000`), it is
`300000 - 500 * last_channel - elapsed + 10` if a bad-CRC outcome occurred in any earlier
cycle and `300000 - 500 * last_channel - elapsed` if none did. -/
theorem C18_crc_error_sticky (st0 : GetPacketState) (cycles : List Cycle) (c : Cycle)
    (stN : GetPacketState) (calls : List WaitCall) (res : GetPacketResult)
    (h0 : st0.crc_error = false) (hrun : get_packet_cycles st0 cycles = some (stN, calls))
    (hres : get_packet c.env (c.entry stN) = some res) :
    (stN.crc_error = true ↔ ∃ d ∈ calls, d.nRet = -2)
      ∧ ∃ first rest, res.calls = first :: rest ∧ first.channel = 0
        ∧ first.milliseconds
            = get_packet_delay START_CHANNEL stN.timed_out stN.crc_error
                (c.entry stN).s.pkt_time (c.entry stN).s.last_channel c.env.ms_cmp
                c.env.ms_calc
        ∧ ∀ pkt_time last_channel : Nat,
            stN.timed_out = false →
            (c.entry stN).s.pkt_time = pkt_time →
            (c.entry stN).s.last_channel = last_channel →
            pkt_time ≠ 0 → pkt_time ≤ c.env.ms_cmp → pkt_time ≤ c.env.ms_calc →
            c.env.ms_calc < 2 ^ 32 →
            c.env.ms_calc - pkt_time + 500 * last_channel < DX_PKT_INTERVAL →
            10 ≤ c.env.ms_calc - pkt_time + 500 * last_channel →
              ((∃ d ∈ calls, d.nRet = -2) →
                first.milliseconds
                  = DX_PKT_INTERVAL - 500 * last_channel - (c.env.ms_calc - pkt_time) + 10)
              ∧ (¬ (∃ d ∈ calls, d.nRet = -2) →
                first.milliseconds
                  = DX_PKT_INTERVAL - 500 * last_channel - (c.env.ms_calc - pkt_time)) := by
  obtain ⟨first, rest, hcalls, hch, hms⟩ := get_packet_first_call c.env (c.entry stN) res hres
  have hflag := (get_packet_cycles_flags cycles st0 stN calls hrun).2
  rw [h0, Bool.false_or] at hflag
  have hiff : stN.crc_error = true ↔ ∃ d ∈ calls, d.nRet = -2 := by
    rw [hflag, List.any_eq_true]
    constructor
    · rintro ⟨d, hd, hd2⟩
      exact ⟨d, hd, by simpa using hd2⟩
    · rintro ⟨d, hd, hd2⟩
      exact ⟨d, hd, by simp [hd2]⟩
  have he1 : (c.entry stN).timed_out = stN.timed_out := rfl
  have he2 : (c.entry stN).crc_error = stN.crc_error := rfl
  rw [he1, he2] at hms
  refine ⟨hiff, first, rest, hcalls, hch, hms, ?_⟩
  intro pkt_time last_channel ht hpt hlc hp hcmp hcalc h32 hsum h10
  rw [ht, hpt, hlc] at hms
  have hord := get_packet_delay_ordinary pkt_time last_channel c.env.ms_cmp c.env.ms_calc
    stN.crc_error hp hcmp hcalc h32 (by omega) (by omega) (fun _ => h10)
  rw [hord] at hms
  constructor
  · intro hex
    rw [hms, hiff.mpr hex]
    simp
  · intro hnex
    have hc : stN.crc_error = false := by
      cases hb : stN.crc_error with
      | false => rfl
      | true => exact absurd (hiff.mp hb) hnex
    rw [hms, hc]
    simp

/-- C18, amended, on the sample run: after a cycle with a bad-CRC outcome and a cycle without
one the flag is set, and the next cycle, entered with `timed_out` clear, last capture at 1000
on channel 0 and clock 61000, has the channel-0 window 300000 - 60000 + 10 = 240010. -/
theorem C18_crc_error_sticky_witness :
    sampleState.crc_error = false
      ∧ get_packet_cycles sampleState [crcCycle, quietCycle] = some ((sampleRunOf [crcCycle, quietCycle]).1, (sampleRunOf [crcCycle, quietCycle]).2)
      ∧ get_packet quietCycle.env (quietCycle.entry (sampleRunOf [crcCycle, quietCycle]).1) = some (sampleNextOf [crcCycle, quietCycle] quietCycle)
      ∧ ((sampleRunOf [crcCycle, quietCycle]).1.crc_error, (sampleRunOf [crcCycle, quietCycle]).1.timed_out, (quietCycle.entry (sampleRunOf [crcCycle, quietCycle]).1).s.pkt_time,
          (quietCycle.entry (sampleRunOf [crcCycle, quietCycle]).1).s.last_channel, quietCycle.env.ms_cmp,
          quietCycle.env.ms_calc) = (true, false, 1000, 0, 61000, 61000)
      ∧ (sampleRunOf [crcCycle, quietCycle]).2.map (fun c => (c.channel, c.milliseconds, c.nRet))
          = [(0, 240000, -2), (1, 500, -1), (0, 240010, -1)]
      ∧ (sampleNextOf [crcCycle, quietCycle] quietCycle).calls.map (fun c => (c.channel, c.milliseconds, c.nRet)) = [(0, 240010, -1)]
      ∧ (((sampleRunOf [crcCycle, quietCycle]).1.crc_error = true ↔ ∃ d ∈ (sampleRunOf [crcCycle, quietCycle]).2, d.nRet = -2)
        ∧ ∃ first rest, (sampleNextOf [crcCycle, quietCycle] quietCycle).calls = first :: rest ∧ first.channel = 0
          ∧ first.milliseconds
              = get_packet_delay START_CHANNEL (sampleRunOf [crcCycle, quietCycle]).1.timed_out (sampleRunOf [crcCycle, quietCycle]).1.crc_error
                  (quietCycle.entry (sampleRunOf [crcCycle, quietCycle]).1).s.pkt_time (quietCycle.entry (sampleRunOf [crcCycle, quietCycle]).1).s.last_channel quietCycle.env.ms_cmp
                  quietCycle.env.ms_calc
          ∧ ∀ pkt_time last_channel : Nat,
              (sampleRunOf [crcCycle, quietCycle]).1.timed_out = false →
              (quietCycle.entry (sampleRunOf [crcCycle, quietCycle]).1).s.pkt_time = pkt_time →
              (quietCycle.entry (sampleRunOf [crcCycle, quietCycle]).1).s.last_channel = last_channel →
              pkt_time ≠ 0 → pkt_time ≤ quietCycle.env.ms_cmp → pkt_time ≤ quietCycle.env.ms_calc →
              quietCycle.env.ms_calc < 2 ^ 32 →
              quietCycle.env.ms_calc - pkt_time + 500 * last_channel < DX_PKT_INTERVAL →
              10 ≤ quietCycle.env.ms_calc - pkt_time + 500 * last_channel →
                ((∃ d ∈ (sampleRunOf [crcCycle, quietCycle]).2, d.nRet = -2) →
                  first.milliseconds
                    = DX_PKT_INTERVAL - 500 * last_channel - (quietCycle.env.ms_calc - pkt_time) + 10)
                ∧ (¬ (∃ d ∈ (sampleRunOf [crcCycle, quietCycle]).2, d.nRet = -2) →
                  first.milliseconds
                    = DX_PKT_INTERVAL - 500 * last_channel - (quietCycle.env.ms_calc - pkt_time))) :=
  ⟨rfl, rfl, rfl, by decide, by decide, by decide,
    C18_crc_error_sticky sampleState [crcCycle, quietCycle] quietCycle (sampleRunOf [crcCycle, quietCycle]).1 (sampleRunOf [crcCycle, quietCycle]).2 (sampleNextOf [crcCycle, quietCycle] quietCycle)
      rfl rfl rfl⟩

/-! ### C20: a delivery pass without acknowledgement -/

/-- C20, as stated, fails: with the single entry 7 queued, the BLE link connected at the first
two evaluations of the loop condition (clock 0 and 2000) and lost at the third, and no
acknowledgement at all, the pass hands the entry to `print_packet` twice; the queue is left as
it was (read index 0, write index 1). -/
theorem C20_counterexample :
    (sampleQueue.read, sampleQueue.write, sampleQueue.buffer sampleQueue.read) = (0, 1, 7)
      ∧ (delivery_loop 0 sampleQueue samplePasses).map (fun r => (r.1.read, r.1.write, r.2))
        = some (0, 1, [7, 7]) := by
  decide

/-- C20, amended: in one delivery pass in which no acknowledgement arrives within any of the
~2 s waits, the oldest queued entry stays queued and the read index is unchanged, and the pass
sends that same entry again after every wait, once for each evaluation of the loop condition
that finds the BLE link connected and fewer than 120 s gone since the pass began; it ends at
the first evaluation that does not, and no other entry is sent. -/
theorem C20_no_ack_resends {α : Type} (tmp_ms : Nat) (q : Dexcom_fifo α)
    (passes : List SendPass) (hq : q.read ≠ q.write)
    (hack : ∀ p ∈ passes, p.got_ack = false)
    (hend : ∃ p ∈ passes, ¬ (p.ble_connected = true ∧ sub32 p.ms tmp_ms < 120000)) :
    delivery_loop tmp_ms q passes
      = some (q, List.replicate
          (passes.takeWhile
            (fun p => p.ble_connected && decide (sub32 p.ms tmp_ms < 120000))).length
          (q.buffer q.read)) := by
  induction passes with
  | nil =>
    obtain ⟨p, hp, _⟩ := hend
    exact absurd hp (List.not_mem_nil p)
  | cons p ps ih =>
    simp only [delivery_loop]
    by_cases hcond : p.ble_connected = true ∧ sub32 p.ms tmp_ms < 120000
    · have hps : ∃ p1 ∈ ps, ¬ (p1.ble_connected = true ∧ sub32 p1.ms tmp_ms < 120000) := by
        obtain ⟨p1, hp1, hn⟩ := hend
        rcases List.mem_cons.mp hp1 with rfl | hmem
        · exact absurd hcond hn
        · exact ⟨p1, hmem, hn⟩
      have hnoack : p.got_ack = false := hack p (List.mem_cons_self _ _)
      rw [if_pos ⟨hq, hcond⟩]
      simp only [hnoack, Bool.false_eq_true, if_false]
      rw [ih (fun p1 hp1 => hack p1 (List.mem_cons_of_mem _ hp1)) hps]
      have htw : (p :: ps).takeWhile
          (fun p => p.ble_connected && decide (sub32 p.ms tmp_ms < 120000))
          = p :: ps.takeWhile
              (fun p => p.ble_connected && decide (sub32 p.ms tmp_ms < 120000)) := by
        rw [List.takeWhile_cons]
        simp [hcond.1, hcond.2]
      rw [htw]
      simp [List.replicate_succ]
    · rw [if_neg (fun h => hcond h.2)]
      have htw : (p :: ps).takeWhile
          (fun p => p.ble_connected && decide (sub32 p.ms tmp_ms < 120000)) = [] := by
        rw [List.takeWhile_cons]
        have : (p.ble_connected && decide (sub32 p.ms tmp_ms < 120000)) = false := by
          cases hb : p.ble_connected with
          | false => simp
          | true =>
            simp only [Bool.true_and, decide_eq_false_iff_not]
            exact fun hlt => hcond ⟨hb, hlt⟩
        simp [this]
      rw [htw]
      simp

/-- C20, amended, on the sample queue and passes: two evaluations of the loop condition hold,
so the entry 7 is sent twice and stays queued. -/
theorem C20_no_ack_resends_witness :
    sampleQueue.read ≠ sampleQueue.write
      ∧ (∀ p ∈ samplePasses, p.got_ack = false)
      ∧ (∃ p ∈ samplePasses, ¬ (p.ble_connected = true ∧ sub32 p.ms 0 < 120000))
      ∧ (samplePasses.takeWhile
          (fun p => p.ble_connected && decide (sub32 p.ms 0 < 120000))).length = 2
      ∧ delivery_loop 0 sampleQueue samplePasses
        = some (sampleQueue, List.replicate
            (samplePasses.takeWhile
              (fun p => p.ble_connected && decide (sub32 p.ms 0 < 120000))).length
            (sampleQueue.buffer sampleQueue.read)) :=
  ⟨by decide, by decide, by decide, by decide,
    C20_no_ack_resends 0 sampleQueue samplePasses (by decide) (by decide) (by decide)⟩

/-! ### C21: what a delivery pass removes -/

/-- The acknowledge step keeps the write index and the buffer, keeps the read index below 64
and moves it one slot on modulo 64 when the queue is not empty. -/
theorem ack_fields {α : Type} (q : Dexcom_fifo α) (hr : q.read < 64) :
    q.ack.write = q.write ∧ q.ack.buffer = q.buffer ∧ q.ack.read < 64
      ∧ (q.read ≠ q.write → q.ack.read = (q.read + 1) % 64) := by
  simp only [Dexcom_fifo.ack]
  split_ifs with h
  · refine ⟨rfl, rfl, ?_, fun _ => and_DXQUEUESIZE _⟩
    show ((q.read + 1) &&& DXQUEUESIZE) % 256 < 64
    rw [and_DXQUEUESIZE]
    exact Nat.mod_lt _ (by decide)
  · exact ⟨rfl, rfl, hr, fun h2 => absurd h2 h⟩

/-- The number of queued entries is `(write - read) mod 64`. -/
theorem queued_length {α : Type} (q : Dexcom_fifo α) (hr : q.read < 64) (hw : q.write < 64) :
    q.queued.length = (q.write + 64 - q.read) % 64 := by
  rw [queued_eq_map q hr hw]
  simp

/-- A non-empty queue holds the entry at the read index first, followed by what is queued
after the acknowledge step. -/
theorem queued_ack {α : Type} (q : Dexcom_fifo α) (hr : q.read < 64) (hw : q.write < 64)
    (hne : q.read ≠ q.write) :
    q.queued = q.buffer q.read :: q.ack.queued := by
  obtain ⟨a1, a2, a3, a4⟩ := ack_fields q hr
  rw [queued_eq_map q hr hw, queued_eq_map q.ack a3 (by rw [a1]; exact hw), a1, a2, a4 hne]
  obtain ⟨n, hn⟩ : ∃ n, (q.write + 64 - q.read) % 64 = n + 1 :=
    ⟨(q.write + 64 - q.read) % 64 - 1, by omega⟩
  have hn2 : (q.write + 64 - (q.read + 1) % 64) % 64 = n := by omega
  rw [hn, hn2, List.range_succ_eq_map, List.map_cons, List.map_map]
  have h0 : (q.read + 0) % 64 = q.read := by omega
  rw [h0]
  congr 1
  apply List.map_congr_left
  intro k _
  simp only [Function.comp]
  congr 1
  omega

/-- C21: in a delivery pass every entry handed to `print_packet` is the entry at the read
index at that moment, the oldest one still queued; the read index moves on by one modulo 64 for
each acknowledged send and by nothing else, never beyond the write index; the write index and
the buffer are untouched. So the queue after the pass is the queue before it without its
oldest entries, as many as acknowledgements were received. -/
theorem C21_delivery_pass {α : Type} (tmp_ms : Nat) (passes : List SendPass) :
    ∀ (q : Dexcom_fifo α) (r : Dexcom_fifo α × List α), q.read < 64 → q.write < 64 →
      delivery_loop tmp_ms q passes = some r →
        r.1.write = q.write ∧ r.1.buffer = q.buffer
          ∧ (passes.take r.2.length).countP (fun p => p.got_ack) ≤ q.queued.length
          ∧ r.1.read = (q.read + (passes.take r.2.length).countP (fun p => p.got_ack)) % 64
          ∧ r.1.queued = q.queued.drop ((passes.take r.2.length).countP (fun p => p.got_ack))
          ∧ ∀ i, i < r.2.length →
              r.2[i]? = q.queued[(passes.take i).countP (fun p => p.got_ack)]? := by
  induction passes with
  | nil =>
    intro q r _ _ h
    simp [delivery_loop] at h
  | cons p ps ih =>
    intro q r hr hw h
    simp only [delivery_loop] at h
    split_ifs at h with hcond hga
    · obtain ⟨r1, hr1, rfl⟩ := Option.map_eq_some'.mp h
      have hqa := queued_ack q hr hw hcond.1
      obtain ⟨a1, a2, a3, a4⟩ := ack_fields q hr
      have hq1 : ({ q with read := ((q.read + 1) &&& DXQUEUESIZE) % 256 } : Dexcom_fifo α)
          = q.ack := by
        simp [Dexcom_fifo.ack, hcond.1]
      rw [hq1] at hr1
      obtain ⟨i1, i2, i3, i4, i5, i6⟩ := ih q.ack r1 a3 (by rw [a1]; exact hw) hr1
      have hcount : ∀ n, ((p :: ps).take (n + 1)).countP (fun p => p.got_ack)
          = (ps.take n).countP (fun p => p.got_ack) + 1 := by
        intro n
        rw [List.take_succ_cons, List.countP_cons_of_pos]
        simp [hga]
      simp only [List.length_cons, hcount]
      refine ⟨i1.trans a1, i2.trans a2, ?_, ?_, ?_, ?_⟩
      · rw [hqa, List.length_cons]
        omega
      · rw [i4, a4 hcond.1]
        omega
      · rw [i5, hqa, List.drop_succ_cons]
      · intro i hi
        cases i with
        | zero => simp [hqa]
        | succ j =>
          rw [hcount, List.getElem?_cons_succ, i6 j (by omega), hqa, List.getElem?_cons_succ]
    · obtain ⟨r1, hr1, rfl⟩ := Option.map_eq_some'.mp h
      have hqa := queued_ack q hr hw hcond.1
      obtain ⟨i1, i2, i3, i4, i5, i6⟩ := ih q r1 hr hw hr1
      have hcount : ∀ n, ((p :: ps).take (n + 1)).countP (fun p => p.got_ack)
          = (ps.take n).countP (fun p => p.got_ack) := by
        intro n
        rw [List.take_succ_cons, List.countP_cons_of_neg]
        simp [hga]
      simp only [List.length_cons, hcount]
      refine ⟨i1, i2, i3, i4, i5, ?_⟩
      intro i hi
      cases i with
      | zero => simp [hqa]
      | succ j =>
        rw [hcount, List.getElem?_cons_succ]
        exact i6 j (by omega)
    · simp only [Option.some.injEq] at h
      subst h
      simp only [List.length_nil, List.take_zero, List.countP_nil, Nat.add_zero, List.drop_zero,
        Nat.zero_le, true_and]
      exact ⟨by omega, fun i hi => absurd hi (Nat.not_lt_zero i)⟩

/-- C21 on the sample queue [7, 8, 9] with acknowledgements after the first and the third
send: the pass sends 7, 8 and 8 again, and leaves [9] queued. -/
theorem C21_delivery_pass_witness :
    sampleQueue3.read < 64 ∧ sampleQueue3.write < 64
      ∧ delivery_loop 0 sampleQueue3 ackedPasses = some sampleDelivery
      ∧ (sampleQueue3.queued, sampleDelivery.2, sampleDelivery.1.queued)
        = ([7, 8, 9], [7, 8, 8], [9])
      ∧ (sampleDelivery.1.write = sampleQueue3.write
          ∧ sampleDelivery.1.buffer = sampleQueue3.buffer
          ∧ (ackedPasses.take sampleDelivery.2.length).countP (fun p => p.got_ack)
              ≤ sampleQueue3.queued.length
          ∧ sampleDelivery.1.read
              = (sampleQueue3.read
                  + (ackedPasses.take sampleDelivery.2.length).countP (fun p => p.got_ack)) % 64
          ∧ sampleDelivery.1.queued
              = sampleQueue3.queued.drop
                  ((ackedPasses.take sampleDelivery.2.length).countP (fun p => p.got_ack))
          ∧ ∀ i, i < sampleDelivery.2.length →
              sampleDelivery.2[i]?
                = sampleQueue3.queued[(ackedPasses.take i).countP (fun p => p.got_ack)]?) :=
  ⟨by decide, by decide, rfl, by decide,
    C21_delivery_pass 0 ackedPasses sampleQueue3 sampleDelivery (by decide) (by decide) rfl⟩

/-! ### C22, C23: the packets sent to the app -/

/-- Sending a buffer at its full length puts exactly its bytes on the wire. -/
theorem send_data_all (msg : List Nat) : send_data msg msg.length = msg := by
  apply List.ext_getElem?
  intro i
  simp only [send_data, List.getElem?_map]
  by_cases hi : i < msg.length
  · rw [List.getElem?_range hi, List.getElem?_eq_getElem hi]
    simp [List.getD_eq_getElem?_getD, List.getElem?_eq_getElem hi]
  · rw [List.getElem?_eq_none (by simpa using hi), List.getElem?_eq_none (by simpa using hi)]
    rfl

/-- Four bytes written low byte first read back as the `uint32` value written. -/
theorem of_le32_le32 (v : Nat) (rest : List Nat) : of_le32 (le32 v ++ rest) = v % 2 ^ 32 := by
  have hp32 : (2 : Nat) ^ 32 = 4294967296 := by norm_num
  simp only [of_le32, le32, List.cons_append, List.nil_append, List.getD_cons_zero,
    List.getD_cons_succ]
  rw [hp32]
  omega

/-- The decoder result is a `uint32` value. -/
theorem dex_num_decoder_lt (x : Nat) : dex_num_decoder x < 2 ^ 32 := by
  simp only [dex_num_decoder]
  exact Nat.mod_lt _ (by norm_num)

/-- The bytes of a Data packet, field by field. -/
theorem print_packet_sent_eq (pPkt : Dexcom_packet) (battery_capacity now : Nat) :
    print_packet_sent pPkt battery_capacity now
      = [21, 0] ++ le32 (dex_num_decoder pPkt.raw)
          ++ le32 ((dex_num_decoder pPkt.filtered * 2) % 2 ^ 32)
          ++ [pPkt.battery % 256, battery_capacity % 256] ++ le32 pPkt.src_addr
          ++ le32 ((now + 2 ^ 32 - pPkt.ms % 2 ^ 32) % 2 ^ 32) ++ [1] := by
  have hlen : (print_packet pPkt battery_capacity now).size
      = (print_packet pPkt battery_capacity now).memory.length := rfl
  rw [print_packet_sent, hlen, send_data_all]
  rfl

/-- C22, as stated, fails: for the packet made of the sample frame, bridge battery 100 and a
clock 5 ms past the packet's `ms`, `print_packet` sends 21 bytes, the first being 21 (0x15) and
not 0x11; the bridge battery is the single byte at offset 11, the source address follows at
offset 12, and five more bytes (delay and protocol level) end the packet. -/
theorem C22_counterexample :
    print_packet_sent { bytes := sampleFrame } 100 5
      = [21, 0, 0, 0, 0, 0, 0, 0, 0, 0, 0, 100, 0x21, 0x43, 0x65, 0, 5, 0, 0, 0, 1]
      ∧ (print_packet_sent { bytes := sampleFrame } 100 5).length ≠ 0x11 := by
  decide

/-- C22, amended: every Data packet `print_packet` sends is 21 bytes long: the length byte
0x15 = 21, the type byte 0x00, the decoded raw value as u32, twice the decoded filtered value
as u32, the transmitter battery as u8, the bridge battery as u8, the source address of the
captured packet as u32, the time since the capture in ms as u32 and the protocol level byte
0x01, all little-endian. -/
theorem C22_data_packet_bytes (pPkt : Dexcom_packet) (battery_capacity now : Nat) :
    (print_packet_sent pPkt battery_capacity now).length = 21
      ∧ (print_packet_sent pPkt battery_capacity now)[0]? = some 0x15
      ∧ (print_packet_sent pPkt battery_capacity now)[1]? = some 0x00
      ∧ of_le32 ((print_packet_sent pPkt battery_capacity now).drop 2)
          = dex_num_decoder pPkt.raw
      ∧ of_le32 ((print_packet_sent pPkt battery_capacity now).drop 6)
          = (dex_num_decoder pPkt.filtered * 2) % 2 ^ 32
      ∧ (print_packet_sent pPkt battery_capacity now)[10]? = some (pPkt.battery % 256)
      ∧ (print_packet_sent pPkt battery_capacity now)[11]? = some (battery_capacity % 256)
      ∧ of_le32 ((print_packet_sent pPkt battery_capacity now).drop 12)
          = pPkt.src_addr % 2 ^ 32
      ∧ of_le32 ((print_packet_sent pPkt battery_capacity now).drop 16)
          = (now + 2 ^ 32 - pPkt.ms % 2 ^ 32) % 2 ^ 32
      ∧ (print_packet_sent pPkt battery_capacity now)[20]? = some DEXBRIDGE_PROTO_LEVEL := by
  rw [print_packet_sent_eq]
  have hraw := Nat.mod_eq_of_lt (dex_num_decoder_lt pPkt.raw)
  have h1 := of_le32_le32 (dex_num_decoder pPkt.raw)
    (le32 ((dex_num_decoder pPkt.filtered * 2) % 2 ^ 32)
      ++ [pPkt.battery % 256, battery_capacity % 256] ++ le32 pPkt.src_addr
      ++ le32 ((now + 2 ^ 32 - pPkt.ms % 2 ^ 32) % 2 ^ 32) ++ [1])
  have h2 := of_le32_le32 ((dex_num_decoder pPkt.filtered * 2) % 2 ^ 32)
    ([pPkt.battery % 256, battery_capacity % 256] ++ le32 pPkt.src_addr
      ++ le32 ((now + 2 ^ 32 - pPkt.ms % 2 ^ 32) % 2 ^ 32) ++ [1])
  have h3 := of_le32_le32 pPkt.src_addr
    (le32 ((now + 2 ^ 32 - pPkt.ms % 2 ^ 32) % 2 ^ 32) ++ [1])
  have h4 := of_le32_le32 ((now + 2 ^ 32 - pPkt.ms % 2 ^ 32) % 2 ^ 32) [1]
  rw [Nat.mod_mod] at h2 h4
  rw [hraw] at h1
  exact ⟨rfl, rfl, rfl, h1, h2, rfl, rfl, h3, h4, rfl⟩

/-- C23, as stated, fails: for the transmitter id 0x654321 `sendBeacon` sends 7 bytes, the
first being 0x07 and the last the protocol level 0x01. -/
theorem C23_counterexample :
    sendBeacon 0x654321 = [0x07, 0xF1, 0x21, 0x43, 0x65, 0x00, 0x01]
      ∧ (sendBeacon 0x654321).length ≠ 6 := by
  decide

/-- C23, amended: every Beacon packet `sendBeacon` sends is 7 bytes long: the length byte
0x07, the type byte 0xF1, the configured transmitter id `settings.dex_tx_id` as a little-endian
u32, and the protocol level byte 0x01. -/
theorem C23_beacon_bytes (dex_tx_id : Nat) :
    (sendBeacon dex_tx_id).length = 7
      ∧ (sendBeacon dex_tx_id)[0]? = some 0x07
      ∧ (sendBeacon dex_tx_id)[1]? = some 0xF1
      ∧ of_le32 ((sendBeacon dex_tx_id).drop 2) = dex_tx_id % 2 ^ 32
      ∧ (sendBeacon dex_tx_id)[6]? = some DEXBRIDGE_PROTO_LEVEL := by
  have hs : sendBeacon dex_tx_id = [7, 0xF1] ++ le32 dex_tx_id ++ [DEXBRIDGE_PROTO_LEVEL] :=
    send_data_all ([7, 0xF1] ++ le32 dex_tx_id ++ [DEXBRIDGE_PROTO_LEVEL])
  rw [hs]
  exact ⟨rfl, rfl, rfl, of_le32_le32 dex_tx_id [DEXBRIDGE_PROTO_LEVEL], rfl⟩

/-! ### C24, C25: `doCommand` -/

/-- C24: for every four payload bytes, `doCommand` on a UART command buffer holding the
Set-Identity frame `06 01 b0 b1 b2 b3` sets `settings.dex_tx_id` to
`b0 + 256*b1 + 65536*b2 + 16777216*b3` and leaves the battery limits, the flags and the baud
rate in `settings` unchanged. -/
theorem C24_set_identity (c : CommandState) (b0 b1 b2 b3 : Nat)
    (h0 : c.uart_buff 0 = 0x06) (h1 : c.uart_buff 1 = 0x01) (h2 : c.uart_buff 2 = b0)
    (h3 : c.uart_buff 3 = b1) (h4 : c.uart_buff 4 = b2) (h5 : c.uart_buff 5 = b3) :
    (doCommand c).2.settings.dex_tx_id = b0 + 256 * b1 + 65536 * b2 + 16777216 * b3
      ∧ (doCommand c).2.settings.battery_maximum = c.settings.battery_maximum
      ∧ (doCommand c).2.settings.battery_minimum = c.settings.battery_minimum
      ∧ (doCommand c).2.settings.flags = c.settings.flags
      ∧ (doCommand c).2.settings.uart_baudrate = c.settings.uart_baudrate := by
  have hbr : c.uart_buff 1 = 0x01 ∧ c.uart_buff 0 = 0x06 := ⟨h1, h0⟩
  unfold doCommand
  rw [if_pos hbr]
  simp only [saveSettingsToFlash, of_le32, h2, h3, h4, h5, List.getD_cons_zero,
    List.getD_cons_succ, and_self]

/-- C24 on the sample state, whose UART buffer holds `06 01 21 43 65 00`: the transmitter id
becomes 0x654321 and the other settings stay. -/
theorem C24_set_identity_witness :
    sampleCommandState.uart_buff 0 = 0x06 ∧ sampleCommandState.uart_buff 1 = 0x01
      ∧ sampleCommandState.uart_buff 2 = 0x21 ∧ sampleCommandState.uart_buff 3 = 0x43
      ∧ sampleCommandState.uart_buff 4 = 0x65 ∧ sampleCommandState.uart_buff 5 = 0x00
      ∧ (doCommand sampleCommandState).2.settings.dex_tx_id = 0x654321
      ∧ ((doCommand sampleCommandState).2.settings.dex_tx_id
            = 0x21 + 256 * 0x43 + 65536 * 0x65 + 16777216 * 0x00
          ∧ (doCommand sampleCommandState).2.settings.battery_maximum
            = sampleCommandState.settings.battery_maximum
          ∧ (doCommand sampleCommandState).2.settings.battery_minimum
            = sampleCommandState.settings.battery_minimum
          ∧ (doCommand sampleCommandState).2.settings.flags
            = sampleCommandState.settings.flags
          ∧ (doCommand sampleCommandState).2.settings.uart_baudrate
            = sampleCommandState.settings.uart_baudrate) :=
  ⟨by decide, by decide, by decide, by decide, by decide, by decide, by decide,
    C24_set_identity sampleCommandState 0x21 0x43 0x65 0x00 (by decide) (by decide) (by decide)
      (by decide) (by decide) (by decide)⟩

/-- C25: `doCommand` returns 0, which cancels a channel wait, exactly when the UART command
buffer holds a Set-Identity frame (byte 0 = 0x06, byte 1 = 0x01), or an Ack frame (byte 0 =
0x02, byte 1 = 0xF0) while no acknowledgement is recorded yet. For every other content of the
buffers, the USB status query and unrecognised commands among them, it returns 1. -/
theorem C25_doCommand_return (c : CommandState) :
    ((doCommand c).1 = 0
        ↔ ((c.uart_buff 0 = 0x06 ∧ c.uart_buff 1 = 0x01)
            ∨ (c.uart_buff 0 = 0x02 ∧ c.uart_buff 1 = 0xF0 ∧ c.got_ack = false)))
      ∧ (¬ ((c.uart_buff 0 = 0x06 ∧ c.uart_buff 1 = 0x01)
            ∨ (c.uart_buff 0 = 0x02 ∧ c.uart_buff 1 = 0xF0 ∧ c.got_ack = false))
          → (doCommand c).1 = 1) := by
  by_cases hid : c.uart_buff 1 = 0x01 ∧ c.uart_buff 0 = 0x06
  · have hret : (doCommand c).1 = 0 := by
      unfold doCommand
      rw [if_pos hid]
    exact ⟨⟨fun _ => Or.inl ⟨hid.2, hid.1⟩, fun _ => hret⟩,
      fun hn => absurd (Or.inl ⟨hid.2, hid.1⟩) hn⟩
  · by_cases hack : c.uart_buff 0 = 0x02 ∧ c.uart_buff 1 = 0xF0 ∧ c.got_ack = false
    · have hret : (doCommand c).1 = 0 := by
        unfold doCommand
        rw [if_neg hid, if_pos hack]
      exact ⟨⟨fun _ => Or.inr hack, fun _ => hret⟩, fun hn => absurd (Or.inr hack) hn⟩
    · have hret : (doCommand c).1 = 1 := by
        unfold doCommand
        rw [if_neg hid, if_neg hack]
      refine ⟨⟨fun h => ?_, ?_⟩, fun _ => hret⟩
      · rw [hret] at h
        exact absurd h (by decide)
      · rintro (h | h)
        · exact absurd ⟨h.2, h.1⟩ hid
        · exact absurd h hack

/-! ### C26: the normalized id is below 64 -/

/-- C26: for every raw `txId` byte and channel in 0..3 the normalized id
`((txId - channel) & 0xFC) >> 2`, computed in 8-bit arithmetic, is below 64; it therefore
differs from the initial last-seen value 64, and while the last-seen id still holds 64 a
CRC-valid frame that passes the identity filter is captured and its id recorded. -/
theorem C26_txid_below_64 (s : ScanState) (pkt : Dexcom_packet) (channel : Nat)
    (packet : Frame) (now FREQEST txId : Nat)
    (_htx : txId < 256) (_hch : channel < NUM_CHANNELS) (hinit : s.lastpktxid = 64)
    (hflt : (WaitForPacket_copy pkt packet).src_addr = s.dex_tx_id ∨ s.dex_tx_id = 0) :
    WaitForPacket_txid txId channel < 64
      ∧ WaitForPacket_txid txId channel ≠ 64
      ∧ (WaitForPacket_examine s pkt channel packet true now FREQEST).1 = 1
      ∧ (WaitForPacket_examine s pkt channel packet true now FREQEST).2.1.lastpktxid
          = WaitForPacket_txid (WaitForPacket_copy pkt packet).txId channel := by
  have hlt : ∀ t, WaitForPacket_txid t channel < 64 := by
    intro t
    have hr : txId_sub_channel t channel < 256 := by
      unfold txId_sub_channel
      exact Nat.mod_lt _ (by decide)
    unfold WaitForPacket_txid
    rw [and_FC_shift _ hr, Nat.shiftRight_eq_div_pow]
    have : (2 : Nat) ^ 2 = 4 := by norm_num
    rw [this]
    omega
  have hne : WaitForPacket_txid (WaitForPacket_copy pkt packet).txId channel ≠ s.lastpktxid := by
    rw [hinit]
    exact Nat.ne_of_lt (hlt _)
  refine ⟨hlt txId, Nat.ne_of_lt (hlt txId), ?_, ?_⟩
  · simp only [WaitForPacket_examine, if_true]
    by_cases hF : (0xff - s.fOffset channel) > (FREQEST : Int) <;> simp [hF, hflt, hne]
  · simp only [WaitForPacket_examine, if_true]
    by_cases hF : (0xff - s.fOffset channel) > (FREQEST : Int) <;> simp [hF, hflt, hne]

/-- C26 on the sample frame (raw id 0x2D) on channel 1 in the start-up state: the normalized
id is 11 and the frame is captured. -/
theorem C26_txid_below_64_witness :
    0x2D < 256 ∧ 1 < NUM_CHANNELS ∧ sampleScanState.lastpktxid = 64
      ∧ ((WaitForPacket_copy sampleState.pkt sampleFrame).src_addr = sampleScanState.dex_tx_id
          ∨ sampleScanState.dex_tx_id = 0)
      ∧ WaitForPacket_txid 0x2D 1 = 11
      ∧ (WaitForPacket_txid 0x2D 1 < 64
          ∧ WaitForPacket_txid 0x2D 1 ≠ 64
          ∧ (WaitForPacket_examine sampleScanState sampleState.pkt 1 sampleFrame true 5000
              3).1 = 1
          ∧ (WaitForPacket_examine sampleScanState sampleState.pkt 1 sampleFrame true 5000
              3).2.1.lastpktxid
              = WaitForPacket_txid (WaitForPacket_copy sampleState.pkt sampleFrame).txId 1) :=
  ⟨by decide, by decide, by decide, by decide, by decide,
    C26_txid_below_64 sampleScanState sampleState.pkt 1 sampleFrame 5000 3 0x2D (by decide)
      (by decide) (by decide) (by decide)⟩

/-! ### C27: the queue indices in every reachable state -/

/-- Insert and acknowledge steps keep both indices below 64. -/
theorem run_bounds {α : Type} (steps : List (QueueStep α)) :
    ∀ q : Dexcom_fifo α, q.read < 64 → q.write < 64 →
      (q.run steps).read < 64 ∧ (q.run steps).write < 64 := by
  induction steps with
  | nil =>
    intro q hr hw
    exact ⟨hr, hw⟩
  | cons st rest ih =>
    intro q hr hw
    simp only [Dexcom_fifo.run, List.foldl_cons] at ih ⊢
    cases st with
    | insert p =>
      obtain ⟨h1, h2⟩ := insert_bounds q p hr
      exact ih (q.insert p) h1 h2
    | ack =>
      obtain ⟨a1, _, a3, _⟩ := ack_fields q hr
      exact ih q.ack a3 (by rw [a1]; exact hw)

/-- C27: in every state reached from `read = write = 0` by insert steps and acknowledge steps
of the main loop, both indices are below 64 and the queue holds `(write - read) mod 64`
entries, at most 63, in the slots `read, read + 1, ...` modulo 64; none of these slots is the
slot at the write index, the one the next scan writes to. -/
theorem C27_queue_invariant {α : Type} (buffer : Nat → α) (steps : List (QueueStep α)) :
    ((Dexcom_fifo.init buffer).run steps).read < 64
      ∧ ((Dexcom_fifo.init buffer).run steps).write < 64
      ∧ ((Dexcom_fifo.init buffer).run steps).queued.length
          = (((Dexcom_fifo.init buffer).run steps).write + 64
              - ((Dexcom_fifo.init buffer).run steps).read) % 64
      ∧ ((Dexcom_fifo.init buffer).run steps).queued.length ≤ 63
      ∧ ((Dexcom_fifo.init buffer).run steps).queued
          = (List.range ((Dexcom_fifo.init buffer).run steps).queued.length).map
              (fun k => ((Dexcom_fifo.init buffer).run steps).buffer
                ((((Dexcom_fifo.init buffer).run steps).read + k) % 64))
      ∧ ∀ k, k < ((Dexcom_fifo.init buffer).run steps).queued.length →
          (((Dexcom_fifo.init buffer).run steps).read + k) % 64
            ≠ ((Dexcom_fifo.init buffer).run steps).write := by
  obtain ⟨hr, hw⟩ := run_bounds steps (Dexcom_fifo.init buffer)
    (by simp [Dexcom_fifo.init]) (by simp [Dexcom_fifo.init])
  generalize (Dexcom_fifo.init buffer).run steps = q at hr hw
  have hlen := queued_length q hr hw
  refine ⟨hr, hw, hlen, ?_, ?_, ?_⟩
  · rw [hlen]
    omega
  · rw [hlen]
    exact queued_eq_map q hr hw
  · intro k hk
    rw [hlen] at hk
    omega

/-! ### C28: termination and range of `calcSleep` -/

/-- C28: `calcSleep` returns 0 when no capture has occurred (`pkt_time = 0`). Otherwise, for
every clock value and `last_channel` in 0..3, with `target = 280000 - 500 * last_channel`, the
fold loop ends (15423 iterations are enough for any 32-bit elapsed time) with a value of at
most `target`, so the final subtraction does not wrap, and the result lies between 0 and
`target` inclusive. -/
theorem C28_calcSleep_bounds (fuel pkt_time now last_channel : Nat)
    (hlc : last_channel < NUM_CHANNELS) (hfuel : 15423 ≤ fuel) :
    (pkt_time = 0 → calcSleep fuel pkt_time now last_channel = some 0)
      ∧ (pkt_time ≠ 0 →
          ∃ less1 v,
            calcSleep_loop (280000 - 500 * last_channel) fuel
                ((now + 2 ^ 32 - pkt_time) % 2 ^ 32) = some less1
              ∧ less1 ≤ 280000 - 500 * last_channel
              ∧ calcSleep fuel pkt_time now last_channel = some v
              ∧ v = 280000 - 500 * last_channel - less1
              ∧ v ≤ 280000 - 500 * last_channel) := by
  have hp32 : (2 : Nat) ^ 32 = 4294967296 := by norm_num
  have hT : (DX_PKT_INTERVAL + 2 ^ 32 - wake_before_packet - last_channel * 500) % 2 ^ 32
      = 280000 - 500 * last_channel := by
    simp only [DX_PKT_INTERVAL, wake_before_packet, NUM_CHANNELS] at hlc ⊢
    omega
  have hTlo : 278500 ≤ 280000 - 500 * last_channel := by
    simp only [NUM_CHANNELS] at hlc
    omega
  have hThi : 280000 - 500 * last_channel ≤ 280000 := by omega
  constructor
  · intro h0
    simp [calcSleep, h0]
  · intro hne
    have hE : (now + 2 ^ 32 - pkt_time) % 2 ^ 32 < 2 ^ 32 := Nat.mod_lt _ (by decide)
    have hcs : calcSleep fuel pkt_time now last_channel
        = (match calcSleep_loop (280000 - 500 * last_channel) fuel
              ((now + 2 ^ 32 - pkt_time) % 2 ^ 32) with
          | none => none
          | some less1 => some ((280000 - 500 * last_channel + 2 ^ 32 - less1) % 2 ^ 32)) := by
      simp only [calcSleep, hT, if_neg hne]
    rw [hcs]
    generalize (now + 2 ^ 32 - pkt_time) % 2 ^ 32 = E at hE
    generalize 280000 - 500 * last_channel = T at hTlo hThi
    have hTpos : 0 < T := by omega
    have hq : E / T < fuel := by
      have h1 : E / T ≤ E / 278500 := Nat.div_le_div_left hTlo (by decide)
      have h2 : E / 278500 < 15423 := by
        rw [hp32] at hE
        omega
      omega
    have hloop := calcSleep_loop_eq T hTpos fuel E hq
    have hle : (if E = 0 then 0 else (E - 1) % T + 1) ≤ T := by
      split
      · exact Nat.zero_le _
      · have := Nat.mod_lt (E - 1) hTpos
        omega
    rw [hloop]
    generalize (if E = 0 then 0 else (E - 1) % T + 1) = e at hle
    refine ⟨e, T - e, rfl, hle, ?_, rfl, Nat.sub_le _ _⟩
    simp only [Option.some.injEq]
    rw [hp32]
    omega

/-- C28 with last capture at 1000, clock 1000000 and `last_channel = 2` (target 279000,
elapsed 999000): the loop leaves 162000 and `calcSleep` returns 117000. -/
theorem C28_calcSleep_bounds_witness :
    2 < NUM_CHANNELS ∧ 15423 ≤ 15423
      ∧ calcSleep 15423 1000 1000000 2 = some 117000
      ∧ ((1000 = 0 → calcSleep 15423 1000 1000000 2 = some 0)
        ∧ (1000 ≠ 0 →
            ∃ less1 v,
              calcSleep_loop (280000 - 500 * 2) 15423 ((1000000 + 2 ^ 32 - 1000) % 2 ^ 32)
                  = some less1
                ∧ less1 ≤ 280000 - 500 * 2
                ∧ calcSleep 15423 1000 1000000 2 = some v
                ∧ v = 280000 - 500 * 2 - less1
                ∧ v ≤ 280000 - 500 * 2)) :=
  ⟨by decide, by decide, by decide,
    C28_calcSleep_bounds 15423 1000 1000000 2 (by decide) (by decide)⟩

/-! ### C29: the clock-rollover branch of the channel-0 window -/

/-- The clock part is what `get_packet` goes on from: the channel-0 window with `timed_out`
clear is the clock part, corrected by the channel and the pad when it is not 0, and then
reduced. -/
theorem get_packet_delay_interval (crc_error : Bool)
    (pkt_time last_channel ms_cmp ms_calc : Nat) :
    get_packet_delay START_CHANNEL false crc_error pkt_time last_channel ms_cmp ms_calc
      = get_packet_reduce
          ((if get_packet_interval pkt_time ms_cmp ms_calc > 0 then
              (if crc_error then
                (sub32 (get_packet_interval pkt_time ms_cmp ms_calc) (last_channel * 500) + 10)
                  % 2 ^ 32
               else sub32 (get_packet_interval pkt_time ms_cmp ms_calc) (last_channel * 500))
            else get_packet_interval pkt_time ms_cmp ms_calc) / DX_PKT_INTERVAL)
          (if get_packet_interval pkt_time ms_cmp ms_calc > 0 then
              (if crc_error then
                (sub32 (get_packet_interval pkt_time ms_cmp ms_calc) (last_channel * 500) + 10)
                  % 2 ^ 32
               else sub32 (get_packet_interval pkt_time ms_cmp ms_calc) (last_channel * 500))
            else get_packet_interval pkt_time ms_cmp ms_calc) := by
  simp only [get_packet_delay, get_packet_interval, START_CHANNEL, ne_eq, not_true_eq_false,
    if_false, Bool.false_eq_true, false_and]

/-- C29: for every clock reading below `pkt_time`, the rollover branch of the channel-0
calculation yields `300000 - ((clock - pkt_time) mod 2^32) + 1` in 32-bit arithmetic, which is
1 more than what the standard branch's formula gives for the same wrapped elapsed time; when
the wrapped elapsed time is at most 300000 this is the plain number
`300000 - elapsed + 1`. -/
theorem C29_rollover_branch (pkt_time clock : Nat) (hlt : clock < pkt_time)
    (h32 : pkt_time < 2 ^ 32) :
    sub32 clock pkt_time = clock + 2 ^ 32 - pkt_time
      ∧ get_packet_interval pkt_time clock clock
          = (sub32 DX_PKT_INTERVAL (sub32 clock pkt_time) + 1) % 2 ^ 32
      ∧ (sub32 clock pkt_time ≤ DX_PKT_INTERVAL →
          get_packet_interval pkt_time clock clock
            = DX_PKT_INTERVAL - sub32 clock pkt_time + 1) := by
  have hp32 : (2 : Nat) ^ 32 = 4294967296 := by norm_num
  have hne : pkt_time ≠ 0 := by omega
  simp only [get_packet_interval, if_neg hne, if_pos hlt, sub32, DX_PKT_INTERVAL]
  rw [hp32] at *
  refine ⟨?_, ?_, ?_⟩
  · omega
  · omega
  · intro h
    omega

/-- C29 with `pkt_time` = 4294967000 and clock 100 (wrapped elapsed time 396): the rollover
branch yields 300000 - 396 + 1 = 299605. -/
theorem C29_rollover_branch_witness :
    100 < 4294967000 ∧ 4294967000 < 2 ^ 32
      ∧ get_packet_interval 4294967000 100 100 = 299605
      ∧ (sub32 100 4294967000 = 100 + 2 ^ 32 - 4294967000
        ∧ get_packet_interval 4294967000 100 100
            = (sub32 DX_PKT_INTERVAL (sub32 100 4294967000) + 1) % 2 ^ 32
        ∧ (sub32 100 4294967000 ≤ DX_PKT_INTERVAL →
            get_packet_interval 4294967000 100 100
              = DX_PKT_INTERVAL - sub32 100 4294967000 + 1)) :=
  ⟨by decide, by norm_num, by decide,
    C29_rollover_branch 4294967000 100 (by decide) (by norm_num)⟩

/-! ### C30: the identifier table is injective -/

/-- Looking a table entry up again by its character gives its index back: the 32 characters
are pairwise distinct. -/
theorem SrcNameTable_indexOf :
    ∀ i, i < 32 → SrcNameTable.indexOf (SrcNameTable.getD i (Char.ofNat 0)) = i := by
  set_option maxRecDepth 100000 in decide

/-- Equal characters at two 5-bit indices mean equal indices. -/
theorem SrcNameTable_inj (x y : Nat)
    (h : SrcNameTable.getD (x &&& 0x1F) (Char.ofNat 0)
      = SrcNameTable.getD (y &&& 0x1F) (Char.ofNat 0)) :
    x % 32 = y % 32 := by
  have hx : x &&& 0x1F = x % 2 ^ 5 := Nat.and_pow_two_sub_one_eq_mod x 5
  have hy : y &&& 0x1F = y % 2 ^ 5 := Nat.and_pow_two_sub_one_eq_mod y 5
  have h5 : (2 : Nat) ^ 5 = 32 := by norm_num
  rw [hx, hy, h5] at h
  have h1 := SrcNameTable_indexOf (x % 32) (Nat.mod_lt _ (by decide))
  have h2 := SrcNameTable_indexOf (y % 32) (Nat.mod_lt _ (by decide))
  rw [← h1, ← h2, h]

/-- C30: `SrcNameTable` holds 32 pairwise distinct characters, none of them `I`, `O`, `V` or
`Z`, and `dexcom_src_to_ascii` is injective on 25-bit addresses: two addresses below 2^25
whose five identifier characters agree are equal. -/
theorem C30_src_to_ascii_injective (a b : Nat) (ha : a < 2 ^ 25) (hb : b < 2 ^ 25)
    (h : (dexcom_src_to_ascii a).take 5 = (dexcom_src_to_ascii b).take 5) :
    a = b
      ∧ SrcNameTable.length = 32 ∧ SrcNameTable.Nodup
      ∧ 'I' ∉ SrcNameTable ∧ 'O' ∉ SrcNameTable ∧ 'V' ∉ SrcNameTable
      ∧ 'Z' ∉ SrcNameTable := by
  refine ⟨?_, by decide, by decide, by decide, by decide, by decide, by decide⟩
  simp only [dexcom_src_to_ascii, List.take_succ_cons, List.take_zero, List.cons.injEq,
    and_true] at h
  obtain ⟨h20, h15, h10, h5, h0⟩ := h
  have e20 := SrcNameTable_inj _ _ h20
  have e15 := SrcNameTable_inj _ _ h15
  have e10 := SrcNameTable_inj _ _ h10
  have e5 := SrcNameTable_inj _ _ h5
  have e0 := SrcNameTable_inj _ _ h0
  simp only [Nat.shiftRight_eq_div_pow] at e20 e15 e10 e5 e0
  norm_num at e20 e15 e10 e5 e0 ha hb
  omega

/-- C30 on the address 0x654321, whose identifier is `6AGR1`. -/
theorem C30_src_to_ascii_injective_witness :
    0x654321 < 2 ^ 25
      ∧ (dexcom_src_to_ascii 0x654321).take 5 = ['6', 'A', 'G', 'R', '1']
      ∧ (0x654321 = 0x654321
        ∧ SrcNameTable.length = 32 ∧ SrcNameTable.Nodup
        ∧ 'I' ∉ SrcNameTable ∧ 'O' ∉ SrcNameTable ∧ 'V' ∉ SrcNameTable
        ∧ 'Z' ∉ SrcNameTable) :=
  ⟨by norm_num, by decide,
    C30_src_to_ascii_injective 0x654321 0x654321 (by norm_num) (by norm_num) rfl⟩

end XBridge
